import Mathlib

/-!
# Read-through cache layer of the `fs` backend

A shallow embedding of `internal/cache/{item,mob,room}.go` and
`internal/dao/{item,mob,room}.go`.

* Go `error` values are the inductive `Error`; `errors.Is` is `errorsIs`.
* A Go result pair `(*T, error)` is `Option T × Option Error`: the pointer may be
  nil and the error may be nil, independently.
* The cache backend (`cache.Cache` of the sponge library), the entity cache adapter
  (`cache.MobCache` and its siblings) and the ORM handle (`*gorm.DB`) are interfaces in
  Go; here each is a record of state-passing functions over an arbitrary state type.
* Every call a repository method makes through one of those interfaces is appended to
  `World.trace`, so that "reads the store once" or "never calls Set" are statements
  about the trace.
* The three repositories are one text up to the key type, the record type and a few
  constants; `Kind` collects exactly those differences, and `mobKind`, `itemKind`,
  `roomKind` instantiate it. The three adapters likewise share `xCache` over `CacheKind`.
* `MemCache` and `Table` are a backend and a store small enough to evaluate; the
  theorems are stated over arbitrary collaborators and run on these two.
* `Op`, `Op.run` and `Reachable` present the repository as a transition system, for the
  statements about every operation and every reachable state.
-/

set_option autoImplicit false

namespace Fs

/-! ## Errors -/

/-- Go error values. `sentinel` stands for a package-level error variable (compared by
identity), `new` for a fresh `errors.New(msg)`, `wrap` for `fmt.Errorf("...%w", inner)`
and `join` for `errors.Join(a, b)`. -/
inductive Error where
  | sentinel (name : String)
  | new (msg : String)
  | wrap (msg : String) (inner : Error)
  | join (a b : Error)
  deriving DecidableEq, Repr

/-- The standard library `errors.Is(err, target)` for a comparable target: walk the
chain of wrapped errors, depth first, looking for a value equal to the target. -/
def errorsIs : Error → Error → Bool
  | .sentinel n, t => decide (Error.sentinel n = t)
  | .new m, t => decide (Error.new m = t)
  | .wrap m i, t => decide (Error.wrap m i = t) || errorsIs i t
  | .join a b, t => decide (Error.join a b = t) || errorsIs a t || errorsIs b t

/-- The method `err.Error()`: the message of an error. -/
def Error.message : Error → String
  | .sentinel name => name
  | .new msg => msg
  | .wrap msg inner => msg ++ ": " ++ inner.message
  | .join a b => a.message ++ "\n" ++ b.message

/-- Modelled from the spec: `database.ErrCacheNotFound`, declared in `internal/database`
(not among the sources). It is the spec's `CacheMiss` signal, "look at the store",
distinct from `NotFound` and from `PlaceholderHit`. -/
def ErrCacheNotFound : Error := .sentinel "database.ErrCacheNotFound"

/-- Modelled from the spec: `database.ErrRecordNotFound`, declared in `internal/database`
(not among the sources). It is the spec's `NotFound` error of the persistence store. -/
def ErrRecordNotFound : Error := .sentinel "database.ErrRecordNotFound"

/-- The sentinel `cache.ErrPlaceholder` of the sponge cache library: the value read from
the backend was the not-found placeholder (the spec's `PlaceholderHit`). -/
def ErrPlaceholder : Error := .sentinel "cache.ErrPlaceholder"

/-! ## Durations -/

/-- Go `time.Duration`: a signed count of nanoseconds. -/
abbrev Duration := Int

/-- Go `time.Minute`. -/
def Minute : Duration := 60 * 1000000000

/-! ## The cache backend (`cache.Cache` of the sponge library) -/

/-- The methods of the backend interface `cache.Cache` that the adapters call, over a
backend state `B`. `Get` receives the address of a nil record pointer and returns what that
pointer holds afterwards together with the error. -/
structure Cache (B Rec : Type) where
  Set : B → String → Rec → Duration → Option Error × B
  Get : B → String → (Option Rec × Option Error) × B
  Del : B → String → Option Error × B
  SetCacheWithNotFound : B → String → Option Error × B

/-- A Go map as the list of its entries, each key once. -/
abbrev GoMap (K V : Type) := List (K × V)

/-- The map assignment `m[k] = v`. -/
def GoMap.set {K V : Type} [DecidableEq K] (m : GoMap K V) (k : K) (v : V) : GoMap K V :=
  (k, v) :: m.filter (fun e => e.1 ≠ k)

/-- The map read `v, ok := m[k]`. -/
def GoMap.get {K V : Type} [DecidableEq K] (m : GoMap K V) (k : K) : Option V :=
  m.lookup k

/-- The batch methods of the backend interface `cache.Cache`.
* `MultiSet valMap duration` writes every entry of the map.
* `MultiGet keys` receives an empty map and returns what that map holds afterwards
  together with the error. -/
structure CacheMulti (B Rec : Type) where
  MultiSet : B → GoMap String Rec → Duration → Option Error × B
  MultiGet : B → List String → (GoMap String Rec × Option Error) × B

/-! ## The entity cache adapter (`internal/cache`) -/

/-- The interface `cache.MobCache` (and `ItemCache`, `RoomCache`) as the repository
sees it, over an adapter state `C`. -/
structure XCache (C Id Rec : Type) where
  Set : C → Id → Option Rec → Duration → Option Error × C
  Get : C → Id → (Option Rec × Option Error) × C
  Del : C → Id → Option Error × C
  SetPlaceholder : C → Id → Option Error × C
  IsPlaceholderErr : Error → Bool

/-- What differs between `itemCache`, `mobCache` and `roomCache`. -/
structure CacheKind (Id : Type) where
  /-- The constant `mobCachePrefixKey` of the kind. -/
  cachePrefixKey : String
  /-- The string form of an id appended to the prefix. -/
  idStr : Id → String
  /-- The key test of `Set` next to `data == nil`: `id == 0` for item and mob, absent
  (always false) for room. -/
  skipId : Id → Bool

/-- The helper `utils.Uint64ToStr`, that is `strconv.FormatUint(id, 10)`. -/
def Uint64ToStr (id : Nat) : String := toString id

def itemCachePrefixKey : String := "item:"
def mobCachePrefixKey : String := "mob:"
def roomCachePrefixKey : String := "room:"

/-- The constants `ItemExpireTime`, `MobExpireTime`, `RoomExpireTime`. -/
def ItemExpireTime : Duration := 5 * Minute
def MobExpireTime : Duration := 5 * Minute
def RoomExpireTime : Duration := 5 * Minute

def itemCacheKind : CacheKind Nat :=
  { cachePrefixKey := itemCachePrefixKey, idStr := Uint64ToStr, skipId := fun id => id == 0 }

def mobCacheKind : CacheKind Nat :=
  { cachePrefixKey := mobCachePrefixKey, idStr := Uint64ToStr, skipId := fun id => id == 0 }

def roomCacheKind : CacheKind String :=
  { cachePrefixKey := roomCachePrefixKey, idStr := fun id => id, skipId := fun _ => false }

namespace xCache

variable {B Id Rec : Type}

/-- The method `GetMobCacheKey` (`GetItemCacheKey`, `GetRoomCacheKey`). -/
def GetCacheKey (ck : CacheKind Id) (id : Id) : String :=
  ck.cachePrefixKey ++ ck.idStr id

/-- The method `Set`: skip a nil record (and, for item and mob, a zero id), otherwise
write under the cache key and pass the backend error on. -/
def Set (ck : CacheKind Id) (c : Cache B Rec) (b : B) (id : Id) (data : Option Rec)
    (duration : Duration) : Option Error × B :=
  match data with
  | none => (none, b)
  | some rec =>
    if ck.skipId id then (none, b)
    else
      let cacheKey := GetCacheKey ck id
      match c.Set b cacheKey rec duration with
      | (some err, b1) => (some err, b1)
      | (none, b1) => (none, b1)

/-- The method `Get`: on a backend error return a nil record and that error, otherwise
the record the backend decoded. -/
def Get (ck : CacheKind Id) (c : Cache B Rec) (b : B) (id : Id) :
    (Option Rec × Option Error) × B :=
  let cacheKey := GetCacheKey ck id
  match c.Get b cacheKey with
  | ((_, some err), b1) => ((none, some err), b1)
  | ((data, none), b1) => ((data, none), b1)

/-- The method `Del`. -/
def Del (ck : CacheKind Id) (c : Cache B Rec) (b : B) (id : Id) : Option Error × B :=
  let cacheKey := GetCacheKey ck id
  match c.Del b cacheKey with
  | (some err, b1) => (some err, b1)
  | (none, b1) => (none, b1)

/-- The method `SetPlaceholder`. -/
def SetPlaceholder (ck : CacheKind Id) (c : Cache B Rec) (b : B) (id : Id) :
    Option Error × B :=
  let cacheKey := GetCacheKey ck id
  c.SetCacheWithNotFound b cacheKey

/-- The method `IsPlaceholderErr`: `errors.Is(err, cache.ErrPlaceholder)`. -/
def IsPlaceholderErr (err : Error) : Bool :=
  errorsIs err ErrPlaceholder

/-- An adapter of kind `ck` over the backend `c`, packed as the interface the
repository consumes. -/
def toXCache (ck : CacheKind Id) (c : Cache B Rec) : XCache B Id Rec :=
  { Set := Set ck c
    Get := Get ck c
    Del := Del ck c
    SetPlaceholder := SetPlaceholder ck c
    IsPlaceholderErr := IsPlaceholderErr }

/-- The method `MultiSet`: build the map from cache key to record (a later record with
the same id replaces an earlier one) and hand it to the backend. `ID` is the field `v.ID`;
the records are taken non-nil (a nil one panics at `v.ID`). No record is skipped, not even
one with the zero id. -/
def MultiSet (ck : CacheKind Id) (ID : Rec → Id) (cm : CacheMulti B Rec) (b : B)
    (data : List Rec) (duration : Duration) : Option Error × B :=
  let valMap : GoMap String Rec :=
    data.foldl (fun valMap v => GoMap.set valMap (GetCacheKey ck (ID v)) v) []
  match cm.MultiSet b valMap duration with
  | (some err, b1) => (some err, b1)
  | (none, b1) => (none, b1)

/-- The method `MultiGet`: ask the backend for the keys of the ids, then keep, for every
id of the list, the value the backend returned under its key. The returned map is `none`
for a nil map. -/
def MultiGet [DecidableEq Id] (ck : CacheKind Id) (cm : CacheMulti B Rec) (b : B)
    (ids : List Id) : (Option (GoMap Id Rec) × Option Error) × B :=
  let keys : List String := ids.foldl (fun keys v => keys ++ [GetCacheKey ck v]) []
  match cm.MultiGet b keys with
  | ((_, some err), b1) => ((none, some err), b1)
  | ((itemMap, none), b1) =>
    let retMap : GoMap Id Rec :=
      ids.foldl (fun retMap id =>
        match GoMap.get itemMap (GetCacheKey ck id) with
        | some val => GoMap.set retMap id val
        | none => retMap) []
    ((some retMap, none), b1)

/-- Modelled from the spec: `database.CacheType`, declared in `internal/database` (not
among the sources): the cache configuration, a selector `CType` choosing the backend kind
and the connection `Rdb` of the shared backend. -/
structure CacheType (R : Type) where
  CType : String
  Rdb : R

/-- The constructor `NewMobCache` (`NewItemCache`, `NewRoomCache`): the adapter over the
backend the selector names, or nil. `toLower` is `strings.ToLower`; `NewRedisCache` and
`NewMemoryCache` are the backend constructors of the sponge library, given the backend
prefix (the JSON encoding and the record allocator they also take are left out). -/
def NewCache {R : Type} (toLower : String → String) (NewRedisCache : R → String → Cache B Rec)
    (NewMemoryCache : String → Cache B Rec) (ck : CacheKind Id) (cacheType : CacheType R) :
    Option (XCache B Id Rec) :=
  let cachePrefix := ""
  let cType := toLower cacheType.CType
  if cType = "redis" then some (toXCache ck (NewRedisCache cacheType.Rdb cachePrefix))
  else if cType = "memory" then some (toXCache ck (NewMemoryCache cachePrefix))
  else none -- no cache

end xCache

/-! ## Records (`internal/model`) -/

/-- The struct `model.Mob`. `Attackable` is a pointer to a `sgorm.TinyBool`. The `uint64`
key is a natural number and the `int` fields are integers: the repositories compare them
with zero and pass them on, and do no arithmetic on them. -/
structure Mob where
  ID : Nat
  MobID : String
  MobName : String
  MobCname : String
  MobDesc : String
  Attackable : Option Bool
  Hp : Int
  Mp : Int
  Attack : Int
  Defence : Int
  Dodge : Int
  deriving DecidableEq, Repr

/-- The struct `model.Item`. -/
structure Item where
  ID : Nat
  ItemID : String
  ItemName : String
  ItemCname : String
  ItemDesc : String
  Hp : Int
  Mp : Int
  Attack : Int
  Defence : Int
  Dodge : Int
  Str : Int
  Cor : Int
  Inte : Int
  Dex : Int
  Con : Int
  Kar : Int
  Classifier : String
  deriving DecidableEq, Repr

/-- The struct `model.Room`. -/
structure Room where
  ID : String
  Title : String
  Desc : String
  Way : String
  Mobs : String
  deriving DecidableEq, Repr

/-- The whitelist `model.ItemColumnNames` (the names mapped to true). -/
def ItemColumnNames : List String :=
  ["id", "item_id", "item_name", "item_cname", "item_desc", "hp", "mp", "attack", "defence",
   "dodge", "str", "cor", "inte", "dex", "con", "kar", "classifier"]

/-- The whitelist `model.MobColumnNames` (the names mapped to true). -/
def MobColumnNames : List String :=
  ["id", "mob_id", "mob_name", "mob_cname", "mob_desc", "attackable", "hp", "mp", "attack",
   "defence", "dodge"]

/-- The whitelist `model.RoomColumnNames` (the names mapped to true). -/
def RoomColumnNames : List String := ["id", "title", "desc", "way", "mobs"]

/-- The zero value `model.Mob{}`. -/
def Mob.zero : Mob :=
  { ID := 0, MobID := "", MobName := "", MobCname := "", MobDesc := "", Attackable := none,
    Hp := 0, Mp := 0, Attack := 0, Defence := 0, Dodge := 0 }

/-- The zero value `model.Item{}`. -/
def Item.zero : Item :=
  { ID := 0, ItemID := "", ItemName := "", ItemCname := "", ItemDesc := "",
    Hp := 0, Mp := 0, Attack := 0, Defence := 0, Dodge := 0,
    Str := 0, Cor := 0, Inte := 0, Dex := 0, Con := 0, Kar := 0, Classifier := "" }

/-- The zero value `model.Room{}`. -/
def Room.zero : Room :=
  { ID := "", Title := "", Desc := "", Way := "", Mobs := "" }

/-! ## The persistence store (`*gorm.DB`) -/

/-- A value stored in the `map[string]interface{}` handed to `Updates`. -/
inductive Value where
  | str (s : String)
  | int (i : Int)
  | tinyBool (b : Bool)
  deriving DecidableEq, Repr

/-- A `*gorm.DB` handle: the repository's own `d.db`, or a transaction `tx` supplied by
the caller. -/
abbrev Handle := Nat

/-- The ORM calls the repositories make on one table, over a store state `S`.
* `Create h table` is `h.Create(table)`: returns the record with the id written back.
* `Delete h id` is `h.Where("id = ?", id).Delete(&model.X{})`.
* `Updates h table update` is `h.Model(table).Updates(update)`.
* `First h id dest` is `h.Where("id = ?", id).First(dest)`: returns what `dest` holds
  afterwards. -/
structure DB (S Id Rec : Type) where
  Create : S → Handle → Rec → (Rec × Option Error) × S
  Delete : S → Handle → Id → Option Error × S
  Updates : S → Handle → Rec → List (String × Value) → Option Error × S
  First : S → Handle → Id → Rec → (Rec × Option Error) × S

/-- The struct `query.Params` of the sponge library: the repositories read and write the
field `Sort` (here `sort`); the other fields (page, limit, columns) are the payload
`rest`. -/
structure Params (P : Type) where
  sort : String
  rest : P

/-- The two methods of `query.Params` the repositories call.
* `ConvertToGormConditions params whitelist` returns the condition string, its arguments
  and an error.
* `ConvertToPage params` returns the order, the limit and the offset. -/
structure QueryLib (P : Type) where
  ConvertToGormConditions : Params P → List String → (String × List Value) × Option Error
  ConvertToPage : Params P → String × Int × Int

/-- The ORM calls of `GetByColumns` on one table.
* `Count h queryStr args` is `h.Model(&model.X{}).Where(queryStr, args...).Count(&total)`:
  returns what `total` holds afterwards.
* `Find h order limit offset queryStr args` is
  `h.Order(order).Limit(limit).Offset(offset).Where(queryStr, args...).Find(&records)`:
  returns what `records` holds afterwards. -/
structure DBQuery (S Rec : Type) where
  Count : S → Handle → String → List Value → (Int × Option Error) × S
  Find : S → Handle → String → Int → Int → String → List Value →
    (List Rec × Option Error) × S

/-! ## The observable world of a repository -/

/-- One call through an interface of the repository. -/
inductive Event (Id Rec : Type) where
  | dbCreate (h : Handle) (table : Rec)
  | dbDelete (h : Handle) (id : Id)
  | dbUpdates (h : Handle) (table : Rec) (update : List (String × Value))
  | dbFirst (h : Handle) (id : Id)
  | dbCount (h : Handle) (queryStr : String) (args : List Value)
  | dbFind (h : Handle) (order : String) (limit offset : Int) (queryStr : String)
      (args : List Value)
  | cacheGet (id : Id)
  | cacheSet (id : Id) (data : Option Rec) (duration : Duration)
  | cacheDel (id : Id)
  | cacheSetPlaceholder (id : Id)
  | sfgDo (key : String)
  deriving DecidableEq, Repr

/-- The state a repository acts on: the store, the cache behind the adapter, and the
calls made so far (oldest first). -/
structure World (S C Id Rec : Type) where
  db : S
  cache : C
  trace : List (Event Id Rec)

/-- The `singleflight.Group` of a repository. With one caller at a time no call is ever
in flight when `Do` is entered, so the group carries no state of its own. -/
structure Group where
  deriving DecidableEq, Repr

/-- The struct `mobDao` (`itemDao`, `roomDao`): `cache` is nil when the cache is not used,
and then `sfg` is nil too. -/
structure Dao (C Id Rec : Type) where
  db : Handle
  cache : Option (XCache C Id Rec)
  sfg : Option Group

/-! ## Calls through the interfaces, recorded in the trace -/

section calls

variable {S C Id Rec : Type}

/-- The call `h.Create(table)`. -/
def dbCreate (g : DB S Id Rec) (h : Handle) (table : Rec) (w : World S C Id Rec) :
    (Rec × Option Error) × World S C Id Rec :=
  let r := g.Create w.db h table
  (r.1, { db := r.2, cache := w.cache, trace := w.trace ++ [.dbCreate h table] })

/-- The call `h.Where("id = ?", id).Delete(&model.X{})`. -/
def dbDelete (g : DB S Id Rec) (h : Handle) (id : Id) (w : World S C Id Rec) :
    Option Error × World S C Id Rec :=
  let r := g.Delete w.db h id
  (r.1, { db := r.2, cache := w.cache, trace := w.trace ++ [.dbDelete h id] })

/-- The call `h.Model(table).Updates(update)`. -/
def dbUpdates (g : DB S Id Rec) (h : Handle) (table : Rec) (update : List (String × Value))
    (w : World S C Id Rec) : Option Error × World S C Id Rec :=
  let r := g.Updates w.db h table update
  (r.1, { db := r.2, cache := w.cache, trace := w.trace ++ [.dbUpdates h table update] })

/-- The call `h.Where("id = ?", id).First(dest)`. -/
def dbFirst (g : DB S Id Rec) (h : Handle) (id : Id) (dest : Rec) (w : World S C Id Rec) :
    (Rec × Option Error) × World S C Id Rec :=
  let r := g.First w.db h id dest
  (r.1, { db := r.2, cache := w.cache, trace := w.trace ++ [.dbFirst h id] })

/-- The call `h.Model(&model.X{}).Where(queryStr, args...).Count(&total)`. -/
def dbCount (gq : DBQuery S Rec) (h : Handle) (queryStr : String) (args : List Value)
    (w : World S C Id Rec) : (Int × Option Error) × World S C Id Rec :=
  let r := gq.Count w.db h queryStr args
  (r.1, { db := r.2, cache := w.cache, trace := w.trace ++ [.dbCount h queryStr args] })

/-- The call
`h.Order(order).Limit(limit).Offset(offset).Where(queryStr, args...).Find(&records)`. -/
def dbFind (gq : DBQuery S Rec) (h : Handle) (order : String) (limit offset : Int)
    (queryStr : String) (args : List Value) (w : World S C Id Rec) :
    (List Rec × Option Error) × World S C Id Rec :=
  let r := gq.Find w.db h order limit offset queryStr args
  (r.1, { db := r.2, cache := w.cache,
          trace := w.trace ++ [.dbFind h order limit offset queryStr args] })

/-- The call `d.cache.Get(ctx, id)`. -/
def cacheGet (c : XCache C Id Rec) (id : Id) (w : World S C Id Rec) :
    (Option Rec × Option Error) × World S C Id Rec :=
  let r := c.Get w.cache id
  (r.1, { db := w.db, cache := r.2, trace := w.trace ++ [.cacheGet id] })

/-- The call `d.cache.Set(ctx, id, data, duration)`. -/
def cacheSet (c : XCache C Id Rec) (id : Id) (data : Option Rec) (duration : Duration)
    (w : World S C Id Rec) : Option Error × World S C Id Rec :=
  let r := c.Set w.cache id data duration
  (r.1, { db := w.db, cache := r.2, trace := w.trace ++ [.cacheSet id data duration] })

/-- The call `d.cache.Del(ctx, id)`. -/
def cacheDel (c : XCache C Id Rec) (id : Id) (w : World S C Id Rec) :
    Option Error × World S C Id Rec :=
  let r := c.Del w.cache id
  (r.1, { db := w.db, cache := r.2, trace := w.trace ++ [.cacheDel id] })

/-- The call `d.cache.SetPlaceholder(ctx, id)`. -/
def cacheSetPlaceholder (c : XCache C Id Rec) (id : Id) (w : World S C Id Rec) :
    Option Error × World S C Id Rec :=
  let r := c.SetPlaceholder w.cache id
  (r.1, { db := w.db, cache := r.2, trace := w.trace ++ [.cacheSetPlaceholder id] })

/-- The value of type `interface{}` that the function given to `sfg.Do` returns: the
nil interface, or a record pointer (itself possibly nil). -/
inductive AnyVal (Rec : Type) where
  | nilIface
  | recPtr (p : Option Rec)

/-- The call `sfg.Do(key, fn)` with no other caller in flight: `fn` runs once, in the
caller, and its value and error are returned (the third result, `shared`, is dropped by
every call site). -/
def Group.Do {α : Type} (_sfg : Group) (key : String)
    (fn : World S C Id Rec → α × World S C Id Rec) (w : World S C Id Rec) :
    α × World S C Id Rec :=
  fn { db := w.db, cache := w.cache, trace := w.trace ++ [.sfgDo key] }

end calls

/-! ## The repositories (`internal/dao`) -/

namespace mobDao

variable {S C : Type}

/-- The method `mobDao.updateDataByID`. The `map[string]interface{}` is the list of its
entries in the order the source inserts them. -/
def updateDataByID (g : DB S Nat Mob) (db : Handle) (table : Mob) (w : World S C Nat Mob) :
    Option Error × World S C Nat Mob :=
  if table.ID < 1 then (some (.new "id cannot be 0"), w)
  else
    let update : List (String × Value) := []
    let update := if table.MobID ≠ "" then update ++ [("mob_id", .str table.MobID)] else update
    let update := if table.MobName ≠ "" then update ++ [("mob_name", .str table.MobName)] else update
    let update := if table.MobCname ≠ "" then update ++ [("mob_cname", .str table.MobCname)] else update
    let update := if table.MobDesc ≠ "" then update ++ [("mob_desc", .str table.MobDesc)] else update
    let update := match table.Attackable with
      | some b => update ++ [("attackable", .tinyBool b)]
      | none => update
    let update := if table.Hp ≠ 0 then update ++ [("hp", .int table.Hp)] else update
    let update := if table.Mp ≠ 0 then update ++ [("mp", .int table.Mp)] else update
    let update := if table.Attack ≠ 0 then update ++ [("attack", .int table.Attack)] else update
    let update := if table.Defence ≠ 0 then update ++ [("defence", .int table.Defence)] else update
    let update := if table.Dodge ≠ 0 then update ++ [("dodge", .int table.Dodge)] else update
    dbUpdates g db table update w

/-- The `update` map that `mobDao.updateDataByID` builds (source lines 92 to 123), on its
own. -/
def updateColumns (table : Mob) : List (String × Value) :=
  let update : List (String × Value) := []
  let update := if table.MobID ≠ "" then update ++ [("mob_id", .str table.MobID)] else update
  let update := if table.MobName ≠ "" then update ++ [("mob_name", .str table.MobName)] else update
  let update := if table.MobCname ≠ "" then update ++ [("mob_cname", .str table.MobCname)] else update
  let update := if table.MobDesc ≠ "" then update ++ [("mob_desc", .str table.MobDesc)] else update
  let update := match table.Attackable with
    | some b => update ++ [("attackable", .tinyBool b)]
    | none => update
  let update := if table.Hp ≠ 0 then update ++ [("hp", .int table.Hp)] else update
  let update := if table.Mp ≠ 0 then update ++ [("mp", .int table.Mp)] else update
  let update := if table.Attack ≠ 0 then update ++ [("attack", .int table.Attack)] else update
  let update := if table.Defence ≠ 0 then update ++ [("defence", .int table.Defence)] else update
  let update := if table.Dodge ≠ 0 then update ++ [("dodge", .int table.Dodge)] else update
  update

end mobDao

namespace itemDao

variable {S C : Type}

/-- The method `itemDao.updateDataByID`. -/
def updateDataByID (g : DB S Nat Item) (db : Handle) (table : Item) (w : World S C Nat Item) :
    Option Error × World S C Nat Item :=
  if table.ID < 1 then (some (.new "id cannot be 0"), w)
  else
    let update : List (String × Value) := []
    let update := if table.ItemID ≠ "" then update ++ [("item_id", .str table.ItemID)] else update
    let update := if table.ItemName ≠ "" then update ++ [("item_name", .str table.ItemName)] else update
    let update := if table.ItemCname ≠ "" then update ++ [("item_cname", .str table.ItemCname)] else update
    let update := if table.ItemDesc ≠ "" then update ++ [("item_desc", .str table.ItemDesc)] else update
    let update := if table.Hp ≠ 0 then update ++ [("hp", .int table.Hp)] else update
    let update := if table.Mp ≠ 0 then update ++ [("mp", .int table.Mp)] else update
    let update := if table.Attack ≠ 0 then update ++ [("attack", .int table.Attack)] else update
    let update := if table.Defence ≠ 0 then update ++ [("defence", .int table.Defence)] else update
    let update := if table.Dodge ≠ 0 then update ++ [("dodge", .int table.Dodge)] else update
    let update := if table.Str ≠ 0 then update ++ [("str", .int table.Str)] else update
    let update := if table.Cor ≠ 0 then update ++ [("cor", .int table.Cor)] else update
    let update := if table.Inte ≠ 0 then update ++ [("inte", .int table.Inte)] else update
    let update := if table.Dex ≠ 0 then update ++ [("dex", .int table.Dex)] else update
    let update := if table.Con ≠ 0 then update ++ [("con", .int table.Con)] else update
    let update := if table.Kar ≠ 0 then update ++ [("kar", .int table.Kar)] else update
    let update := if table.Classifier ≠ "" then update ++ [("classifier", .str table.Classifier)] else update
    dbUpdates g db table update w

/-- The `update` map that `itemDao.updateDataByID` builds (source lines 92 to 141), on its
own. -/
def updateColumns (table : Item) : List (String × Value) :=
  let update : List (String × Value) := []
  let update := if table.ItemID ≠ "" then update ++ [("item_id", .str table.ItemID)] else update
  let update := if table.ItemName ≠ "" then update ++ [("item_name", .str table.ItemName)] else update
  let update := if table.ItemCname ≠ "" then update ++ [("item_cname", .str table.ItemCname)] else update
  let update := if table.ItemDesc ≠ "" then update ++ [("item_desc", .str table.ItemDesc)] else update
  let update := if table.Hp ≠ 0 then update ++ [("hp", .int table.Hp)] else update
  let update := if table.Mp ≠ 0 then update ++ [("mp", .int table.Mp)] else update
  let update := if table.Attack ≠ 0 then update ++ [("attack", .int table.Attack)] else update
  let update := if table.Defence ≠ 0 then update ++ [("defence", .int table.Defence)] else update
  let update := if table.Dodge ≠ 0 then update ++ [("dodge", .int table.Dodge)] else update
  let update := if table.Str ≠ 0 then update ++ [("str", .int table.Str)] else update
  let update := if table.Cor ≠ 0 then update ++ [("cor", .int table.Cor)] else update
  let update := if table.Inte ≠ 0 then update ++ [("inte", .int table.Inte)] else update
  let update := if table.Dex ≠ 0 then update ++ [("dex", .int table.Dex)] else update
  let update := if table.Con ≠ 0 then update ++ [("con", .int table.Con)] else update
  let update := if table.Kar ≠ 0 then update ++ [("kar", .int table.Kar)] else update
  let update := if table.Classifier ≠ "" then update ++ [("classifier", .str table.Classifier)] else update
  update

end itemDao

namespace roomDao

variable {S C : Type}

/-- The method `roomDao.updateDataByID`. -/
def updateDataByID (g : DB S String Room) (db : Handle) (table : Room)
    (w : World S C String Room) : Option Error × World S C String Room :=
  if table.ID = "" then (some (.new "id cannot be empty"), w)
  else
    let update : List (String × Value) := []
    let update := if table.Title ≠ "" then update ++ [("title", .str table.Title)] else update
    let update := if table.Desc ≠ "" then update ++ [("desc", .str table.Desc)] else update
    let update := if table.Way ≠ "" then update ++ [("way", .str table.Way)] else update
    let update := if table.Mobs ≠ "" then update ++ [("mobs", .str table.Mobs)] else update
    dbUpdates g db table update w

/-- The `update` map that `roomDao.updateDataByID` builds (source lines 91 to 104), on its
own. -/
def updateColumns (table : Room) : List (String × Value) :=
  let update : List (String × Value) := []
  let update := if table.Title ≠ "" then update ++ [("title", .str table.Title)] else update
  let update := if table.Desc ≠ "" then update ++ [("desc", .str table.Desc)] else update
  let update := if table.Way ≠ "" then update ++ [("way", .str table.Way)] else update
  let update := if table.Mobs ≠ "" then update ++ [("mobs", .str table.Mobs)] else update
  update

end roomDao

/-- What differs between `itemDao`, `mobDao` and `roomDao`. -/
structure Kind (S C Id Rec : Type) where
  /-- The zero record `&model.X{}`. -/
  zero : Rec
  /-- The field `table.ID`. -/
  ID : Rec → Id
  /-- The key given to `sfg.Do`: `utils.Uint64ToStr(id)` for item and mob, `id` for room. -/
  sfgKey : Id → String
  /-- The constant `cache.XExpireTime`. -/
  ExpireTime : Duration
  /-- The method `updateDataByID` of the kind. -/
  updateDataByID : DB S Id Rec → Handle → Rec → World S C Id Rec →
    Option Error × World S C Id Rec
  /-- The whitelist `model.XColumnNames` given to `ConvertToGormConditions`. -/
  ColumnNames : List String
  /-- The sort order `GetByColumns` puts in place of an empty `params.Sort`: "-id" for
  room, none for item and mob (no such statement). -/
  defaultSort : Option String

def mobKind (S C : Type) : Kind S C Nat Mob :=
  { zero := Mob.zero, ID := Mob.ID, sfgKey := Uint64ToStr, ExpireTime := MobExpireTime,
    updateDataByID := mobDao.updateDataByID, ColumnNames := MobColumnNames,
    defaultSort := none }

def itemKind (S C : Type) : Kind S C Nat Item :=
  { zero := Item.zero, ID := Item.ID, sfgKey := Uint64ToStr, ExpireTime := ItemExpireTime,
    updateDataByID := itemDao.updateDataByID, ColumnNames := ItemColumnNames,
    defaultSort := none }

def roomKind (S C : Type) : Kind S C String Room :=
  { zero := Room.zero, ID := Room.ID, sfgKey := fun id => id, ExpireTime := RoomExpireTime,
    updateDataByID := roomDao.updateDataByID, ColumnNames := RoomColumnNames,
    defaultSort := some "-id" }

namespace xDao

variable {S C Id Rec : Type}

/-- The constructor `NewMobDao` (`NewItemDao`, `NewRoomDao`): without a cache only the
handle is kept; with one, the cache and a new singleflight group. -/
def NewDao (db : Handle) (xCache : Option (XCache C Id Rec)) : Dao C Id Rec :=
  match xCache with
  | none => { db := db, cache := none, sfg := none }
  | some xCache => { db := db, cache := some xCache, sfg := some {} }

/-- The method `deleteCache`. -/
def deleteCache (d : Dao C Id Rec) (id : Id) (w : World S C Id Rec) :
    Option Error × World S C Id Rec :=
  match d.cache with
  | some c => cacheDel c id w
  | none => (none, w)

/-- The method `Create`: returns the error; the first component is the record the
caller gave, as the store left it (the id written back). -/
def Create (g : DB S Id Rec) (d : Dao C Id Rec) (table : Rec) (w : World S C Id Rec) :
    (Rec × Option Error) × World S C Id Rec :=
  dbCreate g d.db table w

/-- The method `DeleteByID`. -/
def DeleteByID (g : DB S Id Rec) (d : Dao C Id Rec) (id : Id) (w : World S C Id Rec) :
    Option Error × World S C Id Rec :=
  match dbDelete g d.db id w with
  | (some err, w1) => (some err, w1)
  | (none, w1) =>
    -- delete cache
    match deleteCache d id w1 with
    | (_, w2) => (none, w2)

/-- The method `UpdateByID`. The record pointer is taken non-nil (a nil one panics at
`table.ID`). -/
def UpdateByID (k : Kind S C Id Rec) (g : DB S Id Rec) (d : Dao C Id Rec) (table : Rec)
    (w : World S C Id Rec) : Option Error × World S C Id Rec :=
  match k.updateDataByID g d.db table w with
  | (err, w1) =>
    -- delete cache
    match deleteCache d (k.ID table) w1 with
    | (_, w2) => (err, w2)

/-- The function literal given to `sfg.Do` in `GetByID`. A failed cache write is only
logged (`logger.Warn`), which the model does not record. -/
def GetByID.fetch (k : Kind S C Id Rec) (g : DB S Id Rec) (d : Dao C Id Rec)
    (c : XCache C Id Rec) (id : Id) (w : World S C Id Rec) :
    (AnyVal Rec × Option Error) × World S C Id Rec :=
  match dbFirst g d.db id k.zero w with
  | ((_, some err), w1) =>
    if errorsIs err ErrRecordNotFound then
      -- set placeholder cache to prevent cache penetration
      match cacheSetPlaceholder c id w1 with
      | (_, w2) => ((.nilIface, some ErrRecordNotFound), w2)
    else ((.nilIface, some err), w1)
  | ((table, none), w1) =>
    -- set cache
    match cacheSet c id (some table) k.ExpireTime w1 with
    | (_, w2) => ((.recPtr (some table), none), w2)

/-- The method `GetByID`. The result is `none` when the call panics (a nil `sfg` behind
a non-nil cache, which `NewDao` never builds). -/
def GetByID (k : Kind S C Id Rec) (g : DB S Id Rec) (d : Dao C Id Rec) (id : Id)
    (w : World S C Id Rec) : Option ((Option Rec × Option Error) × World S C Id Rec) :=
  match d.cache with
  | none =>
    -- no cache
    match dbFirst g d.db id k.zero w with
    | ((record, err), w1) => some ((some record, err), w1)
  | some c =>
    -- get from cache
    match cacheGet c id w with
    | ((record, none), w1) => some ((record, none), w1)
    | ((_, some err), w1) =>
      -- get from database
      if errorsIs err ErrCacheNotFound then
        match d.sfg with
        | none => none
        | some sfg =>
          match sfg.Do (k.sfgKey id) (GetByID.fetch k g d c id) w1 with
          | ((_, some err), w2) => some ((none, some err), w2)
          | ((val, none), w2) =>
            match val with
            | .recPtr table => some ((table, none), w2)
            | .nilIface => some ((none, some ErrRecordNotFound), w2)
      else if c.IsPlaceholderErr err then some ((none, some ErrRecordNotFound), w1)
      else some ((none, some err), w1)

/-- The tail of `GetByColumns` from `records := []*model.X{}` on: page the query and
return the records found with the total counted before. -/
def GetByColumns.find {P : Type} (q : QueryLib P) (gq : DBQuery S Rec) (d : Dao C Id Rec)
    (params : Params P) (queryStr : String) (args : List Value) (total : Int)
    (w : World S C Id Rec) : (Option (List Rec) × Int × Option Error) × World S C Id Rec :=
  match q.ConvertToPage params with
  | (order, limit, offset) =>
    match dbFind gq d.db order limit offset queryStr args w with
    | ((_, some err), w1) => ((none, 0, some err), w1)
    | ((records, none), w1) => ((some records, total, none), w1)

/-- The method `GetByColumns`. The slice returned is `none` for a nil slice. The room
repository first replaces an empty `params.Sort` (the caller sees that change through
the pointer; the model keeps it local). -/
def GetByColumns {P : Type} (k : Kind S C Id Rec) (q : QueryLib P) (gq : DBQuery S Rec)
    (d : Dao C Id Rec) (params : Params P) (w : World S C Id Rec) :
    (Option (List Rec) × Int × Option Error) × World S C Id Rec :=
  let params : Params P :=
    match k.defaultSort with
    | some sort => if params.sort = "" then { params with sort := sort } else params
    | none => params
  match q.ConvertToGormConditions params k.ColumnNames with
  | (_, some err) => ((none, 0, some (.new ("query params error: " ++ err.message))), w)
  | ((queryStr, args), none) =>
    if params.sort ≠ "ignore count" then
      -- determine if count is required
      match dbCount gq d.db queryStr args w with
      | ((_, some err), w1) => ((none, 0, some err), w1)
      | ((total, none), w1) =>
        if total = 0 then ((none, total, none), w1)
        else GetByColumns.find q gq d params queryStr args total w1
    else GetByColumns.find q gq d params queryStr args 0 w

/-- The method `CreateByTx`. -/
def CreateByTx (k : Kind S C Id Rec) (g : DB S Id Rec) (_d : Dao C Id Rec) (tx : Handle)
    (table : Rec) (w : World S C Id Rec) : (Id × Option Error) × World S C Id Rec :=
  match dbCreate g tx table w with
  | ((table, err), w1) => ((k.ID table, err), w1)

/-- The method `DeleteByTx`. -/
def DeleteByTx (g : DB S Id Rec) (d : Dao C Id Rec) (tx : Handle) (id : Id)
    (w : World S C Id Rec) : Option Error × World S C Id Rec :=
  match dbDelete g tx id w with
  | (some err, w1) => (some err, w1)
  | (none, w1) =>
    -- delete cache
    match deleteCache d id w1 with
    | (_, w2) => (none, w2)

/-- The method `UpdateByTx`. -/
def UpdateByTx (k : Kind S C Id Rec) (g : DB S Id Rec) (d : Dao C Id Rec) (tx : Handle)
    (table : Rec) (w : World S C Id Rec) : Option Error × World S C Id Rec :=
  match k.updateDataByID g tx table w with
  | (err, w1) =>
    -- delete cache
    match deleteCache d (k.ID table) w1 with
    | (_, w2) => (err, w2)

end xDao

/-- The number of store reads by id (`First`) recorded in a trace. -/
def storeReads {Id Rec : Type} (t : List (Event Id Rec)) : Nat :=
  t.countP (fun e => match e with
    | .dbFirst _ _ => true
    | _ => false)

/-- The adapter reports the absent condition for `id` in cache state `cs`: `Get(id)`
fails with an error that is `ErrCacheNotFound`. -/
def cacheAbsent {C Id Rec : Type} (c : XCache C Id Rec) (cs : C) (id : Id) : Bool :=
  match (c.Get cs id).1.2 with
  | some e => errorsIs e ErrCacheNotFound
  | none => false

/-- What a read by id that goes to the store hands back to the caller, given what
`First` left in the destination record and the error it returned: the record on success,
`ErrRecordNotFound` when the record is missing, the store error otherwise. -/
def storeAnswer {Rec : Type} (first : Rec × Option Error) : Option Rec × Option Error :=
  match first with
  | (table, none) => (some table, none)
  | (_, some err) =>
    if errorsIs err ErrRecordNotFound then (none, some ErrRecordNotFound) else (none, some err)

/-- The number of store updates (`Updates`) recorded in a trace. -/
def storeUpdates {Id Rec : Type} (t : List (Event Id Rec)) : Nat :=
  t.countP (fun e => match e with
    | .dbUpdates _ _ _ => true
    | _ => false)

/-- The number of calls to the cache adapter (`Get`, `Set`, `Del`, `SetPlaceholder`)
recorded in a trace. -/
def cacheCalls {Id Rec : Type} (t : List (Event Id Rec)) : Nat :=
  t.countP (fun e => match e with
    | .cacheGet _ => true
    | .cacheSet _ _ _ => true
    | .cacheDel _ => true
    | .cacheSetPlaceholder _ => true
    | _ => false)

/-- The number of cache deletions (`Del`) recorded in a trace. -/
def cacheDels {Id Rec : Type} (t : List (Event Id Rec)) : Nat :=
  t.countP (fun e => match e with
    | .cacheDel _ => true
    | _ => false)

/-- The function `strings.ToLower` on ASCII text: the letters `A` to `Z` are lower-cased
and every other character is kept (on other text Go lower-cases more letters). It is
used to run the cache constructor on concrete selectors. -/
def asciiToLower (s : String) : String := String.mk (s.data.map Char.toLower)

/-- The number a string of decimal digits stands for, most significant digit first. -/
def decimalValue (s : String) : Nat :=
  s.data.foldl (fun acc c => 10 * acc + (c.toNat - 48)) 0

/-! ## Reference collaborators

A backend and a store small enough to evaluate, used to run the repositories on concrete
inputs. They follow the contracts of sections 4.1 and 6 of the design: the backend tells
an absent key from a placeholder, the store tells a missing record from a failure. Both
can be told to fail, to exercise the error paths. -/

/-- What the reference backend holds under a key. -/
inductive Entry (Rec : Type) where
  | value (data : Rec)
  | placeholder
  deriving DecidableEq, Repr

/-- The reference backend: its entries, and whether writes (`Set`,
`SetCacheWithNotFound`) and deletions currently fail. -/
structure MemCache (Rec : Type) where
  entries : List (String × Entry Rec)
  failWrites : Bool
  failDel : Bool
  deriving DecidableEq, Repr

namespace MemCache

variable {Rec : Type}

/-- Drop the entry of a key. -/
def erase (es : List (String × Entry Rec)) (key : String) : List (String × Entry Rec) :=
  es.filter (fun e => e.1 != key)

/-- The reference backend as a `cache.Cache`. -/
def backend : Cache (MemCache Rec) Rec :=
  { Set := fun b key val _ =>
      if b.failWrites then (some (.new "cache: write failed"), b)
      else (none, { b with entries := (key, .value val) :: erase b.entries key })
    Get := fun b key =>
      match b.entries.lookup key with
      | none => ((none, some ErrCacheNotFound), b)
      | some .placeholder => ((none, some ErrPlaceholder), b)
      | some (.value data) => ((some data, none), b)
    Del := fun b key =>
      if b.failDel then (some (.new "cache: delete failed"), b)
      else (none, { b with entries := erase b.entries key })
    SetCacheWithNotFound := fun b key =>
      if b.failWrites then (some (.new "cache: write failed"), b)
      else (none, { b with entries := (key, .placeholder) :: erase b.entries key }) }

/-- The batch methods of the reference backend: `MultiSet` writes the entries one by
one, `MultiGet` returns the records held under the keys asked for (placeholders and
absent keys are left out). -/
def multi : CacheMulti (MemCache Rec) Rec :=
  { MultiSet := fun b valMap _ =>
      if b.failWrites then (some (.new "cache: write failed"), b)
      else
        let entries := valMap.foldr (fun e es => (e.1, Entry.value e.2) :: erase es e.1) b.entries
        (none, { b with entries := entries })
    MultiGet := fun b keys =>
      (((keys.foldl (fun itemMap key =>
          match b.entries.lookup key with
          | some (.value data) => GoMap.set itemMap key data
          | _ => itemMap) []), none), b) }

end MemCache

/-- The reference store: the rows of one table, and the error every call currently
fails with, if any. -/
structure Table (Rec : Type) where
  rows : List Rec
  fail : Option Error
  deriving DecidableEq, Repr

namespace Table

variable {Id Rec : Type} [DecidableEq Id]

/-- The reference store as a `DB`. `ID` reads the key of a row and `apply` writes one
column of an update into a row; rows are kept as given by the caller (no id is assigned).
Handles are not told apart. -/
def store (ID : Rec → Id) (apply : Rec → String × Value → Rec) : DB (Table Rec) Id Rec :=
  { Create := fun s _ table =>
      match s.fail with
      | some e => ((table, some e), s)
      | none => ((table, none), { s with rows := s.rows ++ [table] })
    Delete := fun s _ id =>
      match s.fail with
      | some e => (some e, s)
      | none => (none, { s with rows := s.rows.filter (fun r => ID r ≠ id) })
    Updates := fun s _ table update =>
      match s.fail with
      | some e => (some e, s)
      | none =>
        (none, { s with rows := s.rows.map (fun r =>
          if ID r = ID table then update.foldl apply r else r) })
    First := fun s _ id dest =>
      match s.fail with
      | some e => ((dest, some e), s)
      | none =>
        match s.rows.find? (fun r => ID r = id) with
        | some r => ((r, none), s)
        | none => ((dest, some ErrRecordNotFound), s) }

end Table

/-- Write one column of an update into a mob row. -/
def Mob.apply (r : Mob) : String × Value → Mob
  | ("mob_id", .str v) => { r with MobID := v }
  | ("mob_name", .str v) => { r with MobName := v }
  | ("mob_cname", .str v) => { r with MobCname := v }
  | ("mob_desc", .str v) => { r with MobDesc := v }
  | ("attackable", .tinyBool v) => { r with Attackable := some v }
  | ("hp", .int v) => { r with Hp := v }
  | ("mp", .int v) => { r with Mp := v }
  | ("attack", .int v) => { r with Attack := v }
  | ("defence", .int v) => { r with Defence := v }
  | ("dodge", .int v) => { r with Dodge := v }
  | _ => r

/-- Write one column of an update into an item row. -/
def Item.apply (r : Item) : String × Value → Item
  | ("item_id", .str v) => { r with ItemID := v }
  | ("item_name", .str v) => { r with ItemName := v }
  | ("item_cname", .str v) => { r with ItemCname := v }
  | ("item_desc", .str v) => { r with ItemDesc := v }
  | ("hp", .int v) => { r with Hp := v }
  | ("mp", .int v) => { r with Mp := v }
  | ("attack", .int v) => { r with Attack := v }
  | ("defence", .int v) => { r with Defence := v }
  | ("dodge", .int v) => { r with Dodge := v }
  | ("str", .int v) => { r with Str := v }
  | ("cor", .int v) => { r with Cor := v }
  | ("inte", .int v) => { r with Inte := v }
  | ("dex", .int v) => { r with Dex := v }
  | ("con", .int v) => { r with Con := v }
  | ("kar", .int v) => { r with Kar := v }
  | ("classifier", .str v) => { r with Classifier := v }
  | _ => r

/-- Write one column of an update into a room row. -/
def Room.apply (r : Room) : String × Value → Room
  | ("title", .str v) => { r with Title := v }
  | ("desc", .str v) => { r with Desc := v }
  | ("way", .str v) => { r with Way := v }
  | ("mobs", .str v) => { r with Mobs := v }
  | _ => r

/-- The mob repository over the reference collaborators. -/
abbrev MobWorld := World (Table Mob) (MemCache Mob) Nat Mob

/-- The item repository over the reference collaborators. -/
abbrev ItemWorld := World (Table Item) (MemCache Item) Nat Item

/-- The room repository over the reference collaborators. -/
abbrev RoomWorld := World (Table Room) (MemCache Room) String Room

def itemStore : DB (Table Item) Nat Item := Table.store Item.ID Item.apply
def mobStore : DB (Table Mob) Nat Mob := Table.store Mob.ID Mob.apply
def roomStore : DB (Table Room) String Room := Table.store Room.ID Room.apply

/-- The adapter `itemCache` over the reference backend. -/
def itemCache : XCache (MemCache Item) Nat Item :=
  xCache.toXCache itemCacheKind MemCache.backend

/-- The adapter `mobCache` over the reference backend. -/
def mobCache : XCache (MemCache Mob) Nat Mob := xCache.toXCache mobCacheKind MemCache.backend

/-- The adapter `roomCache` over the reference backend. -/
def roomCache : XCache (MemCache Room) String Room :=
  xCache.toXCache roomCacheKind MemCache.backend

/-- A mob with the given id and hit points, all other fields zero. -/
def mobWith (id : Nat) (hp : Int) : Mob := { Mob.zero with ID := id, Hp := hp }

/-- A world of the mob repository over the reference collaborators, with an empty trace:
the rows of the store, the error the store fails with, the cache entries, and whether
cache writes fail. -/
def mobWorld (rows : List Mob) (fail : Option Error) (entries : List (String × Entry Mob))
    (failWrites : Bool) : MobWorld :=
  { db := { rows := rows, fail := fail },
    cache := { entries := entries, failWrites := failWrites, failDel := false },
    trace := [] }

/-- A world of the item repository over the reference collaborators, with an empty
trace. -/
def itemWorld (rows : List Item) (fail : Option Error) (entries : List (String × Entry Item))
    (failWrites : Bool) : ItemWorld :=
  { db := { rows := rows, fail := fail },
    cache := { entries := entries, failWrites := failWrites, failDel := false },
    trace := [] }

/-- A room with the given id and title, all other fields empty. -/
def roomWith (id title : String) : Room := { Room.zero with ID := id, Title := title }

/-- A world of the room repository over the reference collaborators, with an empty
trace. -/
def roomWorld (rows : List Room) (fail : Option Error) (entries : List (String × Entry Room))
    (failWrites : Bool) : RoomWorld :=
  { db := { rows := rows, fail := fail },
    cache := { entries := entries, failWrites := failWrites, failDel := false },
    trace := [] }

/-- A mob store whose read by id fails while scanning the row: `First` has written the
id column into the record it was given when it returns the scan error. The other calls
are those of the reference store. -/
def scanFailStore : DB (Table Mob) Nat Mob :=
  { mobStore with
    First := fun s _ id dest =>
      (({ dest with ID := id }, some (.new "sql: Scan error on column index 1")), s) }

/-! ## The per-key cache state and the repository as a transition system -/

/-- The state of one cache key (section 4.3 of the design). -/
inductive KeyState where
  | Absent
  | Cached
  | Placeholder
  deriving DecidableEq, Repr

/-- The state of a key, from what the backend holds under it. -/
def keyState {Rec : Type} : Option (Entry Rec) → KeyState
  | none => .Absent
  | some (.value _) => .Cached
  | some .placeholder => .Placeholder

/-- What one operation may do to the state of a key: leave it, or move it along
Absent to Cached, Absent to Placeholder, Cached to Absent, Placeholder to Absent. -/
def legalStep : KeyState → KeyState → Bool
  | .Cached, .Placeholder => false
  | .Placeholder, .Cached => false
  | _, _ => true

/-- The contract of a cache backend (section 4.1 of the design), stated through a view
of what the backend holds under each key: `Get` writes nothing and reports the absent
condition exactly when the key has no entry; `Set`, `SetCacheWithNotFound` and `Del`
either change nothing or leave under their key the record, the placeholder, no entry. -/
structure BackendLaws {B Rec : Type} (bk : Cache B Rec)
    (view : B → String → Option (Entry Rec)) : Prop where
  get_view : ∀ (b : B) (key key1 : String), view (bk.Get b key).2 key1 = view b key1
  get_absent : ∀ (b : B) (key : String),
    view b key = none
      ↔ ∃ e : Error, (bk.Get b key).1.2 = some e ∧ errorsIs e ErrCacheNotFound = true
  set_view : ∀ (b : B) (key : String) (v : Rec) (ttl : Duration) (key1 : String),
    view (bk.Set b key v ttl).2 key1 = view b key1
      ∨ (key1 = key ∧ view (bk.Set b key v ttl).2 key1 = some (.value v))
  setPlaceholder_view : ∀ (b : B) (key key1 : String),
    view (bk.SetCacheWithNotFound b key).2 key1 = view b key1
      ∨ (key1 = key ∧ view (bk.SetCacheWithNotFound b key).2 key1 = some .placeholder)
  del_view : ∀ (b : B) (key key1 : String),
    view (bk.Del b key).2 key1 = view b key1
      ∨ (key1 = key ∧ view (bk.Del b key).2 key1 = none)

/-- A reference `query.Params` helper: no condition, the order is the sort field, pages
of ten. -/
def refQuery : QueryLib Unit :=
  { ConvertToGormConditions := fun _ _ => (("", []), none)
    ConvertToPage := fun params => (params.sort, 10, 0) }

/-- The listing calls of the reference store: every row matches. -/
def Table.query {Rec : Type} : DBQuery (Table Rec) Rec :=
  { Count := fun s _ _ _ =>
      match s.fail with
      | some e => ((0, some e), s)
      | none => ((s.rows.length, none), s)
    Find := fun s _ _ _ _ _ _ =>
      match s.fail with
      | some e => (([], some e), s)
      | none => ((s.rows, none), s) }

/-- The view of the reference backend: the entry found under the key. -/
def MemCache.view {Rec : Type} (b : MemCache Rec) (key : String) : Option (Entry Rec) :=
  b.entries.lookup key

/-- The `updateDataByID` of a kind leaves the cache alone (it only calls the store). -/
def Kind.StoreOnly {S C Id Rec : Type} (k : Kind S C Id Rec) : Prop :=
  ∀ (g : DB S Id Rec) (h : Handle) (table : Rec) (w : World S C Id Rec),
    (k.updateDataByID g h table w).2.cache = w.cache

/-- One call of a repository method, with its arguments. -/
inductive Op (Id Rec P : Type) where
  | Create (table : Rec)
  | DeleteByID (id : Id)
  | UpdateByID (table : Rec)
  | GetByID (id : Id)
  | GetByColumns (params : Params P)
  | CreateByTx (tx : Handle) (table : Rec)
  | DeleteByTx (tx : Handle) (id : Id)
  | UpdateByTx (tx : Handle) (table : Rec)

/-- The world a repository method leaves (`none` when the call panics). -/
def Op.run {S C Id Rec P : Type} (k : Kind S C Id Rec) (g : DB S Id Rec) (q : QueryLib P)
    (gq : DBQuery S Rec) (d : Dao C Id Rec) :
    Op Id Rec P → World S C Id Rec → Option (World S C Id Rec)
  | .Create table, w => some (xDao.Create g d table w).2
  | .DeleteByID id, w => some (xDao.DeleteByID g d id w).2
  | .UpdateByID table, w => some (xDao.UpdateByID k g d table w).2
  | .GetByID id, w => (xDao.GetByID k g d id w).map Prod.snd
  | .GetByColumns params, w => some (xDao.GetByColumns k q gq d params w).2
  | .CreateByTx tx table, w => some (xDao.CreateByTx k g d tx table w).2
  | .DeleteByTx tx id, w => some (xDao.DeleteByTx g d tx id w).2
  | .UpdateByTx tx table, w => some (xDao.UpdateByTx k g d tx table w).2

/-- The worlds reachable from `w0` by calls of the repository methods. -/
inductive Reachable {S C Id Rec P : Type} (k : Kind S C Id Rec) (g : DB S Id Rec)
    (q : QueryLib P) (gq : DBQuery S Rec) (d : Dao C Id Rec) (w0 : World S C Id Rec) :
    World S C Id Rec → Prop where
  | init : Reachable k g q gq d w0 w0
  | step (w w1 : World S C Id Rec) (op : Op Id Rec P) :
      Reachable k g q gq d w0 w → Op.run k g q gq d op w = some w1 →
      Reachable k g q gq d w0 w1

end Fs

/-! ## Theorems: `GetByID` -/

namespace Fs

open xDao

section getByID

variable {S C Id Rec : Type}

/-- The placeholder branch of `GetByID`, for reuse. -/
theorem GetByID_of_placeholder (k : Kind S C Id Rec) (g : DB S Id Rec) (db : Handle)
    (c : XCache C Id Rec) (id : Id) (w : World S C Id Rec) (r0 : Option Rec) (e : Error)
    (cs : C)
    (hget : c.Get w.cache id = ((r0, some e), cs))
    (hplaceholder : c.IsPlaceholderErr e = true)
    (hpresent : errorsIs e ErrCacheNotFound = false) :
    GetByID k g (NewDao db (some c)) id w
      = some ((none, some ErrRecordNotFound),
          { db := w.db, cache := cs, trace := w.trace ++ [.cacheGet id] }) := by
  simp [GetByID, NewDao, cacheGet, hget, hplaceholder, hpresent]

/-- The store-fallback branch of `GetByID`, for reuse: after an absent cache answer the
result is that of the fetch function run under `sfg.Do`. -/
theorem GetByID_of_absent (k : Kind S C Id Rec) (g : DB S Id Rec) (db : Handle)
    (c : XCache C Id Rec) (id : Id) (w : World S C Id Rec) (r0 : Option Rec) (e : Error)
    (cs : C)
    (hget : c.Get w.cache id = ((r0, some e), cs))
    (habsent : errorsIs e ErrCacheNotFound = true) :
    GetByID k g (NewDao db (some c)) id w
      = match GetByID.fetch k g (NewDao db (some c)) c id
          { db := w.db, cache := cs,
            trace := w.trace ++ [.cacheGet id] ++ [.sfgDo (k.sfgKey id)] } with
        | ((_, some err), w2) => some ((none, some err), w2)
        | ((.recPtr table, none), w2) => some ((table, none), w2)
        | ((.nilIface, none), w2) => some ((none, some ErrRecordNotFound), w2) := by
  simp only [GetByID, NewDao, cacheGet, hget, habsent, Group.Do, if_true]
  generalize GetByID.fetch k g _ c id _ = res
  rcases res with ⟨⟨val, _ | err⟩, w2⟩ <;> cases val <;> rfl

/-- C5. Cache hit: when the adapter's `Get(id)` returns `(r, nil)`, `GetByID(id)` returns
`(r, nil)`; the only call made is that `Get` (no store read, no cache write), the store is
unchanged and the cache is as `Get` left it. -/
theorem getByID_cache_hit (k : Kind S C Id Rec) (g : DB S Id Rec) (db : Handle)
    (c : XCache C Id Rec) (id : Id) (w : World S C Id Rec) (r : Option Rec) (cs : C)
    (hget : c.Get w.cache id = ((r, none), cs)) :
    GetByID k g (NewDao db (some c)) id w
      = some ((r, none), { db := w.db, cache := cs, trace := w.trace ++ [.cacheGet id] }) := by
  simp [GetByID, NewDao, cacheGet, hget]

/-- C6. Cache-disabled mode: a repository built by `NewDao` with a nil cache answers
`GetByID(id)` with one store read, returning the record and error of that read as they
are; the cache is untouched and neither the adapter nor the coalescing group is called.
`deleteCache` then returns nil and changes nothing. -/
theorem getByID_cache_disabled (k : Kind S C Id Rec) (g : DB S Id Rec) (db : Handle)
    (id : Id) (w : World S C Id Rec) :
    GetByID k g (NewDao db none) id w
      = some ((some (g.First w.db db id k.zero).1.1, (g.First w.db db id k.zero).1.2),
          { db := (g.First w.db db id k.zero).2, cache := w.cache,
            trace := w.trace ++ [.dbFirst db id] })
    ∧ deleteCache (NewDao db (none : Option (XCache C Id Rec))) id w = (none, w) := by
  simp [GetByID, NewDao, dbFirst, deleteCache]

/-- Witness of C5: mob 42 is cached; the read returns it with a single adapter call. -/
theorem getByID_cache_hit_witness :
    mobCache.Get (mobWorld [] none [("mob:42", .value (mobWith 42 100))] false).cache 42
        = ((some (mobWith 42 100), none),
            { entries := [("mob:42", .value (mobWith 42 100))], failWrites := false,
              failDel := false })
    ∧ GetByID (mobKind _ _) mobStore (NewDao 0 (some mobCache)) 42
        (mobWorld [] none [("mob:42", .value (mobWith 42 100))] false)
      = some ((some (mobWith 42 100), none),
          { db := { rows := [], fail := none },
            cache := { entries := [("mob:42", .value (mobWith 42 100))], failWrites := false,
                       failDel := false },
            trace := [] ++ [.cacheGet 42] }) :=
  ⟨by rfl, getByID_cache_hit (mobKind _ _) mobStore 0 mobCache 42
    (mobWorld [] none [("mob:42", .value (mobWith 42 100))] false) _ _ (by rfl)⟩

/-- C1. Store-hit path: with a cache, when the adapter's `Get(id)` reports the absent
condition and the store read yields a record `r` with no error, `GetByID(id)` returns
`(r, nil)` after exactly these calls: cache `Get(id)`, `sfg.Do`, one store read, cache
`Set(id, r, T)` with `T` the expire time of the kind. Nothing is assumed of that `Set`,
so the result is the same when it fails. `T` is five minutes for item, mob and room. -/
theorem getByID_store_hit (k : Kind S C Id Rec) (g : DB S Id Rec) (db : Handle)
    (c : XCache C Id Rec) (id : Id) (w : World S C Id Rec) (r0 : Option Rec) (e : Error)
    (cs : C) (r : Rec) (s : S)
    (hget : c.Get w.cache id = ((r0, some e), cs))
    (habsent : errorsIs e ErrCacheNotFound = true)
    (hfirst : g.First w.db db id k.zero = ((r, none), s)) :
    GetByID k g (NewDao db (some c)) id w
      = some ((some r, none),
          { db := s, cache := (c.Set cs id (some r) k.ExpireTime).2,
            trace := w.trace ++ [.cacheGet id, .sfgDo (k.sfgKey id), .dbFirst db id,
              .cacheSet id (some r) k.ExpireTime] })
    ∧ (itemKind S C).ExpireTime = 5 * Minute ∧ (mobKind S C).ExpireTime = 5 * Minute
    ∧ (roomKind S C).ExpireTime = 5 * Minute := by
  refine ⟨?_, rfl, rfl, rfl⟩
  simp [GetByID, GetByID.fetch, Group.Do, NewDao, cacheGet, cacheSet, dbFirst, hget, habsent,
    hfirst]

/-- Witness of C1: room "room-1" is in the store, the cache is cold and refuses writes;
the read still returns the room. -/
theorem getByID_store_hit_witness :
    GetByID (roomKind _ _) roomStore (NewDao 0 (some roomCache)) "room-1"
        (roomWorld [roomWith "room-1" "Start"] none [] true)
      = some ((some (roomWith "room-1" "Start"), none),
          { db := { rows := [roomWith "room-1" "Start"], fail := none },
            cache := { entries := [], failWrites := true, failDel := false },
            trace := [.cacheGet "room-1", .sfgDo "room-1", .dbFirst 0 "room-1",
              .cacheSet "room-1" (some (roomWith "room-1" "Start")) 300000000000] })
    ∧ (roomCache.Set (roomWorld [roomWith "room-1" "Start"] none [] true).cache "room-1"
        (some (roomWith "room-1" "Start")) RoomExpireTime).1 ≠ none :=
  ⟨(getByID_store_hit (roomKind _ _) roomStore 0 roomCache "room-1"
      (roomWorld [roomWith "room-1" "Start"] none [] true) none ErrCacheNotFound
      { entries := [], failWrites := true, failDel := false } (roomWith "room-1" "Start")
      { rows := [roomWith "room-1" "Start"], fail := none } (by rfl) (by rfl) (by rfl)).1,
    by decide⟩

/-- C2. Placeholder short-circuit: when the adapter's `Get(id)` fails with an error that
`IsPlaceholderErr` recognises and that is not the absent error, `GetByID(id)` returns
`(nil, ErrRecordNotFound)`; the only call made is that `Get` (no store read, no cache
write). The error returned is not one the adapters take for a placeholder. -/
theorem getByID_placeholder (k : Kind S C Id Rec) (g : DB S Id Rec) (db : Handle)
    (c : XCache C Id Rec) (id : Id) (w : World S C Id Rec) (r0 : Option Rec) (e : Error)
    (cs : C)
    (hget : c.Get w.cache id = ((r0, some e), cs))
    (hplaceholder : c.IsPlaceholderErr e = true)
    (hpresent : errorsIs e ErrCacheNotFound = false) :
    GetByID k g (NewDao db (some c)) id w
      = some ((none, some ErrRecordNotFound),
          { db := w.db, cache := cs, trace := w.trace ++ [.cacheGet id] })
    ∧ xCache.IsPlaceholderErr ErrRecordNotFound = false := by
  refine ⟨?_, by decide⟩
  simp [GetByID, NewDao, cacheGet, hget, hplaceholder, hpresent]

/-- Witness of C2: mob 7 has a placeholder entry and the store is empty. -/
theorem getByID_placeholder_witness :
    mobCache.IsPlaceholderErr ErrPlaceholder = true
    ∧ GetByID (mobKind _ _) mobStore (NewDao 0 (some mobCache)) 7
        (mobWorld [] none [("mob:7", .placeholder)] false)
      = some ((none, some ErrRecordNotFound),
          { db := { rows := [], fail := none },
            cache := { entries := [("mob:7", .placeholder)], failWrites := false,
                       failDel := false },
            trace := [.cacheGet 7] }) :=
  ⟨by decide, (getByID_placeholder (mobKind _ _) mobStore 0 mobCache 7
      (mobWorld [] none [("mob:7", .placeholder)] false) none ErrPlaceholder
      { entries := [("mob:7", .placeholder)], failWrites := false, failDel := false }
      (by rfl) (by decide) (by decide)).1⟩

/-- C3. Store-miss path: when the adapter's `Get(id)` reports the absent condition and
the store read fails with a not-found error, `GetByID(id)` returns
`(nil, ErrRecordNotFound)` after exactly these calls: cache `Get(id)`, `sfg.Do`, one store
read, one cache `SetPlaceholder(id)`; cache `Set` is not called. Nothing is assumed of
`SetPlaceholder`, so its failure is not surfaced. -/
theorem getByID_store_miss (k : Kind S C Id Rec) (g : DB S Id Rec) (db : Handle)
    (c : XCache C Id Rec) (id : Id) (w : World S C Id Rec) (r0 : Option Rec) (e : Error)
    (cs : C) (r : Rec) (e1 : Error) (s : S)
    (hget : c.Get w.cache id = ((r0, some e), cs))
    (habsent : errorsIs e ErrCacheNotFound = true)
    (hfirst : g.First w.db db id k.zero = ((r, some e1), s))
    (hmissing : errorsIs e1 ErrRecordNotFound = true) :
    GetByID k g (NewDao db (some c)) id w
      = some ((none, some ErrRecordNotFound),
          { db := s, cache := (c.SetPlaceholder cs id).2,
            trace := w.trace ++ [.cacheGet id, .sfgDo (k.sfgKey id), .dbFirst db id,
              .cacheSetPlaceholder id] }) := by
  simp [GetByID, GetByID.fetch, Group.Do, NewDao, cacheGet, cacheSetPlaceholder, dbFirst,
    hget, habsent, hfirst, hmissing]

/-- Witness of C3: mob 9 is nowhere and the cache refuses writes; the read reports
not-found, not the cache failure. -/
theorem getByID_store_miss_witness :
    (mobCache.SetPlaceholder (mobWorld [] none [] true).cache 9).1
        = some (.new "cache: write failed")
    ∧ GetByID (mobKind _ _) mobStore (NewDao 0 (some mobCache)) 9 (mobWorld [] none [] true)
      = some ((none, some ErrRecordNotFound),
          { db := { rows := [], fail := none },
            cache := { entries := [], failWrites := true, failDel := false },
            trace := [.cacheGet 9, .sfgDo "9", .dbFirst 0 9, .cacheSetPlaceholder 9] }) :=
  ⟨by rfl, getByID_store_miss (mobKind _ _) mobStore 0 mobCache 9 (mobWorld [] none [] true)
      none ErrCacheNotFound { entries := [], failWrites := true, failDel := false } Mob.zero
      ErrRecordNotFound { rows := [], fail := none } (by rfl) (by rfl) (by rfl) (by rfl)⟩

/-- C7. Other cache error: when the adapter's `Get(id)` fails with an error `e` that is
neither the absent error nor a placeholder error, `GetByID(id)` returns `(nil, e)` with
that same `e`; the only call made is that `Get` (no store read, no cache write). -/
theorem getByID_cache_error (k : Kind S C Id Rec) (g : DB S Id Rec) (db : Handle)
    (c : XCache C Id Rec) (id : Id) (w : World S C Id Rec) (r0 : Option Rec) (e : Error)
    (cs : C)
    (hget : c.Get w.cache id = ((r0, some e), cs))
    (hpresent : errorsIs e ErrCacheNotFound = false)
    (hother : c.IsPlaceholderErr e = false) :
    GetByID k g (NewDao db (some c)) id w
      = some ((none, some e),
          { db := w.db, cache := cs, trace := w.trace ++ [.cacheGet id] }) := by
  simp [GetByID, NewDao, cacheGet, hget, hother, hpresent]

/-- Witness of C7: an adapter whose `Get` always fails with a connection error, in front
of a store that holds mob 3. -/
theorem getByID_cache_error_witness :
    GetByID (mobKind _ _) mobStore
        (NewDao 0 (some { mobCache with
          Get := fun b _ => ((none, some (.new "dial tcp: connection refused")), b) }))
        3 (mobWorld [mobWith 3 10] none [] false)
      = some ((none, some (.new "dial tcp: connection refused")),
          { db := { rows := [mobWith 3 10], fail := none },
            cache := { entries := [], failWrites := false, failDel := false },
            trace := [] ++ [.cacheGet 3] }) :=
  getByID_cache_error (mobKind _ _) mobStore 0 _ 3 (mobWorld [mobWith 3 10] none [] false)
    none (.new "dial tcp: connection refused")
    { entries := [], failWrites := false, failDel := false } (by rfl) (by decide) (by decide)

/-- C8. Store failure: when the adapter's `Get(id)` reports the absent condition and the
store read fails with an error `e` that is not a not-found error, `GetByID(id)` returns
`(nil, e)`; the calls made are cache `Get(id)`, `sfg.Do` and the store read, so neither
`Set` nor `SetPlaceholder` is called and the cache is as `Get` left it. -/
theorem getByID_store_error (k : Kind S C Id Rec) (g : DB S Id Rec) (db : Handle)
    (c : XCache C Id Rec) (id : Id) (w : World S C Id Rec) (r0 : Option Rec) (e0 : Error)
    (cs : C) (r : Rec) (e : Error) (s : S)
    (hget : c.Get w.cache id = ((r0, some e0), cs))
    (habsent : errorsIs e0 ErrCacheNotFound = true)
    (hfirst : g.First w.db db id k.zero = ((r, some e), s))
    (hfailure : errorsIs e ErrRecordNotFound = false) :
    GetByID k g (NewDao db (some c)) id w
      = some ((none, some e),
          { db := s, cache := cs,
            trace := w.trace ++ [.cacheGet id, .sfgDo (k.sfgKey id), .dbFirst db id] }) := by
  simp [GetByID, GetByID.fetch, Group.Do, NewDao, cacheGet, dbFirst, hget, habsent, hfirst,
    hfailure]

/-- Witness of C8: the store is down while mob 5 is read through a cold cache. -/
theorem getByID_store_error_witness :
    GetByID (mobKind _ _) mobStore (NewDao 0 (some mobCache)) 5
        (mobWorld [mobWith 5 1] (some (.new "driver: bad connection")) [] false)
      = some ((none, some (.new "driver: bad connection")),
          { db := { rows := [mobWith 5 1], fail := some (.new "driver: bad connection") },
            cache := { entries := [], failWrites := false, failDel := false },
            trace := [] ++ [.cacheGet 5, .sfgDo "5", .dbFirst 0 5] }) :=
  getByID_store_error (mobKind _ _) mobStore 0 mobCache 5
    (mobWorld [mobWith 5 1] (some (.new "driver: bad connection")) [] false)
    none ErrCacheNotFound { entries := [], failWrites := false, failDel := false } Mob.zero
    (.new "driver: bad connection")
    { rows := [mobWith 5 1], fail := some (.new "driver: bad connection") }
    (by rfl) (by rfl) (by rfl) (by decide)

/-- C4. Scenario B, anti-penetration end to end: over an adapter of any kind on a backend
where, at this point, `Get` after `SetCacheWithNotFound` of the key yields the placeholder
error, if the key has no cache entry and the store has no record for `id`, then two
successive `GetByID(id)` both return `(nil, ErrRecordNotFound)`; the first reads the store
once and the second not at all. -/
theorem getByID_missing_twice {B : Type} (k : Kind S B Id Rec) (g : DB S Id Rec)
    (db : Handle) (ck : CacheKind Id) (bk : Cache B Rec) (id : Id) (w : World S B Id Rec)
    (r0 : Option Rec) (e : Error) (b1 : B) (r : Rec) (e1 : Error) (s : S)
    (hget : bk.Get w.cache (xCache.GetCacheKey ck id) = ((r0, some e), b1))
    (habsent : errorsIs e ErrCacheNotFound = true)
    (hfirst : g.First w.db db id k.zero = ((r, some e1), s))
    (hmissing : errorsIs e1 ErrRecordNotFound = true)
    (hbackend : (bk.Get (bk.SetCacheWithNotFound b1 (xCache.GetCacheKey ck id)).2
        (xCache.GetCacheKey ck id)).1.2 = some ErrPlaceholder) :
    ∃ w1 w2 : World S B Id Rec,
      GetByID k g (NewDao db (some (xCache.toXCache ck bk))) id w
        = some ((none, some ErrRecordNotFound), w1)
      ∧ GetByID k g (NewDao db (some (xCache.toXCache ck bk))) id w1
        = some ((none, some ErrRecordNotFound), w2)
      ∧ w1.trace = w.trace ++ [.cacheGet id, .sfgDo (k.sfgKey id), .dbFirst db id,
          .cacheSetPlaceholder id]
      ∧ w2.trace = w1.trace ++ [.cacheGet id]
      ∧ storeReads w1.trace = storeReads w.trace + 1
      ∧ storeReads w2.trace = storeReads w.trace + 1 := by
  have hget1 : (xCache.toXCache ck bk).Get w.cache id = ((none, some e), b1) := by
    simp [xCache.toXCache, xCache.Get, hget]
  have h1 : GetByID k g (NewDao db (some (xCache.toXCache ck bk))) id w
      = some ((none, some ErrRecordNotFound),
          { db := s, cache := ((xCache.toXCache ck bk).SetPlaceholder b1 id).2,
            trace := w.trace ++ [.cacheGet id, .sfgDo (k.sfgKey id), .dbFirst db id,
              .cacheSetPlaceholder id] }) := by
    rw [GetByID_of_absent k g db _ id w none e b1 hget1 habsent]
    simp [GetByID.fetch, NewDao, cacheSetPlaceholder, dbFirst, hfirst, hmissing]
  rcases hb : bk.Get (bk.SetCacheWithNotFound b1 (xCache.GetCacheKey ck id)).2
      (xCache.GetCacheKey ck id) with ⟨⟨r2, e2⟩, b2⟩
  rw [hb] at hbackend
  simp only at hbackend
  subst hbackend
  have hget2 : (xCache.toXCache ck bk).Get
      ((xCache.toXCache ck bk).SetPlaceholder b1 id).2 id = ((none, some ErrPlaceholder), b2) := by
    simp [xCache.toXCache, xCache.Get, xCache.SetPlaceholder, hb]
  have h2 := GetByID_of_placeholder k g db (xCache.toXCache ck bk) id
    { db := s, cache := ((xCache.toXCache ck bk).SetPlaceholder b1 id).2,
      trace := w.trace ++ [.cacheGet id, .sfgDo (k.sfgKey id), .dbFirst db id,
        .cacheSetPlaceholder id] }
    none ErrPlaceholder b2 hget2 rfl rfl
  refine ⟨_, _, h1, h2, rfl, rfl, ?_, ?_⟩ <;> simp [storeReads, List.countP_append]

/-- Witness of C4: room "missing-id" on an empty store and a cold cache, read twice. -/
theorem getByID_missing_twice_witness :
    ∃ w1 w2 : RoomWorld,
      GetByID (roomKind _ _) roomStore (NewDao 0 (some roomCache)) "missing-id"
          (roomWorld [] none [] false)
        = some ((none, some ErrRecordNotFound), w1)
      ∧ GetByID (roomKind _ _) roomStore (NewDao 0 (some roomCache)) "missing-id" w1
        = some ((none, some ErrRecordNotFound), w2)
      ∧ w1.trace = [] ++ [.cacheGet "missing-id", .sfgDo "missing-id", .dbFirst 0 "missing-id",
          .cacheSetPlaceholder "missing-id"]
      ∧ w2.trace = w1.trace ++ [.cacheGet "missing-id"]
      ∧ storeReads w1.trace = storeReads ([] : List (Event String Room)) + 1
      ∧ storeReads w2.trace = storeReads ([] : List (Event String Room)) + 1 :=
  getByID_missing_twice (roomKind _ _) roomStore 0 roomCacheKind MemCache.backend "missing-id"
    (roomWorld [] none [] false) none ErrCacheNotFound
    { entries := [], failWrites := false, failDel := false } Room.zero ErrRecordNotFound
    { rows := [], fail := none } (by rfl) (by rfl) (by rfl) (by rfl) (by rfl)

end getByID

/-! ## Theorems: writes and invalidation -/

section writes

variable {S C Id Rec : Type}

/-- The fetch function of `GetByID` returns to the caller what `storeAnswer` says, after
one store read. -/
theorem GetByID_of_absent_answer (k : Kind S C Id Rec) (g : DB S Id Rec) (db : Handle)
    (c : XCache C Id Rec) (id : Id) (w : World S C Id Rec)
    (habsent : cacheAbsent c w.cache id = true) :
    ∃ w2 : World S C Id Rec,
      GetByID k g (NewDao db (some c)) id w
        = some (storeAnswer (g.First w.db db id k.zero).1, w2)
      ∧ w2.db = (g.First w.db db id k.zero).2
      ∧ storeReads w2.trace = storeReads w.trace + 1 := by
  rcases hget : c.Get w.cache id with ⟨⟨r0, _ | e⟩, cs⟩
  · simp [cacheAbsent, hget] at habsent
  have he : errorsIs e ErrCacheNotFound = true := by simpa [cacheAbsent, hget] using habsent
  rw [GetByID_of_absent k g db c id w r0 e cs hget he]
  rcases hf : g.First w.db db id k.zero with ⟨⟨table, _ | err⟩, s⟩
  · refine ⟨{ db := s, cache := (c.Set cs id (some table) k.ExpireTime).2,
              trace := w.trace ++ [.cacheGet id, .sfgDo (k.sfgKey id), .dbFirst db id,
                .cacheSet id (some table) k.ExpireTime] }, ?_, rfl, ?_⟩
    · simp [GetByID.fetch, NewDao, dbFirst, cacheSet, hf, storeAnswer]
    · simp [storeReads, List.countP_append]
  · by_cases hnf : errorsIs err ErrRecordNotFound = true
    · refine ⟨{ db := s, cache := (c.SetPlaceholder cs id).2,
                trace := w.trace ++ [.cacheGet id, .sfgDo (k.sfgKey id), .dbFirst db id,
                  .cacheSetPlaceholder id] }, ?_, rfl, ?_⟩
      · simp [GetByID.fetch, NewDao, dbFirst, cacheSetPlaceholder, hf, storeAnswer, hnf]
      · simp [storeReads, List.countP_append]
    · refine ⟨{ db := s, cache := cs,
                trace := w.trace ++ [.cacheGet id, .sfgDo (k.sfgKey id), .dbFirst db id] },
              ?_, rfl, ?_⟩
      · simp [GetByID.fetch, NewDao, dbFirst, hf, storeAnswer, hnf]
      · simp [storeReads, List.countP_append]

/-- C9. Invalidate-on-write. Update half: if the update of a record with key `K` returns
nil, the cache `Del(K)` that follows succeeds, and the adapter then reports `K` absent,
then `UpdateByID` returns nil and the next `GetByID(K)` reads the store once and returns
the answer of the store as it is after the write. Delete half: the same after
`DeleteByID(K)`. Whatever was cached for `K` before the write plays no part. -/
theorem invalidate_on_write (k : Kind S C Id Rec) (g : DB S Id Rec) (db : Handle)
    (c : XCache C Id Rec) (w : World S C Id Rec) (table : Rec) (id : Id) :
    (∀ (wu : World S C Id Rec) (cs : C),
        k.updateDataByID g db table w = (none, wu) →
        c.Del wu.cache (k.ID table) = (none, cs) →
        cacheAbsent c cs (k.ID table) = true →
        ∃ w2 : World S C Id Rec,
          UpdateByID k g (NewDao db (some c)) table w
            = (none, { db := wu.db, cache := cs,
                       trace := wu.trace ++ [.cacheDel (k.ID table)] })
          ∧ GetByID k g (NewDao db (some c)) (k.ID table)
              { db := wu.db, cache := cs, trace := wu.trace ++ [.cacheDel (k.ID table)] }
            = some (storeAnswer (g.First wu.db db (k.ID table) k.zero).1, w2)
          ∧ storeReads w2.trace = storeReads wu.trace + 1)
    ∧ (∀ (s : S) (cs : C),
        g.Delete w.db db id = (none, s) →
        c.Del w.cache id = (none, cs) →
        cacheAbsent c cs id = true →
        ∃ w2 : World S C Id Rec,
          DeleteByID g (NewDao db (some c)) id w
            = (none, { db := s, cache := cs,
                       trace := w.trace ++ [.dbDelete db id, .cacheDel id] })
          ∧ GetByID k g (NewDao db (some c)) id
              { db := s, cache := cs, trace := w.trace ++ [.dbDelete db id, .cacheDel id] }
            = some (storeAnswer (g.First s db id k.zero).1, w2)
          ∧ storeReads w2.trace = storeReads w.trace + 1) := by
  constructor
  · intro wu cs hupdate hdel habsent
    obtain ⟨w2, hread, -, hcount⟩ := GetByID_of_absent_answer k g db c (k.ID table)
      { db := wu.db, cache := cs, trace := wu.trace ++ [.cacheDel (k.ID table)] } habsent
    refine ⟨w2, ?_, hread, ?_⟩
    · simp [UpdateByID, deleteCache, NewDao, cacheDel, hupdate, hdel]
    · simpa [storeReads, List.countP_append] using hcount
  · intro s cs hdelete hdel habsent
    obtain ⟨w2, hread, -, hcount⟩ := GetByID_of_absent_answer k g db c id
      { db := s, cache := cs, trace := w.trace ++ [.dbDelete db id, .cacheDel id] } habsent
    refine ⟨w2, ?_, hread, ?_⟩
    · simp [DeleteByID, deleteCache, NewDao, cacheDel, dbDelete, hdelete, hdel]
    · simpa [storeReads, List.countP_append] using hcount

/-- Witness of C9 (scenario C): mob 42 is stored and cached with 100 hit points. After
`UpdateByID` to 500 the next read returns 500; after `DeleteByID(42)` it reports
not-found. -/
theorem invalidate_on_write_witness :
    (∃ w2 : MobWorld,
      UpdateByID (mobKind _ _) mobStore (NewDao 0 (some mobCache)) (mobWith 42 500)
          (mobWorld [mobWith 42 100] none [("mob:42", .value (mobWith 42 100))] false)
        = (none, { db := { rows := [mobWith 42 500], fail := none },
                   cache := { entries := [], failWrites := false, failDel := false },
                   trace := [.dbUpdates 0 (mobWith 42 500) [("hp", .int 500)]]
                     ++ [.cacheDel 42] })
      ∧ GetByID (mobKind _ _) mobStore (NewDao 0 (some mobCache)) 42
          { db := { rows := [mobWith 42 500], fail := none },
            cache := { entries := [], failWrites := false, failDel := false },
            trace := [.dbUpdates 0 (mobWith 42 500) [("hp", .int 500)]] ++ [.cacheDel 42] }
        = some ((some (mobWith 42 500), none), w2)
      ∧ storeReads w2.trace
        = storeReads ([.dbUpdates 0 (mobWith 42 500) [("hp", .int 500)]] :
            List (Event Nat Mob)) + 1)
    ∧ (∃ w2 : MobWorld,
      DeleteByID mobStore (NewDao 0 (some mobCache)) 42
          (mobWorld [mobWith 42 100] none [("mob:42", .value (mobWith 42 100))] false)
        = (none, { db := { rows := [], fail := none },
                   cache := { entries := [], failWrites := false, failDel := false },
                   trace := [] ++ [.dbDelete 0 42, .cacheDel 42] })
      ∧ GetByID (mobKind _ _) mobStore (NewDao 0 (some mobCache)) 42
          { db := { rows := [], fail := none },
            cache := { entries := [], failWrites := false, failDel := false },
            trace := [] ++ [.dbDelete 0 42, .cacheDel 42] }
        = some ((none, some ErrRecordNotFound), w2)
      ∧ storeReads w2.trace = storeReads ([] : List (Event Nat Mob)) + 1) :=
  ⟨(invalidate_on_write (mobKind _ _) mobStore 0 mobCache
      (mobWorld [mobWith 42 100] none [("mob:42", .value (mobWith 42 100))] false)
      (mobWith 42 500) 42).1
      { db := { rows := [mobWith 42 500], fail := none },
        cache := { entries := [("mob:42", .value (mobWith 42 100))], failWrites := false,
                   failDel := false },
        trace := [.dbUpdates 0 (mobWith 42 500) [("hp", .int 500)]] }
      { entries := [], failWrites := false, failDel := false }
      (by rfl) (by rfl) (by rfl),
   (invalidate_on_write (mobKind _ _) mobStore 0 mobCache
      (mobWorld [mobWith 42 100] none [("mob:42", .value (mobWith 42 100))] false)
      (mobWith 42 500) 42).2
      { rows := [], fail := none }
      { entries := [], failWrites := false, failDel := false }
      (by rfl) (by rfl) (by rfl)⟩

/-- C10, as stated, fails. A store that is down makes `UpdateByID` of mob 42 return the
store error, and still cache `Del(42)` is called and the cached entry is gone. The same
with the validation error: `UpdateByID` of a record with id 0 returns "id cannot be 0"
without touching the store, and still calls cache `Del(0)`, which removes the placeholder
kept under that key. `UpdateByTx` behaves alike. -/
theorem update_invalidates_on_failure :
    UpdateByID (mobKind _ _) mobStore (NewDao 0 (some mobCache)) (mobWith 42 500)
        (mobWorld [mobWith 42 100] (some (.new "driver: bad connection"))
          [("mob:42", .value (mobWith 42 100))] false)
      = (some (.new "driver: bad connection"),
          { db := { rows := [mobWith 42 100], fail := some (.new "driver: bad connection") },
            cache := { entries := [], failWrites := false, failDel := false },
            trace := [.dbUpdates 0 (mobWith 42 500) [("hp", .int 500)], .cacheDel 42] })
    ∧ UpdateByID (mobKind _ _) mobStore (NewDao 0 (some mobCache)) (mobWith 0 500)
        (mobWorld [] none [("mob:0", .placeholder)] false)
      = (some (.new "id cannot be 0"),
          { db := { rows := [], fail := none },
            cache := { entries := [], failWrites := false, failDel := false },
            trace := [.cacheDel 0] })
    ∧ UpdateByTx (mobKind _ _) mobStore (NewDao 0 (some mobCache)) 1 (mobWith 0 500)
        (mobWorld [] none [("mob:0", .placeholder)] false)
      = (some (.new "id cannot be 0"),
          { db := { rows := [], fail := none },
            cache := { entries := [], failWrites := false, failDel := false },
            trace := [.cacheDel 0] }) := by
  refine ⟨?_, ?_, ?_⟩ <;> rfl

/-- C10, amended. `UpdateByID` and `UpdateByTx` invalidate whether or not the update
succeeded: with a cache, whatever error `updateDataByID` returns (none, a store error or
the validation error), exactly one cache `Del` of the id of the record follows it, and the
error returned is that of `updateDataByID`. Without a cache no `Del` is made. -/
theorem update_always_invalidates (k : Kind S C Id Rec) (g : DB S Id Rec) (db tx : Handle)
    (c : XCache C Id Rec) (table : Rec) (w : World S C Id Rec) :
    UpdateByID k g (NewDao db (some c)) table w
      = ((k.updateDataByID g db table w).1,
          { db := (k.updateDataByID g db table w).2.db,
            cache := (c.Del (k.updateDataByID g db table w).2.cache (k.ID table)).2,
            trace := (k.updateDataByID g db table w).2.trace ++ [.cacheDel (k.ID table)] })
    ∧ UpdateByTx k g (NewDao db (some c)) tx table w
      = ((k.updateDataByID g tx table w).1,
          { db := (k.updateDataByID g tx table w).2.db,
            cache := (c.Del (k.updateDataByID g tx table w).2.cache (k.ID table)).2,
            trace := (k.updateDataByID g tx table w).2.trace ++ [.cacheDel (k.ID table)] })
    ∧ UpdateByID k g (NewDao db none) table w = k.updateDataByID g db table w
    ∧ UpdateByTx k g (NewDao db none) tx table w = k.updateDataByID g tx table w := by
  refine ⟨?_, ?_, ?_, ?_⟩ <;> simp [UpdateByID, UpdateByTx, deleteCache, NewDao, cacheDel]

/-- C11. `DeleteByID` and `DeleteByTx` with a cache: when the store delete fails with `e`
the operation returns `e`, makes no cache call and leaves the cache as it was; when the
store delete returns nil the operation returns nil after exactly one cache `Del(id)`. So
`Del(id)` is called exactly when the store delete returned no error. -/
theorem delete_invalidates_iff_deleted (g : DB S Id Rec) (db tx : Handle)
    (c : XCache C Id Rec) (id : Id) (w : World S C Id Rec) :
    (∀ (e : Error) (s : S), g.Delete w.db db id = (some e, s) →
        DeleteByID g (NewDao db (some c)) id w
          = (some e, { db := s, cache := w.cache, trace := w.trace ++ [.dbDelete db id] }))
    ∧ (∀ (s : S), g.Delete w.db db id = (none, s) →
        DeleteByID g (NewDao db (some c)) id w
          = (none, { db := s, cache := (c.Del w.cache id).2,
                     trace := w.trace ++ [.dbDelete db id, .cacheDel id] }))
    ∧ (∀ (e : Error) (s : S), g.Delete w.db tx id = (some e, s) →
        DeleteByTx g (NewDao db (some c)) tx id w
          = (some e, { db := s, cache := w.cache, trace := w.trace ++ [.dbDelete tx id] }))
    ∧ (∀ (s : S), g.Delete w.db tx id = (none, s) →
        DeleteByTx g (NewDao db (some c)) tx id w
          = (none, { db := s, cache := (c.Del w.cache id).2,
                     trace := w.trace ++ [.dbDelete tx id, .cacheDel id] }))
    ∧ cacheDels (DeleteByID g (NewDao db (some c)) id w).2.trace
        = cacheDels w.trace + (if (g.Delete w.db db id).1 = none then 1 else 0)
    ∧ cacheDels (DeleteByTx g (NewDao db (some c)) tx id w).2.trace
        = cacheDels w.trace + (if (g.Delete w.db tx id).1 = none then 1 else 0) := by
  refine ⟨?_, ?_, ?_, ?_, ?_, ?_⟩
  · intro e s h
    simp [DeleteByID, NewDao, dbDelete, h]
  · intro s h
    simp [DeleteByID, deleteCache, NewDao, cacheDel, dbDelete, h]
  · intro e s h
    simp [DeleteByTx, dbDelete, h]
  · intro s h
    simp [DeleteByTx, deleteCache, NewDao, cacheDel, dbDelete, h]
  · rcases h : g.Delete w.db db id with ⟨_ | e, s⟩ <;>
      simp [DeleteByID, deleteCache, NewDao, cacheDel, dbDelete, h, cacheDels,
        List.countP_append]
  · rcases h : g.Delete w.db tx id with ⟨_ | e, s⟩ <;>
      simp [DeleteByTx, deleteCache, NewDao, cacheDel, dbDelete, h, cacheDels,
        List.countP_append]

/-- Witness of C11: mob 42 is cached; with the store down `DeleteByID(42)` returns the
store error and the entry stays, with the store up the entry is deleted. -/
theorem delete_invalidates_iff_deleted_witness :
    DeleteByID mobStore (NewDao 0 (some mobCache)) 42
        (mobWorld [mobWith 42 100] (some (.new "driver: bad connection"))
          [("mob:42", .value (mobWith 42 100))] false)
      = (some (.new "driver: bad connection"),
          { db := { rows := [mobWith 42 100], fail := some (.new "driver: bad connection") },
            cache := { entries := [("mob:42", .value (mobWith 42 100))], failWrites := false,
                       failDel := false },
            trace := [] ++ [.dbDelete 0 42] })
    ∧ DeleteByTx mobStore (NewDao 0 (some mobCache)) 1 42
        (mobWorld [mobWith 42 100] none [("mob:42", .value (mobWith 42 100))] false)
      = (none,
          { db := { rows := [], fail := none },
            cache := { entries := [], failWrites := false, failDel := false },
            trace := [] ++ [.dbDelete 1 42, .cacheDel 42] }) :=
  ⟨(delete_invalidates_iff_deleted mobStore 0 1 mobCache 42
      (mobWorld [mobWith 42 100] (some (.new "driver: bad connection"))
        [("mob:42", .value (mobWith 42 100))] false)).1
      (.new "driver: bad connection")
      { rows := [mobWith 42 100], fail := some (.new "driver: bad connection") } (by rfl),
   (delete_invalidates_iff_deleted mobStore 0 1 mobCache 42
      (mobWorld [mobWith 42 100] none [("mob:42", .value (mobWith 42 100))] false)).2.2.2.1
      { rows := [], fail := none } (by rfl)⟩

/-- C12. Cache invalidation failures are swallowed: the error returned by `DeleteByID`,
`DeleteByTx`, `UpdateByID` and `UpdateByTx` is the error of the store mutation
(`Delete`, or `updateDataByID`), whatever adapter `c` is installed and whatever its `Del`
returns. -/
theorem write_error_is_store_error (k : Kind S C Id Rec) (g : DB S Id Rec) (db tx : Handle)
    (c : XCache C Id Rec) (id : Id) (table : Rec) (w : World S C Id Rec) :
    (DeleteByID g (NewDao db (some c)) id w).1 = (g.Delete w.db db id).1
    ∧ (DeleteByTx g (NewDao db (some c)) tx id w).1 = (g.Delete w.db tx id).1
    ∧ (UpdateByID k g (NewDao db (some c)) table w).1 = (k.updateDataByID g db table w).1
    ∧ (UpdateByTx k g (NewDao db (some c)) tx table w).1
        = (k.updateDataByID g tx table w).1 := by
  refine ⟨?_, ?_, ?_, ?_⟩
  · rcases h : g.Delete w.db db id with ⟨_ | e, s⟩ <;>
      simp [DeleteByID, deleteCache, NewDao, cacheDel, dbDelete, h]
  · rcases h : g.Delete w.db tx id with ⟨_ | e, s⟩ <;>
      simp [DeleteByTx, deleteCache, NewDao, cacheDel, dbDelete, h]
  · simp [UpdateByID, NewDao]
  · simp [UpdateByTx]

/-- C15. The transactional variants are the plain ones run on the supplied handle:
`DeleteByTx(tx, id)` and `UpdateByTx(tx, rec)` give the same result and the same world
(store mutation, cache `Del`, error) as `DeleteByID(id)` and `UpdateByID(rec)` of a
repository whose own handle is `tx`; `CreateByTx` does the insert of `Create` on `tx` and
returns, next to its error, the id of the record as the store left it. -/
theorem tx_variants_agree (k : Kind S C Id Rec) (g : DB S Id Rec) (d : Dao C Id Rec)
    (tx : Handle) (id : Id) (table : Rec) (w : World S C Id Rec) :
    DeleteByTx g d tx id w = DeleteByID g { d with db := tx } id w
    ∧ UpdateByTx k g d tx table w = UpdateByID k g { d with db := tx } table w
    ∧ CreateByTx k g d tx table w
        = ((k.ID (Create g { d with db := tx } table w).1.1,
            (Create g { d with db := tx } table w).1.2),
           (Create g { d with db := tx } table w).2) := by
  refine ⟨?_, ?_, ?_⟩
  · simp [DeleteByTx, DeleteByID, deleteCache]
  · simp [UpdateByTx, UpdateByID, deleteCache]
  · simp [CreateByTx, Create]

end writes

/-! ## Theorems: `updateDataByID` -/

section updates

variable {S C : Type}

/-- The source of `mobDao.updateDataByID` is the id test followed by `Updates` of the
map `mobDao.updateColumns`. -/
theorem mob_updateDataByID_eq (g : DB S Nat Mob) (db : Handle) (table : Mob)
    (w : World S C Nat Mob) :
    mobDao.updateDataByID g db table w
      = if table.ID < 1 then (some (.new "id cannot be 0"), w)
        else dbUpdates g db table (mobDao.updateColumns table) w := rfl

/-- The source of `itemDao.updateDataByID` is the id test followed by `Updates` of the
map `itemDao.updateColumns`. -/
theorem item_updateDataByID_eq (g : DB S Nat Item) (db : Handle) (table : Item)
    (w : World S C Nat Item) :
    itemDao.updateDataByID g db table w
      = if table.ID < 1 then (some (.new "id cannot be 0"), w)
        else dbUpdates g db table (itemDao.updateColumns table) w := rfl

/-- The source of `roomDao.updateDataByID` is the id test followed by `Updates` of the
map `roomDao.updateColumns`. -/
theorem room_updateDataByID_eq (g : DB S String Room) (db : Handle) (table : Room)
    (w : World S C String Room) :
    roomDao.updateDataByID g db table w
      = if table.ID = "" then (some (.new "id cannot be empty"), w)
        else dbUpdates g db table (roomDao.updateColumns table) w := rfl

/-- An update that `updateDataByID` rejects: `UpdateByID` and `UpdateByTx` return the
error, leave the store alone and record no `Updates` call. -/
theorem update_rejected {Id Rec : Type} (k : Kind S C Id Rec) (g : DB S Id Rec)
    (d : Dao C Id Rec) (tx : Handle) (table : Rec) (w : World S C Id Rec) (err : Error)
    (h : ∀ h : Handle, k.updateDataByID g h table w = (some err, w)) :
    ((UpdateByID k g d table w).1 = some err
      ∧ (UpdateByID k g d table w).2.db = w.db
      ∧ storeUpdates (UpdateByID k g d table w).2.trace = storeUpdates w.trace)
    ∧ ((UpdateByTx k g d tx table w).1 = some err
      ∧ (UpdateByTx k g d tx table w).2.db = w.db
      ∧ storeUpdates (UpdateByTx k g d tx table w).2.trace = storeUpdates w.trace) := by
  rcases hc : d.cache with _ | c <;>
    simp [UpdateByID, UpdateByTx, deleteCache, cacheDel, h, hc, storeUpdates,
      List.countP_append]

/-- An update that `updateDataByID` passes to the store with the map `U`: `UpdateByID`
and `UpdateByTx` return the error of that one `Updates` call. -/
theorem update_passed {Id Rec : Type} (k : Kind S C Id Rec) (g : DB S Id Rec)
    (d : Dao C Id Rec) (tx : Handle) (table : Rec) (w : World S C Id Rec)
    (U : List (String × Value))
    (h : ∀ h : Handle, k.updateDataByID g h table w = dbUpdates g h table U w) :
    ((UpdateByID k g d table w).1 = (g.Updates w.db d.db table U).1
      ∧ storeUpdates (UpdateByID k g d table w).2.trace = storeUpdates w.trace + 1)
    ∧ ((UpdateByTx k g d tx table w).1 = (g.Updates w.db tx table U).1
      ∧ storeUpdates (UpdateByTx k g d tx table w).2.trace = storeUpdates w.trace + 1) := by
  rcases hc : d.cache with _ | c <;>
    simp [UpdateByID, UpdateByTx, deleteCache, cacheDel, dbUpdates, h, hc, storeUpdates,
      List.countP_append]

/-- C13. Update validation, for item, mob and room in turn. A record whose id is the zero
value of the kind (0, 0, the empty string) makes `UpdateByID` and `UpdateByTx` return the
validation error, with the store untouched and no `Updates` call recorded. A record with
any other id passes the test: exactly one `Updates` call is made and its error is what
the operation returns. -/
theorem update_validation {Si Ci Sm Cm Sr Cr : Type}
    (gi : DB Si Nat Item) (gm : DB Sm Nat Mob) (gr : DB Sr String Room)
    (di : Dao Ci Nat Item) (dm : Dao Cm Nat Mob) (dr : Dao Cr String Room) (tx : Handle)
    (wi : World Si Ci Nat Item) (wm : World Sm Cm Nat Mob) (wr : World Sr Cr String Room) :
    (∀ table : Item, table.ID = 0 →
        ((UpdateByID (itemKind Si Ci) gi di table wi).1 = some (.new "id cannot be 0")
          ∧ (UpdateByID (itemKind Si Ci) gi di table wi).2.db = wi.db
          ∧ storeUpdates (UpdateByID (itemKind Si Ci) gi di table wi).2.trace
              = storeUpdates wi.trace)
        ∧ ((UpdateByTx (itemKind Si Ci) gi di tx table wi).1 = some (.new "id cannot be 0")
          ∧ (UpdateByTx (itemKind Si Ci) gi di tx table wi).2.db = wi.db
          ∧ storeUpdates (UpdateByTx (itemKind Si Ci) gi di tx table wi).2.trace
              = storeUpdates wi.trace))
    ∧ (∀ table : Item, table.ID ≠ 0 →
        ((UpdateByID (itemKind Si Ci) gi di table wi).1
            = (gi.Updates wi.db di.db table (itemDao.updateColumns table)).1
          ∧ storeUpdates (UpdateByID (itemKind Si Ci) gi di table wi).2.trace
              = storeUpdates wi.trace + 1)
        ∧ ((UpdateByTx (itemKind Si Ci) gi di tx table wi).1
            = (gi.Updates wi.db tx table (itemDao.updateColumns table)).1
          ∧ storeUpdates (UpdateByTx (itemKind Si Ci) gi di tx table wi).2.trace
              = storeUpdates wi.trace + 1))
    ∧ (∀ table : Mob, table.ID = 0 →
        ((UpdateByID (mobKind Sm Cm) gm dm table wm).1 = some (.new "id cannot be 0")
          ∧ (UpdateByID (mobKind Sm Cm) gm dm table wm).2.db = wm.db
          ∧ storeUpdates (UpdateByID (mobKind Sm Cm) gm dm table wm).2.trace
              = storeUpdates wm.trace)
        ∧ ((UpdateByTx (mobKind Sm Cm) gm dm tx table wm).1 = some (.new "id cannot be 0")
          ∧ (UpdateByTx (mobKind Sm Cm) gm dm tx table wm).2.db = wm.db
          ∧ storeUpdates (UpdateByTx (mobKind Sm Cm) gm dm tx table wm).2.trace
              = storeUpdates wm.trace))
    ∧ (∀ table : Mob, table.ID ≠ 0 →
        ((UpdateByID (mobKind Sm Cm) gm dm table wm).1
            = (gm.Updates wm.db dm.db table (mobDao.updateColumns table)).1
          ∧ storeUpdates (UpdateByID (mobKind Sm Cm) gm dm table wm).2.trace
              = storeUpdates wm.trace + 1)
        ∧ ((UpdateByTx (mobKind Sm Cm) gm dm tx table wm).1
            = (gm.Updates wm.db tx table (mobDao.updateColumns table)).1
          ∧ storeUpdates (UpdateByTx (mobKind Sm Cm) gm dm tx table wm).2.trace
              = storeUpdates wm.trace + 1))
    ∧ (∀ table : Room, table.ID = "" →
        ((UpdateByID (roomKind Sr Cr) gr dr table wr).1 = some (.new "id cannot be empty")
          ∧ (UpdateByID (roomKind Sr Cr) gr dr table wr).2.db = wr.db
          ∧ storeUpdates (UpdateByID (roomKind Sr Cr) gr dr table wr).2.trace
              = storeUpdates wr.trace)
        ∧ ((UpdateByTx (roomKind Sr Cr) gr dr tx table wr).1 = some (.new "id cannot be empty")
          ∧ (UpdateByTx (roomKind Sr Cr) gr dr tx table wr).2.db = wr.db
          ∧ storeUpdates (UpdateByTx (roomKind Sr Cr) gr dr tx table wr).2.trace
              = storeUpdates wr.trace))
    ∧ (∀ table : Room, table.ID ≠ "" →
        ((UpdateByID (roomKind Sr Cr) gr dr table wr).1
            = (gr.Updates wr.db dr.db table (roomDao.updateColumns table)).1
          ∧ storeUpdates (UpdateByID (roomKind Sr Cr) gr dr table wr).2.trace
              = storeUpdates wr.trace + 1)
        ∧ ((UpdateByTx (roomKind Sr Cr) gr dr tx table wr).1
            = (gr.Updates wr.db tx table (roomDao.updateColumns table)).1
          ∧ storeUpdates (UpdateByTx (roomKind Sr Cr) gr dr tx table wr).2.trace
              = storeUpdates wr.trace + 1)) := by
  refine ⟨?_, ?_, ?_, ?_, ?_, ?_⟩
  · intro table h
    exact update_rejected (itemKind Si Ci) gi di tx table wi _
      (fun h1 => by simp [itemKind, item_updateDataByID_eq, h])
  · intro table h
    exact update_passed (itemKind Si Ci) gi di tx table wi _
      (fun h1 => by simp [itemKind, item_updateDataByID_eq, Nat.lt_one_iff, h])
  · intro table h
    exact update_rejected (mobKind Sm Cm) gm dm tx table wm _
      (fun h1 => by simp [mobKind, mob_updateDataByID_eq, h])
  · intro table h
    exact update_passed (mobKind Sm Cm) gm dm tx table wm _
      (fun h1 => by simp [mobKind, mob_updateDataByID_eq, Nat.lt_one_iff, h])
  · intro table h
    exact update_rejected (roomKind Sr Cr) gr dr tx table wr _
      (fun h1 => by simp [roomKind, room_updateDataByID_eq, h])
  · intro table h
    exact update_passed (roomKind Sr Cr) gr dr tx table wr _
      (fun h1 => by simp [roomKind, room_updateDataByID_eq, h])

/-- Witness of C13: a mob with id 0 is rejected without a store call, a mob with id 42
goes to the store, whose error (here none) is returned. -/
theorem update_validation_witness :
    ((UpdateByID (mobKind _ _) mobStore (NewDao 0 (some mobCache)) (mobWith 0 500)
          (mobWorld [mobWith 42 100] none [] false)).1 = some (.new "id cannot be 0")
      ∧ (UpdateByID (mobKind _ _) mobStore (NewDao 0 (some mobCache)) (mobWith 0 500)
          (mobWorld [mobWith 42 100] none [] false)).2.db
          = { rows := [mobWith 42 100], fail := none }
      ∧ storeUpdates (UpdateByID (mobKind _ _) mobStore (NewDao 0 (some mobCache))
          (mobWith 0 500) (mobWorld [mobWith 42 100] none [] false)).2.trace = 0)
    ∧ ((UpdateByID (mobKind _ _) mobStore (NewDao 0 (some mobCache)) (mobWith 42 500)
          (mobWorld [mobWith 42 100] none [] false)).1 = none
      ∧ storeUpdates (UpdateByID (mobKind _ _) mobStore (NewDao 0 (some mobCache))
          (mobWith 42 500) (mobWorld [mobWith 42 100] none [] false)).2.trace = 0 + 1) :=
  ⟨((update_validation itemStore mobStore roomStore (NewDao 0 (some itemCache))
      (NewDao 0 (some mobCache)) (NewDao 0 (some roomCache)) 1
      (itemWorld [] none [] false)
      (mobWorld [mobWith 42 100] none [] false)
      (roomWorld [] none [] false)).2.2.1 (mobWith 0 500) (by rfl)).1,
   ((update_validation itemStore mobStore roomStore (NewDao 0 (some itemCache))
      (NewDao 0 (some mobCache)) (NewDao 0 (some roomCache)) 1
      (itemWorld [] none [] false)
      (mobWorld [mobWith 42 100] none [] false)
      (roomWorld [] none [] false)).2.2.2.1 (mobWith 42 500) (by decide)).1⟩

/-- Appending one entry under a condition is appending a list of at most one entry. -/
theorem ite_append_one {α : Type} (c : Prop) [Decidable c] (l : List α) (x : α) :
    (if c then l ++ [x] else l) = l ++ (if c then [x] else []) := by
  split <;> simp

/-- Membership in a list of at most one entry. -/
theorem mem_ite_one {α : Type} (c : Prop) [Decidable c] (x y : α) :
    y ∈ (if c then [x] else []) ↔ c ∧ y = x := by
  split <;> simp [*]

/-- C14. Partial update by non-zero fields, for item, mob and room in turn. For a record
with a valid id, what `updateDataByID` sends to the store is `Updates` of the map
`updateColumns`. An entry `(col, v)` is in that map exactly when `col` is the column of a
field of the record that is not zero (a non-empty string, a non-zero integer, a non-nil
`Attackable`) and `v` is the value of that field. No entry has the column `id`, and a
record whose fields other than the id are all zero gives the empty map. -/
theorem update_columns {Si Ci Sm Cm Sr Cr : Type}
    (gi : DB Si Nat Item) (gm : DB Sm Nat Mob) (gr : DB Sr String Room) (db : Handle)
    (wi : World Si Ci Nat Item) (wm : World Sm Cm Nat Mob) (wr : World Sr Cr String Room)
    (item : Item) (mob : Mob) (room : Room) (col : String) (v : Value) :
    (((item.ID ≠ 0 →
          itemDao.updateDataByID gi db item wi
            = dbUpdates gi db item (itemDao.updateColumns item) wi)
      ∧ ((col, v) ∈ itemDao.updateColumns item ↔
          (item.ItemID ≠ "" ∧ col = "item_id" ∧ v = .str item.ItemID)
          ∨ (item.ItemName ≠ "" ∧ col = "item_name" ∧ v = .str item.ItemName)
          ∨ (item.ItemCname ≠ "" ∧ col = "item_cname" ∧ v = .str item.ItemCname)
          ∨ (item.ItemDesc ≠ "" ∧ col = "item_desc" ∧ v = .str item.ItemDesc)
          ∨ (item.Hp ≠ 0 ∧ col = "hp" ∧ v = .int item.Hp)
          ∨ (item.Mp ≠ 0 ∧ col = "mp" ∧ v = .int item.Mp)
          ∨ (item.Attack ≠ 0 ∧ col = "attack" ∧ v = .int item.Attack)
          ∨ (item.Defence ≠ 0 ∧ col = "defence" ∧ v = .int item.Defence)
          ∨ (item.Dodge ≠ 0 ∧ col = "dodge" ∧ v = .int item.Dodge)
          ∨ (item.Str ≠ 0 ∧ col = "str" ∧ v = .int item.Str)
          ∨ (item.Cor ≠ 0 ∧ col = "cor" ∧ v = .int item.Cor)
          ∨ (item.Inte ≠ 0 ∧ col = "inte" ∧ v = .int item.Inte)
          ∨ (item.Dex ≠ 0 ∧ col = "dex" ∧ v = .int item.Dex)
          ∨ (item.Con ≠ 0 ∧ col = "con" ∧ v = .int item.Con)
          ∨ (item.Kar ≠ 0 ∧ col = "kar" ∧ v = .int item.Kar)
          ∨ (item.Classifier ≠ "" ∧ col = "classifier" ∧ v = .str item.Classifier))
      ∧ ("id", v) ∉ itemDao.updateColumns item
      ∧ itemDao.updateColumns { Item.zero with ID := item.ID } = []))
    ∧ (((mob.ID ≠ 0 →
          mobDao.updateDataByID gm db mob wm
            = dbUpdates gm db mob (mobDao.updateColumns mob) wm)
      ∧ ((col, v) ∈ mobDao.updateColumns mob ↔
          (mob.MobID ≠ "" ∧ col = "mob_id" ∧ v = .str mob.MobID)
          ∨ (mob.MobName ≠ "" ∧ col = "mob_name" ∧ v = .str mob.MobName)
          ∨ (mob.MobCname ≠ "" ∧ col = "mob_cname" ∧ v = .str mob.MobCname)
          ∨ (mob.MobDesc ≠ "" ∧ col = "mob_desc" ∧ v = .str mob.MobDesc)
          ∨ (∃ b, mob.Attackable = some b ∧ col = "attackable" ∧ v = .tinyBool b)
          ∨ (mob.Hp ≠ 0 ∧ col = "hp" ∧ v = .int mob.Hp)
          ∨ (mob.Mp ≠ 0 ∧ col = "mp" ∧ v = .int mob.Mp)
          ∨ (mob.Attack ≠ 0 ∧ col = "attack" ∧ v = .int mob.Attack)
          ∨ (mob.Defence ≠ 0 ∧ col = "defence" ∧ v = .int mob.Defence)
          ∨ (mob.Dodge ≠ 0 ∧ col = "dodge" ∧ v = .int mob.Dodge))
      ∧ ("id", v) ∉ mobDao.updateColumns mob
      ∧ mobDao.updateColumns { Mob.zero with ID := mob.ID } = []))
    ∧ (((room.ID ≠ "" →
          roomDao.updateDataByID gr db room wr
            = dbUpdates gr db room (roomDao.updateColumns room) wr)
      ∧ ((col, v) ∈ roomDao.updateColumns room ↔
          (room.Title ≠ "" ∧ col = "title" ∧ v = .str room.Title)
          ∨ (room.Desc ≠ "" ∧ col = "desc" ∧ v = .str room.Desc)
          ∨ (room.Way ≠ "" ∧ col = "way" ∧ v = .str room.Way)
          ∨ (room.Mobs ≠ "" ∧ col = "mobs" ∧ v = .str room.Mobs))
      ∧ ("id", v) ∉ roomDao.updateColumns room
      ∧ roomDao.updateColumns { Room.zero with ID := room.ID } = [])) := by
  refine ⟨⟨?_, ?_, ?_, ?_⟩, ⟨?_, ?_, ?_, ?_⟩, ⟨?_, ?_, ?_, ?_⟩⟩
  · intro h
    simp [item_updateDataByID_eq, Nat.lt_one_iff, h]
  · simp only [itemDao.updateColumns, ite_append_one, mem_ite_one, List.mem_append, List.nil_append,
      List.not_mem_nil, false_or, or_false, Prod.mk.injEq, List.mem_singleton, or_assoc, ne_eq,
      Option.some.injEq, exists_eq_left', false_and, exists_false, reduceCtorEq]
  · simp only [itemDao.updateColumns, ite_append_one, mem_ite_one, List.mem_append, List.nil_append,
      List.not_mem_nil, false_or, Prod.mk.injEq, List.mem_singleton]
    simp
  · rfl
  · intro h
    simp [mob_updateDataByID_eq, Nat.lt_one_iff, h]
  · rcases hA : mob.Attackable with _ | b <;>
      simp only [mobDao.updateColumns, hA, ite_append_one, mem_ite_one, List.mem_append, List.nil_append,
      List.not_mem_nil, false_or, or_false, Prod.mk.injEq, List.mem_singleton, or_assoc, ne_eq,
      Option.some.injEq, exists_eq_left', false_and, exists_false, reduceCtorEq]
  · rcases hA : mob.Attackable with _ | b <;>
      simp only [mobDao.updateColumns, hA, ite_append_one, mem_ite_one, List.mem_append, List.nil_append,
      List.not_mem_nil, false_or, Prod.mk.injEq, List.mem_singleton] <;>
      simp
  · rfl
  · intro h
    simp [room_updateDataByID_eq, h]
  · simp only [roomDao.updateColumns, ite_append_one, mem_ite_one, List.mem_append, List.nil_append,
      List.not_mem_nil, false_or, or_false, Prod.mk.injEq, List.mem_singleton, or_assoc, ne_eq,
      Option.some.injEq, exists_eq_left', false_and, exists_false, reduceCtorEq]
  · simp only [roomDao.updateColumns, ite_append_one, mem_ite_one, List.mem_append, List.nil_append,
      List.not_mem_nil, false_or, Prod.mk.injEq, List.mem_singleton]
    simp
  · rfl

/-- Witness of C14: updating mob 42 with only `Hp` set sends the map with the single
entry `hp`. -/
theorem update_columns_witness :
    (mobWith 42 500).ID ≠ 0
    ∧ mobDao.updateDataByID mobStore 0 (mobWith 42 500)
        (mobWorld [mobWith 42 100] none [] false)
      = dbUpdates mobStore 0 (mobWith 42 500) [("hp", .int 500)]
          (mobWorld [mobWith 42 100] none [] false) :=
  ⟨by decide, (update_columns itemStore mobStore roomStore 0
      (itemWorld [] none [] false)
      (mobWorld [mobWith 42 100] none [] false) (roomWorld [] none [] false)
      Item.zero (mobWith 42 500) Room.zero "hp" (.int 500)).2.1.1 (by decide)⟩

end updates

/-! ## Theorems: `GetByColumns` -/

section columns

variable {S C Id Rec P : Type}

/-- C16. `GetByColumns` is never cached: it leaves the cache as it was, records no call
to the cache adapter, and its result and the store it leaves are the same whatever cache
(or none) the repository has and whatever the cache holds. -/
theorem getByColumns_never_cached (k : Kind S C Id Rec) (q : QueryLib P) (gq : DBQuery S Rec)
    (d : Dao C Id Rec) (params : Params P) (w : World S C Id Rec)
    (xCache : Option (XCache C Id Rec)) (sfg : Option Group) (cs : C)
    (t : List (Event Id Rec)) :
    (GetByColumns k q gq d params w).2.cache = w.cache
    ∧ cacheCalls (GetByColumns k q gq d params w).2.trace = cacheCalls w.trace
    ∧ (GetByColumns k q gq { db := d.db, cache := xCache, sfg := sfg } params
        { db := w.db, cache := cs, trace := t }).1 = (GetByColumns k q gq d params w).1
    ∧ (GetByColumns k q gq { db := d.db, cache := xCache, sfg := sfg } params
        { db := w.db, cache := cs, trace := t }).2.db
        = (GetByColumns k q gq d params w).2.db := by
  simp only [GetByColumns]
  generalize (match k.defaultSort with
    | some sort => if params.sort = "" then { params with sort := sort } else params
    | none => params) = params1
  rcases q.ConvertToGormConditions params1 k.ColumnNames with ⟨⟨queryStr, args⟩, _ | err⟩
  swap
  · simp
  have hfind : ∀ (total : Int) (w1 : World S C Id Rec) (cs1 : C) (t1 : List (Event Id Rec)),
      (GetByColumns.find q gq d params1 queryStr args total w1).2.cache = w1.cache
      ∧ cacheCalls (GetByColumns.find q gq d params1 queryStr args total w1).2.trace
          = cacheCalls w1.trace
      ∧ (GetByColumns.find q gq { db := d.db, cache := xCache, sfg := sfg } params1 queryStr
          args total { db := w1.db, cache := cs1, trace := t1 }).1
          = (GetByColumns.find q gq d params1 queryStr args total w1).1
      ∧ (GetByColumns.find q gq { db := d.db, cache := xCache, sfg := sfg } params1 queryStr
          args total { db := w1.db, cache := cs1, trace := t1 }).2.db
          = (GetByColumns.find q gq d params1 queryStr args total w1).2.db := by
    intro total w1 cs1 t1
    rcases hp : q.ConvertToPage params1 with ⟨order, limit, offset⟩
    rcases hf : gq.Find w1.db d.db order limit offset queryStr args with
      ⟨⟨records, _ | err⟩, s1⟩ <;>
      simp [GetByColumns.find, dbFind, hp, hf, cacheCalls, List.countP_append]
  by_cases hsort : params1.sort = "ignore count"
  · simpa [hsort] using hfind 0 w cs t
  · rcases hc : gq.Count w.db d.db queryStr args with ⟨⟨total, _ | err⟩, s1⟩
    · by_cases htotal : total = 0
      · simp [hsort, dbCount, hc, htotal, cacheCalls, List.countP_append]
      · have h := hfind total
          { db := s1, cache := w.cache, trace := w.trace ++ [.dbCount d.db queryStr args] }
          cs (t ++ [.dbCount d.db queryStr args])
        simpa [hsort, dbCount, hc, htotal, cacheCalls, List.countP_append] using h
    · simp [hsort, dbCount, hc, cacheCalls, List.countP_append]

end columns

/-! ## Theorems: the adapter `Set` -/

section adapterSet

/-- C19. The adapter `Set` skips a nil record: for every id and ttl, `Set(id, nil, ttl)`
of the item, mob and room adapters returns nil and leaves the backend as it was (the
backend is not called). -/
theorem set_nil_record_skipped {Bi Bm Br : Type} (ci : Cache Bi Item) (cm : Cache Bm Mob)
    (cr : Cache Br Room) (bi : Bi) (bm : Bm) (br : Br) (id : Nat) (roomId : String)
    (ttl : Duration) :
    xCache.Set itemCacheKind ci bi id none ttl = (none, bi)
    ∧ xCache.Set mobCacheKind cm bm id none ttl = (none, bm)
    ∧ xCache.Set roomCacheKind cr br roomId none ttl = (none, br) :=
  ⟨rfl, rfl, rfl⟩

/-- C20, evaluated. `Set(0, record, ttl)` of the item and mob adapters returns nil and
leaves the backend as it was. `Set("", record, ttl)` of the room adapter does not: it is
the backend `Set` under the key "room:", and on the reference backend it stores the
record there. -/
theorem set_keyless_record {Bi Bm Br : Type} (ci : Cache Bi Item) (cm : Cache Bm Mob)
    (cr : Cache Br Room) (bi : Bi) (bm : Bm) (br : Br) (item : Item) (mob : Mob)
    (room : Room) (ttl : Duration) :
    xCache.Set itemCacheKind ci bi 0 (some item) ttl = (none, bi)
    ∧ xCache.Set mobCacheKind cm bm 0 (some mob) ttl = (none, bm)
    ∧ xCache.Set roomCacheKind cr br "" (some room) ttl = cr.Set br "room:" room ttl
    ∧ roomCache.Set { entries := [], failWrites := false, failDel := false } ""
        (some (roomWith "" "Start")) RoomExpireTime
      = (none, { entries := [("room:", .value (roomWith "" "Start"))], failWrites := false,
                 failDel := false }) := by
  refine ⟨rfl, rfl, ?_, rfl⟩
  simp only [xCache.Set, roomCacheKind, xCache.GetCacheKey, roomCachePrefixKey]
  rcases h : cr.Set br ("room:" ++ "") room ttl with ⟨_ | e, b1⟩
  · simpa using h.symm
  · simpa using h.symm

end adapterSet

/-! ## Theorems: `Create` followed by `GetByID` -/

section create

variable {S C Id Rec : Type}

/-- C17, as stated, fails. Room "room-1" is created on a cold cache whose backend
refuses writes. The first `GetByID("room-1")` returns the room after one store read, but
the cache `Set` it makes fails and is swallowed: no entry is left (the adapter still
reports the key absent), and the second `GetByID("room-1")` reads the store again, two
store reads in all. -/
theorem create_then_read_twice_unwritten :
    Create roomStore (NewDao 0 (some roomCache)) (roomWith "room-1" "Start")
        (roomWorld [] none [] true)
      = ((roomWith "room-1" "Start", none),
          { db := { rows := [roomWith "room-1" "Start"], fail := none },
            cache := { entries := [], failWrites := true, failDel := false },
            trace := [.dbCreate 0 (roomWith "room-1" "Start")] })
    ∧ GetByID (roomKind _ _) roomStore (NewDao 0 (some roomCache)) "room-1"
        { db := { rows := [roomWith "room-1" "Start"], fail := none },
          cache := { entries := [], failWrites := true, failDel := false },
          trace := [.dbCreate 0 (roomWith "room-1" "Start")] }
      = some ((some (roomWith "room-1" "Start"), none),
          { db := { rows := [roomWith "room-1" "Start"], fail := none },
            cache := { entries := [], failWrites := true, failDel := false },
            trace := [.dbCreate 0 (roomWith "room-1" "Start"), .cacheGet "room-1",
              .sfgDo "room-1", .dbFirst 0 "room-1",
              .cacheSet "room-1" (some (roomWith "room-1" "Start")) 300000000000] })
    ∧ cacheAbsent roomCache
        ({ entries := [], failWrites := true, failDel := false } : MemCache Room) "room-1"
      = true
    ∧ GetByID (roomKind _ _) roomStore (NewDao 0 (some roomCache)) "room-1"
        { db := { rows := [roomWith "room-1" "Start"], fail := none },
          cache := { entries := [], failWrites := true, failDel := false },
          trace := [.dbCreate 0 (roomWith "room-1" "Start"), .cacheGet "room-1",
            .sfgDo "room-1", .dbFirst 0 "room-1",
            .cacheSet "room-1" (some (roomWith "room-1" "Start")) 300000000000] }
      = some ((some (roomWith "room-1" "Start"), none),
          { db := { rows := [roomWith "room-1" "Start"], fail := none },
            cache := { entries := [], failWrites := true, failDel := false },
            trace := [.dbCreate 0 (roomWith "room-1" "Start"), .cacheGet "room-1",
              .sfgDo "room-1", .dbFirst 0 "room-1",
              .cacheSet "room-1" (some (roomWith "room-1" "Start")) 300000000000,
              .cacheGet "room-1", .sfgDo "room-1", .dbFirst 0 "room-1",
              .cacheSet "room-1" (some (roomWith "room-1" "Start")) 300000000000] })
    ∧ storeReads ([.dbCreate 0 (roomWith "room-1" "Start"), .cacheGet "room-1",
          .sfgDo "room-1", .dbFirst 0 "room-1",
          .cacheSet "room-1" (some (roomWith "room-1" "Start")) 300000000000,
          .cacheGet "room-1", .sfgDo "room-1", .dbFirst 0 "room-1",
          .cacheSet "room-1" (some (roomWith "room-1" "Start")) 300000000000] :
          List (Event String Room)) = 2 := by
  refine ⟨?_, ?_, ?_, ?_, ?_⟩ <;> rfl

/-- C17, amended. Scenario A over a cache in which `Get(K)` after `Set(K, r, T)` yields
`r`: if `Create` succeeds and leaves the record `r` with key `K`, the cache reports `K`
absent and the store read by `K` yields `r`, then the first `GetByID(K)` returns `r` after
exactly one store read and one cache `Set(K, r, T)`, the cache then answers `Get(K)` with
`r`, and the second `GetByID(K)` returns `r` with no further store read. An adapter that
does not skip `K` is such a cache as soon as its backend yields `r` on `Get` after `Set`
of the key of `K`; the room adapter skips no key. -/
theorem create_then_read_twice (B : Type) (k : Kind S C Id Rec) (g : DB S Id Rec)
    (db : Handle) (c : XCache C Id Rec) (w : World S C Id Rec) (r0 r : Rec) (s1 s2 : S)
    (x : Option Rec) (e : Error) (cs : C)
    (hcreate : g.Create w.db db r0 = ((r, none), s1))
    (hcold : c.Get w.cache (k.ID r) = ((x, some e), cs))
    (habsent : errorsIs e ErrCacheNotFound = true)
    (hstore : g.First s1 db (k.ID r) k.zero = ((r, none), s2))
    (hcache : (c.Get (c.Set cs (k.ID r) (some r) k.ExpireTime).2 (k.ID r)).1
        = (some r, none)) :
    (∃ w3 : World S C Id Rec,
      Create g (NewDao db (some c)) r0 w
        = ((r, none), { db := s1, cache := w.cache, trace := w.trace ++ [.dbCreate db r0] })
      ∧ GetByID k g (NewDao db (some c)) (k.ID r)
          { db := s1, cache := w.cache, trace := w.trace ++ [.dbCreate db r0] }
        = some ((some r, none),
            { db := s2, cache := (c.Set cs (k.ID r) (some r) k.ExpireTime).2,
              trace := w.trace ++ [.dbCreate db r0, .cacheGet (k.ID r),
                .sfgDo (k.sfgKey (k.ID r)), .dbFirst db (k.ID r),
                .cacheSet (k.ID r) (some r) k.ExpireTime] })
      ∧ storeReads (w.trace ++ [.dbCreate db r0, .cacheGet (k.ID r),
            .sfgDo (k.sfgKey (k.ID r)), .dbFirst db (k.ID r),
            .cacheSet (k.ID r) (some r) k.ExpireTime]) = storeReads w.trace + 1
      ∧ (c.Get (c.Set cs (k.ID r) (some r) k.ExpireTime).2 (k.ID r)).1 = (some r, none)
      ∧ GetByID k g (NewDao db (some c)) (k.ID r)
          { db := s2, cache := (c.Set cs (k.ID r) (some r) k.ExpireTime).2,
            trace := w.trace ++ [.dbCreate db r0, .cacheGet (k.ID r),
              .sfgDo (k.sfgKey (k.ID r)), .dbFirst db (k.ID r),
              .cacheSet (k.ID r) (some r) k.ExpireTime] }
        = some ((some r, none), w3)
      ∧ w3.db = s2
      ∧ storeReads w3.trace = storeReads w.trace + 1)
    ∧ (∀ (ck : CacheKind Id) (bk : Cache B Rec) (b1 : B),
        ck.skipId (k.ID r) = false →
        (bk.Get (bk.Set b1 (xCache.GetCacheKey ck (k.ID r)) r k.ExpireTime).2
          (xCache.GetCacheKey ck (k.ID r))).1 = (some r, none) →
        ((xCache.toXCache ck bk).Get
          ((xCache.toXCache ck bk).Set b1 (k.ID r) (some r) k.ExpireTime).2 (k.ID r)).1
          = (some r, none))
    ∧ (∀ K : String, roomCacheKind.skipId K = false) := by
  refine ⟨?_, ?_, fun _ => rfl⟩
  · rcases hg : c.Get (c.Set cs (k.ID r) (some r) k.ExpireTime).2 (k.ID r) with
      ⟨⟨r2, e3⟩, cs3⟩
    rw [hg] at hcache
    simp only [Prod.mk.injEq] at hcache
    obtain ⟨rfl, rfl⟩ := hcache
    refine ⟨World.mk s2 cs3
        (w.trace ++ [.dbCreate db r0, .cacheGet (k.ID r),
          .sfgDo (k.sfgKey (k.ID r)), .dbFirst db (k.ID r),
          .cacheSet (k.ID r) (some r) k.ExpireTime] ++ [.cacheGet (k.ID r)]),
      ?_, ?_, ?_, rfl, ?_, rfl, ?_⟩
    · simp [Create, NewDao, dbCreate, hcreate]
    · rw [GetByID_of_absent k g db c (k.ID r)
        { db := s1, cache := w.cache, trace := w.trace ++ [.dbCreate db r0] } x e cs hcold
        habsent]
      simp [GetByID.fetch, NewDao, cacheSet, dbFirst, hstore]
    · simp [storeReads, List.countP_append, List.countP_cons]
    · simp [GetByID, NewDao, cacheGet, hg]
    · simp [storeReads, List.countP_append, List.countP_cons]
  · intro ck bk b1 hkey hbackend
    have hset : ((xCache.toXCache ck bk).Set b1 (k.ID r) (some r) k.ExpireTime).2
        = (bk.Set b1 (xCache.GetCacheKey ck (k.ID r)) r k.ExpireTime).2 := by
      rcases hs : bk.Set b1 (xCache.GetCacheKey ck (k.ID r)) r k.ExpireTime with
        ⟨_ | err, b2⟩ <;> simp [xCache.toXCache, xCache.Set, hkey, hs]
    rw [hset]
    rcases hb : bk.Get (bk.Set b1 (xCache.GetCacheKey ck (k.ID r)) r k.ExpireTime).2
      (xCache.GetCacheKey ck (k.ID r)) with ⟨⟨r2, e3⟩, b3⟩
    rw [hb] at hbackend
    simp only [Prod.mk.injEq] at hbackend
    obtain ⟨rfl, rfl⟩ := hbackend
    simp [xCache.toXCache, xCache.Get, hb]

/-- Witness of C17, amended (scenario A): room "room-1" is created on a cold cache that
takes writes, and read twice; the room adapter on the reference backend is a cache in
which `Get` after `Set` yields the room. -/
theorem create_then_read_twice_witness :
    (∃ w3 : RoomWorld,
      Create roomStore (NewDao 0 (some roomCache)) (roomWith "room-1" "Start")
          (roomWorld [] none [] false)
        = ((roomWith "room-1" "Start", none),
            { db := { rows := [roomWith "room-1" "Start"], fail := none },
              cache := { entries := [], failWrites := false, failDel := false },
              trace := [] ++ [.dbCreate 0 (roomWith "room-1" "Start")] })
      ∧ GetByID (roomKind _ _) roomStore (NewDao 0 (some roomCache)) "room-1"
          { db := { rows := [roomWith "room-1" "Start"], fail := none },
            cache := { entries := [], failWrites := false, failDel := false },
            trace := [] ++ [.dbCreate 0 (roomWith "room-1" "Start")] }
        = some ((some (roomWith "room-1" "Start"), none),
            { db := { rows := [roomWith "room-1" "Start"], fail := none },
              cache := { entries := [("room:room-1", .value (roomWith "room-1" "Start"))],
                         failWrites := false, failDel := false },
              trace := [] ++ [.dbCreate 0 (roomWith "room-1" "Start"), .cacheGet "room-1",
                .sfgDo "room-1", .dbFirst 0 "room-1",
                .cacheSet "room-1" (some (roomWith "room-1" "Start")) 300000000000] })
      ∧ storeReads (([] : List (Event String Room))
          ++ [.dbCreate 0 (roomWith "room-1" "Start"), .cacheGet "room-1",
            .sfgDo "room-1", .dbFirst 0 "room-1",
            .cacheSet "room-1" (some (roomWith "room-1" "Start")) 300000000000])
          = storeReads ([] : List (Event String Room)) + 1
      ∧ (roomCache.Get
          (roomCache.Set ({ entries := [], failWrites := false, failDel := false } :
            MemCache Room) "room-1" (some (roomWith "room-1" "Start")) 300000000000).2
          "room-1").1 = (some (roomWith "room-1" "Start"), none)
      ∧ GetByID (roomKind _ _) roomStore (NewDao 0 (some roomCache)) "room-1"
          { db := { rows := [roomWith "room-1" "Start"], fail := none },
            cache := { entries := [("room:room-1", .value (roomWith "room-1" "Start"))],
                       failWrites := false, failDel := false },
            trace := [] ++ [.dbCreate 0 (roomWith "room-1" "Start"), .cacheGet "room-1",
              .sfgDo "room-1", .dbFirst 0 "room-1",
              .cacheSet "room-1" (some (roomWith "room-1" "Start")) 300000000000] }
        = some ((some (roomWith "room-1" "Start"), none), w3)
      ∧ w3.db = { rows := [roomWith "room-1" "Start"], fail := none }
      ∧ storeReads w3.trace = storeReads ([] : List (Event String Room)) + 1)
    ∧ ((xCache.toXCache roomCacheKind MemCache.backend).Get
        ((xCache.toXCache roomCacheKind MemCache.backend).Set
          ({ entries := [], failWrites := false, failDel := false } : MemCache Room)
          "room-1" (some (roomWith "room-1" "Start")) 300000000000).2 "room-1").1
      = (some (roomWith "room-1" "Start"), none) :=
  ⟨(create_then_read_twice (MemCache Room) (roomKind _ _) roomStore 0 roomCache
      (roomWorld [] none [] false)
      (roomWith "room-1" "Start") (roomWith "room-1" "Start")
      { rows := [roomWith "room-1" "Start"], fail := none }
      { rows := [roomWith "room-1" "Start"], fail := none } none ErrCacheNotFound
      { entries := [], failWrites := false, failDel := false }
      (by rfl) (by rfl) (by rfl) (by rfl) (by rfl)).1,
   (create_then_read_twice (MemCache Room) (roomKind _ _) roomStore 0 roomCache
      (roomWorld [] none [] false)
      (roomWith "room-1" "Start") (roomWith "room-1" "Start")
      { rows := [roomWith "room-1" "Start"], fail := none }
      { rows := [roomWith "room-1" "Start"], fail := none } none ErrCacheNotFound
      { entries := [], failWrites := false, failDel := false }
      (by rfl) (by rfl) (by rfl) (by rfl) (by rfl)).2.1 roomCacheKind MemCache.backend
      { entries := [], failWrites := false, failDel := false } (by rfl) (by rfl)⟩

/-- C18, as stated, fails. Room "room-1" is looked up before it exists: the read
reports not-found and leaves a placeholder. `Create` of that room then succeeds and makes
no cache call, so the next `GetByID("room-1")` answers from the placeholder with
`ErrRecordNotFound` although the store holds the room. The same happens to mob 1. -/
theorem create_after_miss_is_hidden :
    GetByID (roomKind _ _) roomStore (NewDao 0 (some roomCache)) "room-1"
        (roomWorld [] none [] false)
      = some ((none, some ErrRecordNotFound),
          { db := { rows := [], fail := none },
            cache := { entries := [("room:room-1", .placeholder)], failWrites := false,
                       failDel := false },
            trace := [.cacheGet "room-1", .sfgDo "room-1", .dbFirst 0 "room-1",
              .cacheSetPlaceholder "room-1"] })
    ∧ Create roomStore (NewDao 0 (some roomCache)) (roomWith "room-1" "Start")
        { db := { rows := [], fail := none },
          cache := { entries := [("room:room-1", .placeholder)], failWrites := false,
                     failDel := false },
          trace := [.cacheGet "room-1", .sfgDo "room-1", .dbFirst 0 "room-1",
            .cacheSetPlaceholder "room-1"] }
      = ((roomWith "room-1" "Start", none),
          { db := { rows := [roomWith "room-1" "Start"], fail := none },
            cache := { entries := [("room:room-1", .placeholder)], failWrites := false,
                       failDel := false },
            trace := [.cacheGet "room-1", .sfgDo "room-1", .dbFirst 0 "room-1",
              .cacheSetPlaceholder "room-1", .dbCreate 0 (roomWith "room-1" "Start")] })
    ∧ GetByID (roomKind _ _) roomStore (NewDao 0 (some roomCache)) "room-1"
        { db := { rows := [roomWith "room-1" "Start"], fail := none },
          cache := { entries := [("room:room-1", .placeholder)], failWrites := false,
                     failDel := false },
          trace := [.cacheGet "room-1", .sfgDo "room-1", .dbFirst 0 "room-1",
            .cacheSetPlaceholder "room-1", .dbCreate 0 (roomWith "room-1" "Start")] }
      = some ((none, some ErrRecordNotFound),
          { db := { rows := [roomWith "room-1" "Start"], fail := none },
            cache := { entries := [("room:room-1", .placeholder)], failWrites := false,
                       failDel := false },
            trace := [.cacheGet "room-1", .sfgDo "room-1", .dbFirst 0 "room-1",
              .cacheSetPlaceholder "room-1", .dbCreate 0 (roomWith "room-1" "Start"),
              .cacheGet "room-1"] })
    ∧ roomStore.First { rows := [roomWith "room-1" "Start"], fail := none } 0 "room-1"
        Room.zero
      = ((roomWith "room-1" "Start", none),
          { rows := [roomWith "room-1" "Start"], fail := none })
    ∧ GetByID (mobKind _ _) mobStore (NewDao 0 (some mobCache)) 1 (mobWorld [] none [] false)
      = some ((none, some ErrRecordNotFound),
          { db := { rows := [], fail := none },
            cache := { entries := [("mob:1", .placeholder)], failWrites := false,
                       failDel := false },
            trace := [.cacheGet 1, .sfgDo "1", .dbFirst 0 1, .cacheSetPlaceholder 1] })
    ∧ Create mobStore (NewDao 0 (some mobCache)) (mobWith 1 100)
        { db := { rows := [], fail := none },
          cache := { entries := [("mob:1", .placeholder)], failWrites := false,
                     failDel := false },
          trace := [.cacheGet 1, .sfgDo "1", .dbFirst 0 1, .cacheSetPlaceholder 1] }
      = ((mobWith 1 100, none),
          { db := { rows := [mobWith 1 100], fail := none },
            cache := { entries := [("mob:1", .placeholder)], failWrites := false,
                       failDel := false },
            trace := [.cacheGet 1, .sfgDo "1", .dbFirst 0 1, .cacheSetPlaceholder 1,
              .dbCreate 0 (mobWith 1 100)] })
    ∧ GetByID (mobKind _ _) mobStore (NewDao 0 (some mobCache)) 1
        { db := { rows := [mobWith 1 100], fail := none },
          cache := { entries := [("mob:1", .placeholder)], failWrites := false,
                     failDel := false },
          trace := [.cacheGet 1, .sfgDo "1", .dbFirst 0 1, .cacheSetPlaceholder 1,
            .dbCreate 0 (mobWith 1 100)] }
      = some ((none, some ErrRecordNotFound),
          { db := { rows := [mobWith 1 100], fail := none },
            cache := { entries := [("mob:1", .placeholder)], failWrites := false,
                       failDel := false },
            trace := [.cacheGet 1, .sfgDo "1", .dbFirst 0 1, .cacheSetPlaceholder 1,
              .dbCreate 0 (mobWith 1 100), .cacheGet 1] }) := by
  refine ⟨?_, ?_, ?_, ?_, ?_, ?_, ?_⟩ <;> rfl

/-- C18, amended. `Create` makes one store call and no cache call: the cache is as it
was. After a `Create` that succeeded and left the record `r` with key `K`, the next
`GetByID(K)` returns `r` when the adapter reports `K` absent and the store read by `K`
yields `r`; when the adapter answers with a placeholder for `K` it returns
`ErrRecordNotFound` without reading the store. -/
theorem create_then_read (k : Kind S C Id Rec) (g : DB S Id Rec) (db : Handle)
    (c : XCache C Id Rec) (w : World S C Id Rec) (r0 r : Rec) (s1 : S)
    (hcreate : g.Create w.db db r0 = ((r, none), s1)) :
    Create g (NewDao db (some c)) r0 w
      = ((r, none), { db := s1, cache := w.cache, trace := w.trace ++ [.dbCreate db r0] })
    ∧ (∀ s2 : S, cacheAbsent c w.cache (k.ID r) = true →
        g.First s1 db (k.ID r) k.zero = ((r, none), s2) →
        ∃ w2 : World S C Id Rec,
          GetByID k g (NewDao db (some c)) (k.ID r)
              { db := s1, cache := w.cache, trace := w.trace ++ [.dbCreate db r0] }
            = some ((some r, none), w2))
    ∧ (∀ (x : Option Rec) (e : Error) (cs : C),
        c.Get w.cache (k.ID r) = ((x, some e), cs) →
        c.IsPlaceholderErr e = true → errorsIs e ErrCacheNotFound = false →
        GetByID k g (NewDao db (some c)) (k.ID r)
            { db := s1, cache := w.cache, trace := w.trace ++ [.dbCreate db r0] }
          = some ((none, some ErrRecordNotFound),
              { db := s1, cache := cs,
                trace := w.trace ++ [.dbCreate db r0] ++ [.cacheGet (k.ID r)] })) := by
  refine ⟨?_, ?_, ?_⟩
  · simp [Create, NewDao, dbCreate, hcreate]
  · intro s2 habsent hstore
    obtain ⟨w2, hread, -, -⟩ := GetByID_of_absent_answer k g db c (k.ID r)
      { db := s1, cache := w.cache, trace := w.trace ++ [.dbCreate db r0] } habsent
    exact ⟨w2, by simpa [hstore, storeAnswer] using hread⟩
  · intro x e cs hget hplaceholder hpresent
    exact GetByID_of_placeholder k g db c (k.ID r)
      { db := s1, cache := w.cache, trace := w.trace ++ [.dbCreate db r0] } x e cs hget
      hplaceholder hpresent

/-- Witness of C18, amended: room "room-1" is created on a cold cache and read back. -/
theorem create_then_read_witness :
    Create roomStore (NewDao 0 (some roomCache)) (roomWith "room-1" "Start")
        (roomWorld [] none [] false)
      = ((roomWith "room-1" "Start", none),
          { db := { rows := [roomWith "room-1" "Start"], fail := none },
            cache := { entries := [], failWrites := false, failDel := false },
            trace := [] ++ [.dbCreate 0 (roomWith "room-1" "Start")] })
    ∧ ∃ w2 : RoomWorld,
        GetByID (roomKind _ _) roomStore (NewDao 0 (some roomCache)) "room-1"
            { db := { rows := [roomWith "room-1" "Start"], fail := none },
              cache := { entries := [], failWrites := false, failDel := false },
              trace := [] ++ [.dbCreate 0 (roomWith "room-1" "Start")] }
          = some ((some (roomWith "room-1" "Start"), none), w2) :=
  ⟨(create_then_read (roomKind _ _) roomStore 0 roomCache (roomWorld [] none [] false)
      (roomWith "room-1" "Start") (roomWith "room-1" "Start")
      { rows := [roomWith "room-1" "Start"], fail := none } (by rfl)).1,
   (create_then_read (roomKind _ _) roomStore 0 roomCache (roomWorld [] none [] false)
      (roomWith "room-1" "Start") (roomWith "room-1" "Start")
      { rows := [roomWith "room-1" "Start"], fail := none } (by rfl)).2.1
      { rows := [roomWith "room-1" "Start"], fail := none } (by rfl) (by rfl)⟩

end create

/-! ## Theorems: cache keys -/

section keys

/-- The value of a decimal digit character. -/
theorem digitChar_value (m : Nat) (h : m < 10) : (Nat.digitChar m).toNat - 48 = m := by
  interval_cases m <;> rfl

/-- The characters `Nat.digitChar` gives below ten are decimal digits. -/
theorem digitChar_isDigit (m : Nat) (h : m < 10) : (Nat.digitChar m).isDigit = true := by
  interval_cases m <;> rfl

/-- Reading back the digits `Nat.toDigitsCore` puts in front of `ds`. -/
theorem foldl_toDigitsCore (fuel : Nat) :
    ∀ (n : Nat) (ds : List Char), n < fuel →
      (Nat.toDigitsCore 10 fuel n ds).foldl (fun acc c => 10 * acc + (c.toNat - 48)) 0
        = ds.foldl (fun acc c => 10 * acc + (c.toNat - 48)) n := by
  induction fuel with
  | zero => intro n ds h; omega
  | succ fuel ih =>
    intro n ds h
    simp only [Nat.toDigitsCore]
    split
    · rename_i h0
      have hn : n < 10 := by omega
      simp [List.foldl, Nat.mod_eq_of_lt hn, digitChar_value n hn]
    · rename_i h0
      have hlt : n / 10 < fuel := by omega
      rw [ih (n / 10) _ hlt]
      simp only [List.foldl]
      rw [digitChar_value (n % 10) (Nat.mod_lt _ (by decide))]
      congr 1
      omega

/-- The digits `Nat.toDigitsCore` puts in front of `ds` are decimal digits. -/
theorem all_isDigit_toDigitsCore (fuel : Nat) :
    ∀ (n : Nat) (ds : List Char), (∀ c ∈ ds, c.isDigit = true) →
      ∀ c ∈ Nat.toDigitsCore 10 fuel n ds, c.isDigit = true := by
  induction fuel with
  | zero => intro n ds h; simpa [Nat.toDigitsCore] using h
  | succ fuel ih =>
    intro n ds h
    have hd : ∀ c ∈ Nat.digitChar (n % 10) :: ds, c.isDigit = true := by
      intro c hc
      rcases List.mem_cons.mp hc with rfl | hc
      · exact digitChar_isDigit _ (Nat.mod_lt _ (by decide))
      · exact h c hc
    simp only [Nat.toDigitsCore]
    split
    · exact hd
    · exact ih _ _ hd

/-- The string form of an id reads back as the id. -/
theorem decimalValue_Uint64ToStr (id : Nat) : decimalValue (Uint64ToStr id) = id := by
  show (Nat.toDigits 10 id).foldl _ 0 = id
  have h := foldl_toDigitsCore (id + 1) id [] (Nat.lt_succ_self id)
  simpa [Nat.toDigits] using h

/-- The string form of an id determines the id. -/
theorem Uint64ToStr_injective : Function.Injective Uint64ToStr := by
  intro a b h
  have := congrArg decimalValue h
  simpa [decimalValue_Uint64ToStr] using this

/-- Two strings with the same text in front are equal only if the rests are. -/
theorem append_left_cancel_string (p a b : String) (h : p ++ a = p ++ b) : a = b := by
  have hd := congrArg String.data h
  simp only [String.data_append] at hd
  exact String.ext (List.append_cancel_left hd)

/-- The item key determines the id. -/
theorem itemKey_injective : Function.Injective (xCache.GetCacheKey itemCacheKind) := by
  intro a b h
  exact Uint64ToStr_injective (append_left_cancel_string _ _ _ h)

/-- The mob key determines the id. -/
theorem mobKey_injective : Function.Injective (xCache.GetCacheKey mobCacheKind) := by
  intro a b h
  exact Uint64ToStr_injective (append_left_cancel_string _ _ _ h)

/-- The room key determines the id. -/
theorem roomKey_injective : Function.Injective (xCache.GetCacheKey roomCacheKind) := by
  intro a b h
  exact append_left_cancel_string _ _ _ h

/-- Keys that start with different characters differ. -/
theorem key_ne_of_head_ne (p q a b : String) (c d : Char) (ps qs : List Char)
    (hp : p.data = c :: ps) (hq : q.data = d :: qs) (hcd : c ≠ d) : p ++ a ≠ q ++ b := by
  intro h
  have hd := congrArg String.data h
  simp only [String.data_append, hp, hq, List.cons_append, List.cons.injEq] at hd
  exact hcd hd.1

/-- The keys `MultiGet` asks the backend for are the keys of the ids, in order. -/
theorem multiGet_keys {Id : Type} (ck : CacheKind Id) (ids : List Id) (acc : List String) :
    ids.foldl (fun keys v => keys ++ [xCache.GetCacheKey ck v]) acc
      = acc ++ ids.map (xCache.GetCacheKey ck) := by
  induction ids generalizing acc with
  | nil => simp
  | cons id ids ih => simp [List.foldl, ih]

/-- Every entry of the map `MultiSet` builds is a record of the list under the key of
its id. -/
theorem multiSet_valMap {Id Rec : Type} (ck : CacheKind Id) (ID : Rec → Id) (data : List Rec)
    (acc : GoMap String Rec)
    (hacc : ∀ e ∈ acc, e.1 = xCache.GetCacheKey ck (ID e.2) ∧ e.2 ∈ data) :
    ∀ (rest : List Rec), (∀ v ∈ rest, v ∈ data) →
      ∀ e ∈ rest.foldl (fun valMap v => GoMap.set valMap (xCache.GetCacheKey ck (ID v)) v) acc,
        e.1 = xCache.GetCacheKey ck (ID e.2) ∧ e.2 ∈ data := by
  intro rest
  induction rest generalizing acc with
  | nil => intro _; simpa using hacc
  | cons v rest ih =>
    intro hrest
    simp only [List.foldl]
    apply ih
    · intro e he
      simp only [GoMap.set, List.mem_cons, List.mem_filter] at he
      rcases he with rfl | ⟨he, -⟩
      · exact ⟨rfl, hrest _ (List.mem_cons_self _ _)⟩
      · exact hacc e he
    · intro v1 hv1
      exact hrest v1 (List.mem_cons_of_mem _ hv1)

/-- C21. Cache key scheme. The key of an id is the prefix of the kind followed by the
string form of the id: "item:" and "mob:" followed by the decimal digits of the id (they
read back as the id), "room:" followed by the id itself; each prefix ends in a colon.
Every adapter method reaches the backend under that key: `Set` (of a record it does not
skip), `Get`, `Del` and `SetPlaceholder` with the key of the id, `MultiGet` with the keys
of the ids, `MultiSet` with a map whose entries sit under the key of their record. -/
theorem cache_key_scheme {B Id Rec : Type} [DecidableEq Id] (ck : CacheKind Id)
    (ID : Rec → Id) (c : Cache B Rec) (cm : CacheMulti B Rec) (b : B) (id : Id) (r : Rec)
    (ids : List Id) (data : List Rec) (ttl : Duration) (n : Nat) (roomId : String) :
    (xCache.GetCacheKey ck id = ck.cachePrefixKey ++ ck.idStr id
      ∧ xCache.GetCacheKey itemCacheKind n = "item:" ++ Uint64ToStr n
      ∧ xCache.GetCacheKey mobCacheKind n = "mob:" ++ Uint64ToStr n
      ∧ xCache.GetCacheKey roomCacheKind roomId = "room:" ++ roomId)
    ∧ ("item:".back = ':' ∧ "mob:".back = ':' ∧ "room:".back = ':')
    ∧ (decimalValue (Uint64ToStr n) = n ∧ ∀ ch ∈ (Uint64ToStr n).data, ch.isDigit = true)
    ∧ (ck.skipId id = false →
        xCache.Set ck c b id (some r) ttl = c.Set b (xCache.GetCacheKey ck id) r ttl)
    ∧ (xCache.Get ck c b id).2 = (c.Get b (xCache.GetCacheKey ck id)).2
    ∧ (xCache.Get ck c b id).1.2 = (c.Get b (xCache.GetCacheKey ck id)).1.2
    ∧ xCache.Del ck c b id = c.Del b (xCache.GetCacheKey ck id)
    ∧ xCache.SetPlaceholder ck c b id = c.SetCacheWithNotFound b (xCache.GetCacheKey ck id)
    ∧ (xCache.MultiGet ck cm b ids).2 = (cm.MultiGet b (ids.map (xCache.GetCacheKey ck))).2
    ∧ (xCache.MultiGet ck cm b ids).1.2
        = (cm.MultiGet b (ids.map (xCache.GetCacheKey ck))).1.2
    ∧ (∃ valMap : GoMap String Rec,
        xCache.MultiSet ck ID cm b data ttl = cm.MultiSet b valMap ttl
        ∧ ∀ e ∈ valMap, e.1 = xCache.GetCacheKey ck (ID e.2) ∧ e.2 ∈ data) := by
  refine ⟨⟨rfl, rfl, rfl, rfl⟩, ⟨by decide, by decide, by decide⟩,
    ⟨decimalValue_Uint64ToStr n, ?_⟩, ?_, ?_, ?_, ?_, rfl, ?_, ?_, ?_⟩
  · intro ch hch
    exact all_isDigit_toDigitsCore (n + 1) n [] (by simp) ch hch
  · intro hkey
    rcases h : c.Set b (xCache.GetCacheKey ck id) r ttl with ⟨_ | e, b1⟩ <;>
      simp [xCache.Set, hkey, h]
  · rcases h : c.Get b (xCache.GetCacheKey ck id) with ⟨⟨x, _ | e⟩, b1⟩ <;>
      simp [xCache.Get, h]
  · rcases h : c.Get b (xCache.GetCacheKey ck id) with ⟨⟨x, _ | e⟩, b1⟩ <;>
      simp [xCache.Get, h]
  · rcases h : c.Del b (xCache.GetCacheKey ck id) with ⟨_ | e, b1⟩ <;>
      simp [xCache.Del, h]
  · rcases h : cm.MultiGet b (ids.map (xCache.GetCacheKey ck)) with ⟨⟨m, _ | e⟩, b1⟩ <;>
      simp [xCache.MultiGet, multiGet_keys, h]
  · rcases h : cm.MultiGet b (ids.map (xCache.GetCacheKey ck)) with ⟨⟨m, _ | e⟩, b1⟩ <;>
      simp [xCache.MultiGet, multiGet_keys, h]
  · refine ⟨data.foldl (fun valMap v => GoMap.set valMap (xCache.GetCacheKey ck (ID v)) v) [],
      ?_, ?_⟩
    · rcases h : cm.MultiSet b
        (data.foldl (fun valMap v => GoMap.set valMap (xCache.GetCacheKey ck (ID v)) v) []) ttl
        with ⟨_ | e, b1⟩ <;> simp [xCache.MultiSet, h]
    · exact multiSet_valMap ck ID data [] (by simp) data (fun v hv => hv)

/-- Witness of C21: the mob adapter writes mob 42 under "mob:42". -/
theorem cache_key_scheme_witness :
    mobCacheKind.skipId 42 = false
    ∧ xCache.Set mobCacheKind MemCache.backend
        { entries := [], failWrites := false, failDel := false } 42 (some (mobWith 42 100))
        MobExpireTime
      = (none, { entries := [("mob:42", .value (mobWith 42 100))], failWrites := false,
                 failDel := false }) :=
  ⟨by decide, (cache_key_scheme mobCacheKind Mob.ID MemCache.backend MemCache.multi
      { entries := [], failWrites := false, failDel := false } 42 (mobWith 42 100) [] []
      MobExpireTime 42 "").2.2.2.1 (by decide)⟩

/-- C28. Cache keys are injective across kinds and ids: within a kind equal keys mean
equal ids, and a key of one kind is never a key of another kind. -/
theorem cache_key_injective (a b : Nat) (x y : String) :
    (xCache.GetCacheKey itemCacheKind a = xCache.GetCacheKey itemCacheKind b → a = b)
    ∧ (xCache.GetCacheKey mobCacheKind a = xCache.GetCacheKey mobCacheKind b → a = b)
    ∧ (xCache.GetCacheKey roomCacheKind x = xCache.GetCacheKey roomCacheKind y → x = y)
    ∧ xCache.GetCacheKey itemCacheKind a ≠ xCache.GetCacheKey mobCacheKind b
    ∧ xCache.GetCacheKey itemCacheKind a ≠ xCache.GetCacheKey roomCacheKind x
    ∧ xCache.GetCacheKey mobCacheKind a ≠ xCache.GetCacheKey roomCacheKind x :=
  ⟨fun h => itemKey_injective h, fun h => mobKey_injective h, fun h => roomKey_injective h,
    key_ne_of_head_ne _ _ _ _ 'i' 'm' _ _ rfl rfl (by decide),
    key_ne_of_head_ne _ _ _ _ 'i' 'r' _ _ rfl rfl (by decide),
    key_ne_of_head_ne _ _ _ _ 'm' 'r' _ _ rfl rfl (by decide)⟩

/-- Witness of C28: the keys of item 1, item 2, mob 1 and room "1" are four different
strings, and equal item keys give equal ids. -/
theorem cache_key_injective_witness :
    (xCache.GetCacheKey itemCacheKind 1 = "item:1" → (1 : Nat) = 1)
    ∧ xCache.GetCacheKey itemCacheKind 1 ≠ xCache.GetCacheKey mobCacheKind 1
    ∧ xCache.GetCacheKey mobCacheKind 1 ≠ xCache.GetCacheKey roomCacheKind "1" :=
  ⟨(cache_key_injective 1 1 "1" "1").1, (cache_key_injective 1 1 "1" "1").2.2.2.1,
    (cache_key_injective 1 1 "1" "1").2.2.2.2.2⟩

end keys

/-! ## Theorems: the adapter `Get`, `MultiGet` and the constructor -/

section adapterGet

variable {B Id Rec : Type}

/-- C22. The adapter `Set`/`Get` round trip, over a backend whose `Get` after a
successful `Set` of the key yields the record: if the adapter does not skip `id` and
`Set(id, r, ttl)` returns nil, then `Get(id)` returns `(r, nil)`, the very same record.
Whenever the backend `Get` fails with `e`, the adapter `Get` returns a nil record and
that same `e`. -/
theorem set_get_round_trip (ck : CacheKind Id) (bk : Cache B Rec) (b b1 : B) (id : Id)
    (r : Rec) (ttl : Duration)
    (hkey : ck.skipId id = false)
    (hset : xCache.Set ck bk b id (some r) ttl = (none, b1))
    (hbackend : ∀ b2 : B, bk.Set b (xCache.GetCacheKey ck id) r ttl = (none, b2) →
      (bk.Get b2 (xCache.GetCacheKey ck id)).1 = (some r, none)) :
    (xCache.Get ck bk b1 id).1 = (some r, none)
    ∧ (∀ (b3 b4 : B) (x : Option Rec) (e : Error) (id1 : Id),
        bk.Get b3 (xCache.GetCacheKey ck id1) = ((x, some e), b4) →
        xCache.Get ck bk b3 id1 = ((none, some e), b4)) := by
  constructor
  · rcases h : bk.Set b (xCache.GetCacheKey ck id) r ttl with ⟨_ | e, b2⟩
    · have hb := hbackend b2 h
      simp only [xCache.Set, hkey, h] at hset
      simp only [Bool.false_eq_true, if_false, Prod.mk.injEq, true_and] at hset
      subst hset
      rcases hg : bk.Get b2 (xCache.GetCacheKey ck id) with ⟨⟨x, _ | e⟩, b3⟩
      · rw [hg] at hb
        simp only [Prod.mk.injEq, and_true] at hb
        simp [xCache.Get, hg, hb]
      · rw [hg] at hb
        simp at hb
    · simp [xCache.Set, hkey, h] at hset
  · intro b3 b4 x e id1 h
    simp [xCache.Get, h]

/-- Witness of C22: mob 42 written to and read from the reference backend. -/
theorem set_get_round_trip_witness :
    (xCache.Get mobCacheKind MemCache.backend
      { entries := [("mob:42", .value (mobWith 42 100))], failWrites := false,
        failDel := false } 42).1 = (some (mobWith 42 100), none) :=
  (set_get_round_trip mobCacheKind MemCache.backend
    { entries := [], failWrites := false, failDel := false }
    { entries := [("mob:42", .value (mobWith 42 100))], failWrites := false,
      failDel := false } 42 (mobWith 42 100) MobExpireTime (by decide) (by rfl)
    (fun b2 h => by
      have hb := (congrArg Prod.snd h).symm
      subst hb
      rfl)).1

/-- C24. Backend selection: the constructor returns an adapter exactly when the
lower-cased selector is "redis" or "memory", over the backend of that name built with the
empty backend prefix; for every other selector it returns nil, and the repository
constructor then builds the repository without cache and without coalescing group. With
the selectors of the test (ASCII lower-casing): "" gives nil, "memory" and "redis" give
an adapter. -/
theorem new_cache_selection {R : Type} (toLower : String → String)
    (NewRedisCache : R → String → Cache B Rec) (NewMemoryCache : String → Cache B Rec)
    (ck : CacheKind Id) (cacheType : xCache.CacheType R) (db : Handle) (rdb : R) :
    ((xCache.NewCache toLower NewRedisCache NewMemoryCache ck cacheType).isSome = true
      ↔ toLower cacheType.CType = "redis" ∨ toLower cacheType.CType = "memory")
    ∧ (toLower cacheType.CType = "redis" →
        (xCache.NewCache toLower NewRedisCache NewMemoryCache ck cacheType).map XCache.Get
          = some (xCache.Get ck (NewRedisCache cacheType.Rdb "")))
    ∧ (toLower cacheType.CType = "memory" →
        (xCache.NewCache toLower NewRedisCache NewMemoryCache ck cacheType).map XCache.Get
          = some (xCache.Get ck (NewMemoryCache "")))
    ∧ (¬ (toLower cacheType.CType = "redis" ∨ toLower cacheType.CType = "memory") →
        xDao.NewDao db (xCache.NewCache toLower NewRedisCache NewMemoryCache ck cacheType)
          = { db := db, cache := none, sfg := none })
    ∧ (xCache.NewCache asciiToLower NewRedisCache NewMemoryCache ck
        { CType := "", Rdb := rdb }).isSome = false
    ∧ (xCache.NewCache asciiToLower NewRedisCache NewMemoryCache ck
        { CType := "memory", Rdb := rdb }).isSome = true
    ∧ (xCache.NewCache asciiToLower NewRedisCache NewMemoryCache ck
        { CType := "redis", Rdb := rdb }).isSome = true
    ∧ (xCache.NewCache asciiToLower NewRedisCache NewMemoryCache ck
        { CType := "Redis", Rdb := rdb }).isSome = true := by
  refine ⟨?_, ?_, ?_, ?_, by rfl, by rfl, by rfl, by rfl⟩
  · by_cases h1 : toLower cacheType.CType = "redis"
    · simp [xCache.NewCache, h1]
    · by_cases h2 : toLower cacheType.CType = "memory"
      · simp [xCache.NewCache, h2]
      · simp [xCache.NewCache, h1, h2]
  · intro h1
    simp [xCache.NewCache, h1, xCache.toXCache]
  · intro h2
    have h1 : ¬ toLower cacheType.CType = "redis" := by rw [h2]; decide
    simp [xCache.NewCache, h1, h2, xCache.toXCache]
  · intro h
    have h1 : ¬ toLower cacheType.CType = "redis" := fun h1 => h (Or.inl h1)
    have h2 : ¬ toLower cacheType.CType = "memory" := fun h2 => h (Or.inr h2)
    simp [xCache.NewCache, h1, h2, xDao.NewDao]

/-- Witness of C24: the selector "MEMORY" gives the mob adapter over the memory backend,
the selector "mysql" gives a repository without cache. -/
theorem new_cache_selection_witness :
    (xCache.NewCache asciiToLower (fun (_ : Unit) _ => MemCache.backend)
        (fun _ => MemCache.backend) mobCacheKind
        ({ CType := "MEMORY", Rdb := () } : xCache.CacheType Unit)).map XCache.Get
      = some (xCache.Get mobCacheKind (MemCache.backend : Cache (MemCache Mob) Mob))
    ∧ xDao.NewDao 0 (xCache.NewCache asciiToLower
        (fun (_ : Unit) _ => (MemCache.backend : Cache (MemCache Mob) Mob))
        (fun _ => MemCache.backend) mobCacheKind
        ({ CType := "mysql", Rdb := () } : xCache.CacheType Unit))
      = { db := 0, cache := none, sfg := none } :=
  ⟨(new_cache_selection asciiToLower (fun (_ : Unit) _ => MemCache.backend)
      (fun _ => MemCache.backend) mobCacheKind { CType := "MEMORY", Rdb := () } 0 ()).2.2.1
      (by rfl),
   (new_cache_selection asciiToLower (fun (_ : Unit) _ => MemCache.backend)
      (fun _ => MemCache.backend) mobCacheKind { CType := "mysql", Rdb := () } 0 ()).2.2.2.1
      (by decide)⟩

/-- Reading a map after an assignment. -/
theorem GoMap.get_set {K V : Type} [DecidableEq K] (m : GoMap K V) (k k1 : K) (v : V) :
    GoMap.get (GoMap.set m k v) k1 = if k1 = k then some v else GoMap.get m k1 := by
  have hfilter : ∀ l : List (K × V), ¬ k1 = k →
      List.lookup k1 (l.filter (fun e => decide (e.1 ≠ k))) = List.lookup k1 l := by
    intro l h
    induction l with
    | nil => rfl
    | cons e l ih =>
      by_cases he : e.1 = k
      · have hb : (k1 == e.1) = false := by
          simpa using fun h1 : k1 = e.1 => h (h1.trans he)
        rw [List.filter_cons_of_neg (by simpa using he), ih]
        rcases e with ⟨ek, ev⟩
        simp only [List.lookup, hb]
      · rw [List.filter_cons_of_pos (by simpa using he)]
        rcases e with ⟨ek, ev⟩
        rcases hb : (k1 == ek) with _ | _ <;> simp only [List.lookup, hb, ih]
  by_cases h : k1 = k
  · subst h
    simp [GoMap.set, GoMap.get, List.lookup]
  · have hb : (k1 == k) = false := by simpa using h
    simp only [GoMap.set, GoMap.get, List.lookup, hb, if_neg h]
    exact hfilter m h

/-- Looking up another key after an entry was dropped. -/
theorem MemCache.lookup_erase_ne (es : List (String × Entry Rec)) (key key1 : String)
    (h : key1 ≠ key) : List.lookup key1 (MemCache.erase es key) = List.lookup key1 es := by
  induction es with
  | nil => rfl
  | cons e es ih =>
    rcases e with ⟨ek, ev⟩
    by_cases he : ek = key
    · have hb : (key1 == ek) = false := by simpa using fun h1 : key1 = ek => h (h1.trans he)
      have : MemCache.erase ((ek, ev) :: es) key = MemCache.erase es key := by
        simp [MemCache.erase, List.filter, he]
      rw [this, ih]
      simp only [List.lookup, hb]
    · have : MemCache.erase ((ek, ev) :: es) key = (ek, ev) :: MemCache.erase es key :=
        List.filter_cons_of_pos (by simpa using he)
      rw [this]
      rcases hb : (key1 == ek) with _ | _ <;> simp only [List.lookup, hb, ih]

/-- What the reference backend holds under a key after `MultiSet` wrote a map: the
value of the map if the map has the key, what it held before otherwise. -/
theorem MemCache.lookup_multiSet (valMap : GoMap String Rec)
    (base : List (String × Entry Rec)) (key : String) :
    List.lookup key
        (valMap.foldr (fun e es => (e.1, Entry.value e.2) :: MemCache.erase es e.1) base)
      = match GoMap.get valMap key with
        | some v => some (Entry.value v)
        | none => List.lookup key base := by
  induction valMap with
  | nil => rfl
  | cons e valMap ih =>
    rcases e with ⟨k0, v0⟩
    by_cases hk : key = k0
    · subst hk
      simp [GoMap.get, List.lookup]
    · have hb : (key == k0) = false := by simpa using hk
      simp only [List.foldr, GoMap.get, List.lookup, hb]
      rw [MemCache.lookup_erase_ne _ _ _ hk, ih]
      rfl

/-- The loop of the reference `MultiGet` returns, under every key asked for, the record
the backend holds under it. -/
theorem MemCache.get_multiGet (entries : List (String × Entry Rec)) (key : String)
    (data : Rec) (hheld : List.lookup key entries = some (Entry.value data))
    (keys : List String) :
    ∀ acc : GoMap String Rec, (key ∈ keys ∨ GoMap.get acc key = some data) →
      GoMap.get (keys.foldl (fun itemMap key =>
          match List.lookup key entries with
          | some (Entry.value data) => GoMap.set itemMap key data
          | _ => itemMap) acc) key = some data := by
  induction keys with
  | nil => intro acc h; simpa using h
  | cons a keys ih =>
    intro acc h
    simp only [List.foldl]
    apply ih
    by_cases hmem : key ∈ keys
    · exact Or.inl hmem
    · refine Or.inr ?_
      by_cases ha : key = a
      · subst ha
        simp [hheld, GoMap.get_set]
      · have hacc : GoMap.get acc key = some data := by
          rcases h with h | h
          · simp [ha, hmem] at h
          · exact h
        rcases hl : List.lookup a entries with _ | ⟨d⟩ | _
        · simpa using hacc
        · simp [GoMap.get_set, ha, hacc]
        · simpa using hacc

/-- The reference backend returns what was set: after `MultiSet` of a map succeeded,
`MultiGet` of any keys succeeds and holds, under every key asked for that the map has,
the value of the map. -/
theorem MemCache.multiGet_multiSet (b b0 : MemCache Rec) (valMap : GoMap String Rec)
    (ttl : Duration) (keys : List String)
    (hset : (MemCache.multi : CacheMulti (MemCache Rec) Rec).MultiSet b valMap ttl = (none, b0)) :
    ∃ (itemMap : GoMap String Rec) (b2 : MemCache Rec),
      (MemCache.multi : CacheMulti (MemCache Rec) Rec).MultiGet b0 keys = ((itemMap, none), b2)
      ∧ ∀ (key : String) (v : Rec), key ∈ keys → GoMap.get valMap key = some v →
          GoMap.get itemMap key = some v := by
  refine ⟨_, _, rfl, ?_⟩
  intro key v hmem hv
  by_cases hf : b.failWrites = true
  · simp [MemCache.multi, hf] at hset
  · simp only [MemCache.multi, hf, Bool.false_eq_true, if_false, Prod.mk.injEq,
      true_and] at hset
    subst hset
    apply MemCache.get_multiGet _ key v _ keys [] (Or.inl hmem)
    simp only [MemCache.lookup_multiSet, hv]

/-- What the loop of `MultiGet` over the ids leaves in the returned map. -/
theorem multiGet_retMap [DecidableEq Id] (ck : CacheKind Id) (itemMap : GoMap String Rec)
    (ids : List Id) :
    ∀ (acc : GoMap Id Rec) (id : Id),
      GoMap.get (ids.foldl (fun retMap id =>
          match GoMap.get itemMap (xCache.GetCacheKey ck id) with
          | some val => GoMap.set retMap id val
          | none => retMap) acc) id
        = if id ∈ ids ∧ (GoMap.get itemMap (xCache.GetCacheKey ck id)).isSome = true
          then GoMap.get itemMap (xCache.GetCacheKey ck id) else GoMap.get acc id := by
  induction ids with
  | nil => intro acc id; simp
  | cons a ids ih =>
    intro acc id
    simp only [List.foldl]
    rw [ih]
    by_cases hmem : id ∈ ids
    · by_cases hsome : (GoMap.get itemMap (xCache.GetCacheKey ck id)).isSome = true
      · simp [hmem, hsome]
      · have hnone : GoMap.get itemMap (xCache.GetCacheKey ck id) = none := by
          simpa using hsome
        by_cases ha : id = a
        · subst ha
          simp [hnone]
        · rcases hv : GoMap.get itemMap (xCache.GetCacheKey ck a) with _ | val <;>
            simp [hmem, hnone, GoMap.get_set, ha]
    · by_cases ha : id = a
      · subst ha
        rcases hv : GoMap.get itemMap (xCache.GetCacheKey ck id) with _ | val <;>
          simp [hmem, hv, GoMap.get_set]
      · rcases hv : GoMap.get itemMap (xCache.GetCacheKey ck a) with _ | val <;>
          simp [hmem, ha, GoMap.get_set]

/-- A key no later record has keeps its value through the loop of `MultiSet`. -/
theorem multiSet_get_of_not_mem (ck : CacheKind Id) (ID : Rec → Id) (key : String)
    (rest : List Rec) (hrest : ∀ v ∈ rest, xCache.GetCacheKey ck (ID v) ≠ key) :
    ∀ acc : GoMap String Rec,
      GoMap.get
          (rest.foldl (fun valMap v => GoMap.set valMap (xCache.GetCacheKey ck (ID v)) v) acc)
          key
        = GoMap.get acc key := by
  induction rest with
  | nil => intro acc; rfl
  | cons v rest ih =>
    intro acc
    simp only [List.foldl]
    rw [ih (fun v1 hv1 => hrest v1 (List.mem_cons_of_mem _ hv1))]
    rw [GoMap.get_set, if_neg (fun h => hrest v (List.mem_cons_self _ _) h.symm)]

/-- With distinct ids and keys that tell ids apart, the map `MultiSet` builds holds every
record under the key of its id. -/
theorem multiSet_get_of_mem (ck : CacheKind Id) (ID : Rec → Id)
    (hinj : Function.Injective (xCache.GetCacheKey ck)) (data : List Rec) :
    (data.map ID).Nodup → ∀ (acc : GoMap String Rec) (r : Rec), r ∈ data →
      GoMap.get
          (data.foldl (fun valMap v => GoMap.set valMap (xCache.GetCacheKey ck (ID v)) v) acc)
          (xCache.GetCacheKey ck (ID r)) = some r := by
  induction data with
  | nil => intro _ acc r hr; simp at hr
  | cons v data ih =>
    intro hnodup acc r hr
    simp only [List.map_cons, List.nodup_cons] at hnodup
    simp only [List.foldl]
    rcases List.mem_cons.mp hr with rfl | hr
    · rw [multiSet_get_of_not_mem ck ID _ data, GoMap.get_set, if_pos rfl]
      intro v1 hv1 hkey
      exact hnodup.1 (List.mem_map.mpr ⟨v1, hv1, hinj hkey⟩)
    · exact ih hnodup.2 _ r hr

/-- C23. `MultiGet` returns exactly the found subset. When the backend `MultiGet` of the
keys of the ids succeeds with the map `itemMap`, the adapter returns no error and a map
that holds `v` under `id` exactly when `id` is in the list and `itemMap` holds `v` under
the key of `id`; an id the backend did not find is simply missing. In particular, for
records with distinct ids and keys that tell ids apart, over a backend whose `MultiGet`
after a successful `MultiSet` of a map returns what the map holds under the keys asked
for: if the adapter `MultiSet(records, ttl)` returns nil, then `MultiGet` of the ids of
the records, made in the state `MultiSet` left, maps every id to its record. -/
theorem multiGet_found_subset [DecidableEq Id] (ck : CacheKind Id) (ID : Rec → Id)
    (cm : CacheMulti B Rec) (b : B) (ids : List Id) (records : List Rec) (ttl : Duration) :
    (∀ (itemMap : GoMap String Rec) (b1 : B),
        cm.MultiGet b (ids.map (xCache.GetCacheKey ck)) = ((itemMap, none), b1) →
        ∃ retMap : GoMap Id Rec,
          xCache.MultiGet ck cm b ids = ((some retMap, none), b1)
          ∧ ∀ (id : Id) (v : Rec),
              GoMap.get retMap id = some v
                ↔ (id ∈ ids ∧ GoMap.get itemMap (xCache.GetCacheKey ck id) = some v))
    ∧ (∀ b1 : B,
        Function.Injective (xCache.GetCacheKey ck) →
        (records.map ID).Nodup →
        (∀ (valMap : GoMap String Rec) (b0 : B),
          cm.MultiSet b valMap ttl = (none, b0) →
          ∃ (itemMap : GoMap String Rec) (b2 : B),
            cm.MultiGet b0 ((records.map ID).map (xCache.GetCacheKey ck))
              = ((itemMap, none), b2)
            ∧ ∀ (key : String) (v : Rec),
                key ∈ (records.map ID).map (xCache.GetCacheKey ck) →
                GoMap.get valMap key = some v → GoMap.get itemMap key = some v) →
        xCache.MultiSet ck ID cm b records ttl = (none, b1) →
        ∃ (retMap : GoMap Id Rec) (b2 : B),
          xCache.MultiGet ck cm b1 (records.map ID) = ((some retMap, none), b2)
          ∧ ∀ r ∈ records, GoMap.get retMap (ID r) = some r) := by
  have hA : ∀ (b0 : B) (ids0 : List Id) (itemMap : GoMap String Rec) (b1 : B),
      cm.MultiGet b0 (ids0.map (xCache.GetCacheKey ck)) = ((itemMap, none), b1) →
      ∃ retMap : GoMap Id Rec,
        xCache.MultiGet ck cm b0 ids0 = ((some retMap, none), b1)
        ∧ ∀ (id : Id) (v : Rec),
            GoMap.get retMap id = some v
              ↔ (id ∈ ids0 ∧ GoMap.get itemMap (xCache.GetCacheKey ck id) = some v) := by
    intro b0 ids0 itemMap b1 hget
    refine ⟨ids0.foldl (fun retMap id =>
        match GoMap.get itemMap (xCache.GetCacheKey ck id) with
        | some val => GoMap.set retMap id val
        | none => retMap) [],
      by simp only [xCache.MultiGet, multiGet_keys, List.nil_append, hget], ?_⟩
    intro id v
    rw [multiGet_retMap]
    by_cases hmem : id ∈ ids0
    · rcases hv : GoMap.get itemMap (xCache.GetCacheKey ck id) with _ | val
      · simp [hmem, GoMap.get, List.lookup]
      · simp [hmem]
    · simp [hmem, GoMap.get, List.lookup]
  refine ⟨hA b ids, ?_⟩
  intro b1 hinj hnodup hbackend hset
  have hwritten : cm.MultiSet b
      (records.foldl (fun valMap v => GoMap.set valMap (xCache.GetCacheKey ck (ID v)) v) [])
      ttl = (none, b1) := by
    rcases hm : cm.MultiSet b
      (records.foldl (fun valMap v => GoMap.set valMap (xCache.GetCacheKey ck (ID v)) v) [])
      ttl with ⟨_ | err, b0⟩
    · simpa [xCache.MultiSet, hm] using hset
    · simp [xCache.MultiSet, hm] at hset
  obtain ⟨itemMap, b2, hget, hheld⟩ := hbackend _ b1 hwritten
  obtain ⟨retMap, hret, hiff⟩ := hA b1 (records.map ID) itemMap b2 hget
  refine ⟨retMap, b2, hret, ?_⟩
  intro r hr
  rw [hiff]
  exact ⟨List.mem_map.mpr ⟨r, hr, rfl⟩,
    hheld _ r (List.mem_map.mpr ⟨ID r, List.mem_map.mpr ⟨r, hr, rfl⟩, rfl⟩)
      (multiSet_get_of_mem ck ID hinj records hnodup [] r hr)⟩

/-- Witness of C23: the reference backend holds mobs 1 and 2; `MultiGet` of the ids
2, 7, 1, 2 finds 1 and 2 and reports no error for 7. After the adapter `MultiSet` of
mobs 1 and 2 on an empty reference backend, `MultiGet` of their ids returns both. -/
theorem multiGet_found_subset_witness :
    (∃ retMap : GoMap Nat Mob,
      xCache.MultiGet mobCacheKind MemCache.multi
          { entries := [("mob:2", .value (mobWith 2 20)), ("mob:1", .value (mobWith 1 10))],
            failWrites := false, failDel := false } [2, 7, 1, 2]
        = ((some retMap, none),
            { entries := [("mob:2", .value (mobWith 2 20)), ("mob:1", .value (mobWith 1 10))],
              failWrites := false, failDel := false })
      ∧ ∀ (id : Nat) (v : Mob),
          GoMap.get retMap id = some v
            ↔ (id ∈ [2, 7, 1, 2]
                ∧ GoMap.get [("mob:2", mobWith 2 20), ("mob:1", mobWith 1 10)]
                    (xCache.GetCacheKey mobCacheKind id) = some v))
    ∧ xCache.MultiSet mobCacheKind Mob.ID MemCache.multi
          { entries := [], failWrites := false, failDel := false }
          [mobWith 1 10, mobWith 2 20] MobExpireTime
        = (none,
            { entries := [("mob:2", .value (mobWith 2 20)), ("mob:1", .value (mobWith 1 10))],
              failWrites := false, failDel := false })
    ∧ (∃ (retMap : GoMap Nat Mob) (b2 : MemCache Mob),
      xCache.MultiGet mobCacheKind MemCache.multi
          { entries := [("mob:2", .value (mobWith 2 20)), ("mob:1", .value (mobWith 1 10))],
            failWrites := false, failDel := false } ([mobWith 1 10, mobWith 2 20].map Mob.ID)
        = ((some retMap, none), b2)
      ∧ ∀ r ∈ [mobWith 1 10, mobWith 2 20], GoMap.get retMap (Mob.ID r) = some r) :=
  ⟨(multiGet_found_subset mobCacheKind Mob.ID MemCache.multi
      { entries := [("mob:2", .value (mobWith 2 20)), ("mob:1", .value (mobWith 1 10))],
        failWrites := false, failDel := false } [2, 7, 1, 2] [] 0).1
      [("mob:2", mobWith 2 20), ("mob:1", mobWith 1 10)] _ (by rfl),
   by rfl,
   (multiGet_found_subset mobCacheKind Mob.ID MemCache.multi
      { entries := [], failWrites := false, failDel := false } []
      [mobWith 1 10, mobWith 2 20] MobExpireTime).2
      { entries := [("mob:2", .value (mobWith 2 20)), ("mob:1", .value (mobWith 1 10))],
        failWrites := false, failDel := false } mobKey_injective (by decide)
      (fun valMap b0 h => MemCache.multiGet_multiSet
        { entries := [], failWrites := false, failDel := false } b0 valMap MobExpireTime _ h)
      (by rfl)⟩

end adapterGet

/-! ## Theorems: the shape of the results of `GetByID` -/

section shape

variable {S C Id Rec : Type}

/-- C29. The failed-type-assertion branch of `GetByID` is not reached: whenever the
function given to `sfg.Do` returns a nil error, its value is a non-nil record pointer
(never the nil interface). So on the store-fallback path `GetByID` returns what
`storeAnswer` says of the one store read, and a nil error never comes with a nil
record. -/
theorem fetch_value_is_record (k : Kind S C Id Rec) (g : DB S Id Rec) (db : Handle)
    (c : XCache C Id Rec) (id : Id) (w : World S C Id Rec) :
    ((GetByID.fetch k g (NewDao db (some c)) c id w).1.2 = none →
      ∃ table : Rec, (GetByID.fetch k g (NewDao db (some c)) c id w).1.1
        = AnyVal.recPtr (some table))
    ∧ (cacheAbsent c w.cache id = true →
      ∃ w2 : World S C Id Rec,
        GetByID k g (NewDao db (some c)) id w
          = some (storeAnswer (g.First w.db db id k.zero).1, w2)
        ∧ ((storeAnswer (g.First w.db db id k.zero).1).2 = none →
            (storeAnswer (g.First w.db db id k.zero).1).1 ≠ none)) := by
  constructor
  · rcases hf : g.First w.db db id k.zero with ⟨⟨table, _ | err⟩, s⟩
    · intro _
      exact ⟨table, by simp [GetByID.fetch, NewDao, dbFirst, cacheSet, hf]⟩
    · by_cases hnf : errorsIs err ErrRecordNotFound = true
      · simp [GetByID.fetch, NewDao, dbFirst, cacheSetPlaceholder, hf, hnf]
      · simp [GetByID.fetch, NewDao, dbFirst, hf, hnf]
  · intro habsent
    obtain ⟨w2, hread, -, -⟩ := GetByID_of_absent_answer k g db c id w habsent
    refine ⟨w2, hread, ?_⟩
    rcases hf : g.First w.db db id k.zero with ⟨⟨table, _ | err⟩, s⟩
    · simp [storeAnswer]
    · by_cases hnf : errorsIs err ErrRecordNotFound = true <;> simp [storeAnswer, hnf]

/-- Witness of C29: mob 42 is read through a cold cache; the fetch returns a record
pointer and `GetByID` the record. -/
theorem fetch_value_is_record_witness :
    (∃ table : Mob,
      (GetByID.fetch (mobKind _ _) mobStore (NewDao 0 (some mobCache)) mobCache 42
        (mobWorld [mobWith 42 100] none [] false)).1.1 = AnyVal.recPtr (some table))
    ∧ ∃ w2 : MobWorld,
        GetByID (mobKind _ _) mobStore (NewDao 0 (some mobCache)) 42
            (mobWorld [mobWith 42 100] none [] false)
          = some ((some (mobWith 42 100), none), w2)
        ∧ (((some (mobWith 42 100), none) : Option Mob × Option Error).2 = none →
            ((some (mobWith 42 100), none) : Option Mob × Option Error).1 ≠ none) :=
  ⟨(fetch_value_is_record (mobKind _ _) mobStore 0 mobCache 42
      (mobWorld [mobWith 42 100] none [] false)).1 (by rfl),
   (fetch_value_is_record (mobKind _ _) mobStore 0 mobCache 42
      (mobWorld [mobWith 42 100] none [] false)).2 (by rfl)⟩

/-- C30, as stated, fails. Without a cache, over a store whose failed read has written
the id column into the record it was given, `GetByID(5)` returns the scan error together
with a record whose id is 5: non-nil, but not zero-valued. -/
theorem getByID_failure_not_zero :
    GetByID (mobKind _ _) scanFailStore (NewDao 0 none) 5
        (mobWorld [mobWith 5 1] none [] false)
      = some ((some (mobWith 5 0), some (.new "sql: Scan error on column index 1")),
          { db := { rows := [mobWith 5 1], fail := none },
            cache := { entries := [], failWrites := false, failDel := false },
            trace := [.dbFirst 0 5] })
    ∧ mobWith 5 0 ≠ Mob.zero := by
  refine ⟨rfl, by decide⟩

/-- C30, amended. The shape of a failed `GetByID`. With a cache, an error never comes
with a record: whenever the result carries an error, its record is nil. Without a cache,
when the store read, given the zero record as destination, fails with `e` and leaves `r`
in the destination, the result is `e` together with that `r`, never nil: the record
returned is what the failed read left, zero-valued only if the read did not write to
it. -/
theorem getByID_failure_shape (k : Kind S C Id Rec) (g : DB S Id Rec) (db : Handle)
    (c : XCache C Id Rec) (id : Id) (w : World S C Id Rec) :
    (∀ (record : Option Rec) (e : Error) (w1 : World S C Id Rec),
        GetByID k g (NewDao db (some c)) id w = some ((record, some e), w1) → record = none)
    ∧ (∀ (r : Rec) (e : Error) (s : S),
        g.First w.db db id k.zero = ((r, some e), s) →
        GetByID k g (NewDao db none) id w
          = some ((some r, some e),
              { db := s, cache := w.cache, trace := w.trace ++ [.dbFirst db id] })) := by
  refine ⟨?_, ?_⟩
  · intro record e w1 h
    rcases hget : c.Get w.cache id with ⟨⟨r0, _ | e0⟩, cs⟩
    · simp [GetByID, NewDao, cacheGet, hget] at h
    · by_cases habsent : errorsIs e0 ErrCacheNotFound = true
      · rw [GetByID_of_absent k g db c id w r0 e0 cs hget habsent] at h
        rcases hf : GetByID.fetch k g (NewDao db (some c)) c id
          { db := w.db, cache := cs,
            trace := w.trace ++ [.cacheGet id] ++ [.sfgDo (k.sfgKey id)] }
          with ⟨⟨val, _ | err⟩, w2⟩
        · rw [hf] at h
          cases val <;> simp at h
          exact h.1.1.symm
        · rw [hf] at h
          simp at h
          exact h.1.1.symm
      · by_cases hph : c.IsPlaceholderErr e0 = true
        · simp [GetByID, NewDao, cacheGet, hget, habsent, hph] at h
          exact h.1.1.symm
        · simp [GetByID, NewDao, cacheGet, hget, habsent, hph] at h
          exact h.1.1.symm
  · intro r e s hf
    simp [GetByID, NewDao, dbFirst, hf]

end shape

end Fs

/-! ## Theorems: the cache state of a key -/

namespace Fs

open xDao

section machine

variable {S B Id Rec P : Type}

/-- The adapter `Get` writes nothing. -/
theorem adapter_get_view {bk : Cache B Rec} {view : B → String → Option (Entry Rec)}
    (L : BackendLaws bk view) (ck : CacheKind Id) (cs : B) (id : Id) (key1 : String) :
    view ((xCache.toXCache ck bk).Get cs id).2 key1 = view cs key1 := by
  have h := L.get_view cs (xCache.GetCacheKey ck id) key1
  rcases hg : bk.Get cs (xCache.GetCacheKey ck id) with ⟨⟨x, _ | e⟩, b1⟩ <;>
    simpa [xCache.toXCache, xCache.Get, hg] using h

/-- When the adapter `Get` reports the absent condition, the key has no entry. -/
theorem adapter_absent {bk : Cache B Rec} {view : B → String → Option (Entry Rec)}
    (L : BackendLaws bk view) (ck : CacheKind Id) (cs cs1 : B) (id : Id) (x : Option Rec)
    (e : Error) (hget : (xCache.toXCache ck bk).Get cs id = ((x, some e), cs1))
    (he : errorsIs e ErrCacheNotFound = true) :
    view cs (xCache.GetCacheKey ck id) = none := by
  rw [L.get_absent]
  refine ⟨e, ?_, he⟩
  rcases hg : bk.Get cs (xCache.GetCacheKey ck id) with ⟨⟨y, _ | e1⟩, b1⟩
  · simp [xCache.toXCache, xCache.Get, hg] at hget
  · simp only [xCache.toXCache, xCache.Get, hg, Prod.mk.injEq] at hget
    simpa using hget.1.2

/-- The adapter `Set` changes nothing or leaves the record under the key of the id. -/
theorem adapter_set_view {bk : Cache B Rec} {view : B → String → Option (Entry Rec)}
    (L : BackendLaws bk view) (ck : CacheKind Id) (cs : B) (id : Id) (r : Rec)
    (ttl : Duration) (key1 : String) :
    view ((xCache.toXCache ck bk).Set cs id (some r) ttl).2 key1 = view cs key1
      ∨ (key1 = xCache.GetCacheKey ck id
          ∧ view ((xCache.toXCache ck bk).Set cs id (some r) ttl).2 key1
              = some (.value r)) := by
  by_cases hkey : ck.skipId id = true
  · left
    simp [xCache.toXCache, xCache.Set, hkey]
  · have h := L.set_view cs (xCache.GetCacheKey ck id) r ttl key1
    rcases hs : bk.Set cs (xCache.GetCacheKey ck id) r ttl with ⟨_ | e, b1⟩ <;>
      simpa [xCache.toXCache, xCache.Set, hkey, hs] using h

/-- The adapter `SetPlaceholder` changes nothing or leaves the placeholder under the key
of the id. -/
theorem adapter_setPlaceholder_view {bk : Cache B Rec}
    {view : B → String → Option (Entry Rec)} (L : BackendLaws bk view) (ck : CacheKind Id)
    (cs : B) (id : Id) (key1 : String) :
    view ((xCache.toXCache ck bk).SetPlaceholder cs id).2 key1 = view cs key1
      ∨ (key1 = xCache.GetCacheKey ck id
          ∧ view ((xCache.toXCache ck bk).SetPlaceholder cs id).2 key1
              = some .placeholder) :=
  L.setPlaceholder_view cs (xCache.GetCacheKey ck id) key1

/-- The adapter `Del` changes nothing or leaves no entry under the key of the id. -/
theorem adapter_del_view {bk : Cache B Rec} {view : B → String → Option (Entry Rec)}
    (L : BackendLaws bk view) (ck : CacheKind Id) (cs : B) (id : Id) (key1 : String) :
    view ((xCache.toXCache ck bk).Del cs id).2 key1 = view cs key1
      ∨ (key1 = xCache.GetCacheKey ck id
          ∧ view ((xCache.toXCache ck bk).Del cs id).2 key1 = none) := by
  have h := L.del_view cs (xCache.GetCacheKey ck id) key1
  rcases hd : bk.Del cs (xCache.GetCacheKey ck id) with ⟨_ | e, b1⟩ <;>
    simpa [xCache.toXCache, xCache.Del, hd] using h

/-- The cache after `GetByColumns` is the cache before. -/
theorem GetByColumns_cache {C : Type} (k : Kind S C Id Rec) (q : QueryLib P)
    (gq : DBQuery S Rec) (d : Dao C Id Rec) (params : Params P) (w : World S C Id Rec) :
    (GetByColumns k q gq d params w).2.cache = w.cache := by
  simp only [GetByColumns]
  generalize (match k.defaultSort with
    | some sort => if params.sort = "" then { params with sort := sort } else params
    | none => params) = params1
  rcases q.ConvertToGormConditions params1 k.ColumnNames with ⟨⟨queryStr, args⟩, _ | err⟩
  swap
  · simp
  have hfind : ∀ (total : Int) (w1 : World S C Id Rec),
      (GetByColumns.find q gq d params1 queryStr args total w1).2.cache = w1.cache := by
    intro total w1
    rcases hp : q.ConvertToPage params1 with ⟨order, limit, offset⟩
    rcases hf : gq.Find w1.db d.db order limit offset queryStr args with
      ⟨⟨records, _ | err⟩, s1⟩ <;>
      simp [GetByColumns.find, dbFind, hp, hf]
  by_cases hsort : params1.sort = "ignore count"
  · simpa [hsort] using hfind 0 w
  · rcases hc : gq.Count w.db d.db queryStr args with ⟨⟨total, _ | err⟩, s1⟩
    · by_cases htotal : total = 0
      · simp [hsort, dbCount, hc, htotal]
      · simpa [hsort, dbCount, hc, htotal] using hfind total
          { db := s1, cache := w.cache, trace := w.trace ++ [.dbCount d.db queryStr args] }
    · simp [hsort, dbCount, hc]

/-- What `deleteCache` does to a key: nothing, or it removes the entry of the id. -/
theorem deleteCache_view {bk : Cache B Rec} {view : B → String → Option (Entry Rec)}
    (L : BackendLaws bk view) (ck : CacheKind Id) (db : Handle) (id : Id)
    (w : World S B Id Rec) (key : String) :
    view (deleteCache (NewDao db (some (xCache.toXCache ck bk))) id w).2.cache key
        = view w.cache key
      ∨ view (deleteCache (NewDao db (some (xCache.toXCache ck bk))) id w).2.cache key
        = none := by
  rcases adapter_del_view L ck w.cache id key with h | ⟨-, h⟩
  · left
    simpa [deleteCache, NewDao, cacheDel] using h
  · right
    simpa [deleteCache, NewDao, cacheDel] using h

/-- What `GetByID` does to a key: nothing, or it fills a key that had no entry, with a
placeholder or with the record the store returned for the id of that key. -/
theorem GetByID_view {bk : Cache B Rec} {view : B → String → Option (Entry Rec)}
    (L : BackendLaws bk view) (k : Kind S B Id Rec) (g : DB S Id Rec) (ck : CacheKind Id)
    (db : Handle) (id : Id) (w w1 : World S B Id Rec)
    (res : Option Rec × Option Error)
    (hrun : GetByID k g (NewDao db (some (xCache.toXCache ck bk))) id w = some (res, w1))
    (key : String) :
    view w1.cache key = view w.cache key
      ∨ (view w.cache key = none ∧ view w1.cache key = some .placeholder)
      ∨ (view w.cache key = none ∧ key = xCache.GetCacheKey ck id
          ∧ ∃ (r : Rec) (s : S), g.First w.db db id k.zero = ((r, none), s)
              ∧ view w1.cache key = some (.value r)) := by
  have hview := adapter_get_view L ck w.cache id key
  rcases hget : (xCache.toXCache ck bk).Get w.cache id with ⟨⟨r0, _ | e0⟩, cs⟩
  · rw [hget] at hview
    simp only [GetByID, NewDao, cacheGet, hget, Option.some.injEq, Prod.mk.injEq] at hrun
    obtain ⟨-, rfl⟩ := hrun
    exact Or.inl hview
  · rw [hget] at hview
    simp only at hview
    by_cases habsent : errorsIs e0 ErrCacheNotFound = true
    · have hnone := adapter_absent L ck w.cache cs id r0 e0 hget habsent
      rw [GetByID_of_absent k g db _ id w r0 e0 cs hget habsent] at hrun
      rcases hf : g.First w.db db id k.zero with ⟨⟨table, _ | err⟩, s⟩
      · simp only [GetByID.fetch, NewDao, dbFirst, cacheSet, hf, Option.some.injEq,
          Prod.mk.injEq] at hrun
        obtain ⟨-, rfl⟩ := hrun
        rcases adapter_set_view L ck cs id table k.ExpireTime key with h | ⟨hk, h⟩
        · exact Or.inl (h.trans hview)
        · exact Or.inr (Or.inr ⟨hk ▸ hnone, hk, table, s, rfl, h⟩)
      · by_cases hnf : errorsIs err ErrRecordNotFound = true
        · simp only [GetByID.fetch, NewDao, dbFirst, cacheSetPlaceholder, hf, hnf, if_true,
            Option.some.injEq, Prod.mk.injEq] at hrun
          obtain ⟨-, rfl⟩ := hrun
          rcases adapter_setPlaceholder_view L ck cs id key with h | ⟨hk, h⟩
          · exact Or.inl (h.trans hview)
          · exact Or.inr (Or.inl ⟨hk ▸ hnone, h⟩)
        · simp only [GetByID.fetch, NewDao, dbFirst, hf, hnf, Option.some.injEq,
            Prod.mk.injEq] at hrun
          simp only [Bool.false_eq_true, if_false, Option.some.injEq, Prod.mk.injEq] at hrun
          obtain ⟨-, rfl⟩ := hrun
          exact Or.inl hview
    · by_cases hph : (xCache.toXCache ck bk).IsPlaceholderErr e0 = true
      · simp only [GetByID, NewDao, cacheGet, hget, habsent, hph, if_true,
          Option.some.injEq, Prod.mk.injEq] at hrun
        simp only [Bool.false_eq_true, if_false, Option.some.injEq, Prod.mk.injEq] at hrun
        obtain ⟨-, rfl⟩ := hrun
        exact Or.inl hview
      · simp only [GetByID, NewDao, cacheGet, hget, habsent, hph, Option.some.injEq,
          Prod.mk.injEq] at hrun
        simp only [Bool.false_eq_true, if_false, Option.some.injEq, Prod.mk.injEq] at hrun
        obtain ⟨-, rfl⟩ := hrun
        exact Or.inl hview

/-- The `updateDataByID` of the item repository only calls the store. -/
theorem itemKind_storeOnly : (itemKind S B).StoreOnly := by
  intro g h table w
  simp only [itemKind, item_updateDataByID_eq, dbUpdates]
  split <;> rfl

/-- The `updateDataByID` of the mob repository only calls the store. -/
theorem mobKind_storeOnly : (mobKind S B).StoreOnly := by
  intro g h table w
  simp only [mobKind, mob_updateDataByID_eq, dbUpdates]
  split <;> rfl

/-- The `updateDataByID` of the room repository only calls the store. -/
theorem roomKind_storeOnly : (roomKind S B).StoreOnly := by
  intro g h table w
  simp only [roomKind, room_updateDataByID_eq, dbUpdates]
  split <;> rfl

/-- What one repository call does to a key: nothing, or it fills a key that had no
entry (with a placeholder, or with the record the store returned for the id of that
key), or it leaves the key without entry. -/
theorem Op_run_view {bk : Cache B Rec} {view : B → String → Option (Entry Rec)}
    (L : BackendLaws bk view) (k : Kind S B Id Rec) (hk : k.StoreOnly) (g : DB S Id Rec)
    (q : QueryLib P) (gq : DBQuery S Rec) (ck : CacheKind Id) (db : Handle)
    (op : Op Id Rec P) (w w1 : World S B Id Rec)
    (hrun : Op.run k g q gq (NewDao db (some (xCache.toXCache ck bk))) op w = some w1)
    (key : String) :
    view w1.cache key = view w.cache key
      ∨ (view w.cache key = none ∧ view w1.cache key = some .placeholder)
      ∨ (view w.cache key = none
          ∧ ∃ (id : Id) (r : Rec) (s s1 : S), g.First s db id k.zero = ((r, none), s1)
              ∧ key = xCache.GetCacheKey ck id ∧ view w1.cache key = some (.value r))
      ∨ view w1.cache key = none := by
  cases op with
  | Create table =>
    simp only [Op.run, Create, dbCreate, Option.some.injEq] at hrun
    subst hrun
    exact Or.inl rfl
  | CreateByTx tx table =>
    simp only [Op.run, CreateByTx, dbCreate, Option.some.injEq] at hrun
    subst hrun
    exact Or.inl rfl
  | GetByColumns params =>
    simp only [Op.run, Option.some.injEq] at hrun
    subst hrun
    exact Or.inl (by rw [GetByColumns_cache])
  | GetByID id =>
    simp only [Op.run, Option.map_eq_some', Prod.exists, exists_eq_right] at hrun
    obtain ⟨record, err, hrun⟩ := hrun
    rcases GetByID_view L k g ck db id w w1 (record, err) hrun key with
      h | h | ⟨h0, hkey, r, s, hf, h⟩
    · exact Or.inl h
    · exact Or.inr (Or.inl h)
    · exact Or.inr (Or.inr (Or.inl ⟨h0, id, r, w.db, s, hf, hkey, h⟩))
  | DeleteByID id =>
    simp only [Op.run, Option.some.injEq] at hrun
    subst hrun
    rcases hd : g.Delete w.db db id with ⟨_ | e, s⟩
    · rcases deleteCache_view L ck db id
        { db := s, cache := w.cache, trace := w.trace ++ [.dbDelete db id] } key with h | h
      · exact Or.inl (by simpa [DeleteByID, NewDao, dbDelete, hd] using h)
      · exact Or.inr (Or.inr (Or.inr (by simpa [DeleteByID, NewDao, dbDelete, hd] using h)))
    · exact Or.inl (by simp [DeleteByID, NewDao, dbDelete, hd])
  | DeleteByTx tx id =>
    simp only [Op.run, Option.some.injEq] at hrun
    subst hrun
    rcases hd : g.Delete w.db tx id with ⟨_ | e, s⟩
    · rcases deleteCache_view L ck db id
        { db := s, cache := w.cache, trace := w.trace ++ [.dbDelete tx id] } key with h | h
      · exact Or.inl (by simpa [DeleteByTx, NewDao, dbDelete, hd] using h)
      · exact Or.inr (Or.inr (Or.inr (by simpa [DeleteByTx, NewDao, dbDelete, hd] using h)))
    · exact Or.inl (by simp [DeleteByTx, NewDao, dbDelete, hd])
  | UpdateByID table =>
    simp only [Op.run, Option.some.injEq] at hrun
    subst hrun
    have hc := hk g db table w
    rcases deleteCache_view L ck db (k.ID table) (k.updateDataByID g db table w).2 key
      with h | h
    · exact Or.inl (by simpa [UpdateByID, NewDao, hc] using h)
    · exact Or.inr (Or.inr (Or.inr (by simpa [UpdateByID, NewDao] using h)))
  | UpdateByTx tx table =>
    simp only [Op.run, Option.some.injEq] at hrun
    subst hrun
    have hc := hk g tx table w
    rcases deleteCache_view L ck db (k.ID table) (k.updateDataByID g tx table w).2 key
      with h | h
    · exact Or.inl (by simpa [UpdateByTx, NewDao, hc] using h)
    · exact Or.inr (Or.inr (Or.inr (by simpa [UpdateByTx, NewDao] using h)))

/-- Looking up the key whose entry was dropped. -/
theorem MemCache.lookup_erase_self (es : List (String × Entry Rec)) (key : String) :
    List.lookup key (MemCache.erase es key) = none := by
  induction es with
  | nil => rfl
  | cons e es ih =>
    rcases e with ⟨ek, ev⟩
    by_cases he : ek = key
    · have : MemCache.erase ((ek, ev) :: es) key = MemCache.erase es key := by
        simp [MemCache.erase, List.filter, he]
      rw [this, ih]
    · have : MemCache.erase ((ek, ev) :: es) key = (ek, ev) :: MemCache.erase es key :=
        List.filter_cons_of_pos (by simpa using he)
      have hb : (key == ek) = false := by simpa using fun h1 : key = ek => he h1.symm
      rw [this]
      simp only [List.lookup, hb, ih]

/-- The reference backend keeps the contract of a cache backend. -/
theorem MemCache.backend_laws :
    BackendLaws (MemCache.backend : Cache (MemCache Rec) Rec) MemCache.view where
  get_view := by
    intro b key key1
    simp only [MemCache.backend]
    split <;> rfl
  get_absent := by
    intro b key
    simp only [MemCache.backend, MemCache.view]
    rcases h : List.lookup key b.entries with _ | (data | _)
    · simp [ErrCacheNotFound, errorsIs]
    · simp
    · simp [ErrCacheNotFound, ErrPlaceholder, errorsIs]
  set_view := by
    intro b key v ttl key1
    simp only [MemCache.backend, MemCache.view]
    by_cases hf : b.failWrites = true
    · left
      simp [hf]
    · by_cases hk : key1 = key
      · right
        subst hk
        simp [hf, List.lookup]
      · left
        have hb : (key1 == key) = false := by simpa using hk
        simp [hf, List.lookup, hb, MemCache.lookup_erase_ne _ _ _ hk]
  setPlaceholder_view := by
    intro b key key1
    simp only [MemCache.backend, MemCache.view]
    by_cases hf : b.failWrites = true
    · left
      simp [hf]
    · by_cases hk : key1 = key
      · right
        subst hk
        simp [hf, List.lookup]
      · left
        have hb : (key1 == key) = false := by simpa using hk
        simp [hf, List.lookup, hb, MemCache.lookup_erase_ne _ _ _ hk]
  del_view := by
    intro b key key1
    simp only [MemCache.backend, MemCache.view]
    by_cases hf : b.failDel = true
    · left
      simp [hf]
    · by_cases hk : key1 = key
      · right
        subst hk
        simp [hf, MemCache.lookup_erase_self]
      · left
        simp [hf, MemCache.lookup_erase_ne _ _ _ hk]

/-- The reference store answers a read by id only with a row of that id. -/
theorem Table.store_first_id [DecidableEq Id] (ID : Rec → Id)
    (apply : Rec → String × Value → Rec) (s s1 : Table Rec) (h : Handle) (id : Id)
    (dest r : Rec) (hfirst : (Table.store ID apply).First s h id dest = ((r, none), s1)) :
    ID r = id := by
  simp only [Table.store] at hfirst
  rcases hfail : s.fail with _ | e
  · simp only [hfail] at hfirst
    rcases hfind : s.rows.find? (fun r => decide (ID r = id)) with _ | r1
    · simp [hfind] at hfirst
    · simp only [hfind, Prod.mk.injEq, and_true] at hfirst
      have := List.find?_some hfind
      rw [← hfirst.1]
      simpa using this
  · simp [hfail] at hfirst

/-- C26. The per-key cache state machine. Over the adapter of any kind on a backend that
keeps the backend contract (its `Get` reports the absent condition exactly when the key
has no entry), for a kind whose `updateDataByID` only calls the store, every repository
call (`Create`, `GetByID`, `GetByColumns`, `UpdateByID`, `DeleteByID` and the
transactional variants) leaves every key in a state reached by a legal step: the state
is unchanged or moves Absent to Cached, Absent to Placeholder, Cached to Absent or
Placeholder to Absent, never Cached to Placeholder or Placeholder to Cached. More
precisely the entry of the key is unchanged, or there was none before, or there is none
after. The item, mob and room kinds are such kinds. -/
theorem key_state_machine {bk : Cache B Rec} {view : B → String → Option (Entry Rec)}
    (L : BackendLaws bk view) (k : Kind S B Id Rec) (hk : k.StoreOnly) (g : DB S Id Rec)
    (q : QueryLib P) (gq : DBQuery S Rec) (ck : CacheKind Id) (db : Handle)
    (op : Op Id Rec P) (w w1 : World S B Id Rec)
    (hrun : Op.run k g q gq (NewDao db (some (xCache.toXCache ck bk))) op w = some w1)
    (key : String) :
    legalStep (keyState (view w.cache key)) (keyState (view w1.cache key)) = true
    ∧ (view w1.cache key = view w.cache key ∨ view w.cache key = none
        ∨ view w1.cache key = none)
    ∧ (itemKind S B).StoreOnly ∧ (mobKind S B).StoreOnly ∧ (roomKind S B).StoreOnly := by
  have h : view w1.cache key = view w.cache key ∨ view w.cache key = none
      ∨ view w1.cache key = none := by
    rcases Op_run_view L k hk g q gq ck db op w w1 hrun key with
      h | ⟨h, -⟩ | ⟨h, -⟩ | h
    · exact Or.inl h
    · exact Or.inr (Or.inl h)
    · exact Or.inr (Or.inl h)
    · exact Or.inr (Or.inr h)
  refine ⟨?_, h, itemKind_storeOnly, mobKind_storeOnly, roomKind_storeOnly⟩
  rcases h with h | h | h
  · rw [h]
    cases keyState (view w.cache key) <;> rfl
  · rw [h]
    cases keyState (view w1.cache key) <;> rfl
  · rw [h]
    cases keyState (view w.cache key) <;> rfl

/-- Witness of C26: reading mob 42 through a cold cache moves the key "mob:42" from
Absent to Cached. -/
theorem key_state_machine_witness :
    keyState (MemCache.view (mobWorld [mobWith 42 100] none [] false).cache "mob:42")
      = KeyState.Absent
    ∧ keyState (MemCache.view
        ({ entries := [("mob:42", .value (mobWith 42 100))], failWrites := false,
           failDel := false } : MemCache Mob) "mob:42") = KeyState.Cached
    ∧ legalStep
        (keyState (MemCache.view (mobWorld [mobWith 42 100] none [] false).cache "mob:42"))
        (keyState (MemCache.view
          ({ entries := [("mob:42", .value (mobWith 42 100))], failWrites := false,
             failDel := false } : MemCache Mob) "mob:42")) = true :=
  ⟨by rfl, by rfl,
    (key_state_machine MemCache.backend_laws (mobKind _ _) mobKind_storeOnly mobStore
      refQuery Table.query mobCacheKind 0 (.GetByID 42)
      (mobWorld [mobWith 42 100] none [] false)
      { db := { rows := [mobWith 42 100], fail := none },
        cache := { entries := [("mob:42", .value (mobWith 42 100))], failWrites := false,
                   failDel := false },
        trace := [.cacheGet 42, .sfgDo "42", .dbFirst 0 42,
          .cacheSet 42 (some (mobWith 42 100)) 300000000000] }
      (by rfl) "mob:42").1⟩

/-- C27. Cache entries belong to their key. Over the adapter of a kind whose keys tell
ids apart, on a backend that keeps the backend contract, with a store whose read by id
returns only a record with that id: in every world reachable from one with an empty
cache by repository calls, the entry under the key of `K` is absent, a placeholder, or
a record whose id is `K`. -/
theorem cache_entry_belongs_to_key {bk : Cache B Rec}
    {view : B → String → Option (Entry Rec)} (L : BackendLaws bk view)
    (k : Kind S B Id Rec) (hk : k.StoreOnly) (g : DB S Id Rec) (q : QueryLib P)
    (gq : DBQuery S Rec) (ck : CacheKind Id) (db : Handle)
    (hinj : Function.Injective (xCache.GetCacheKey ck))
    (hstore : ∀ (s s1 : S) (h : Handle) (id : Id) (dest r : Rec),
      g.First s h id dest = ((r, none), s1) → k.ID r = id)
    (w0 w : World S B Id Rec)
    (hempty : ∀ key : String, view w0.cache key = none)
    (hreach : Reachable k g q gq (NewDao db (some (xCache.toXCache ck bk))) w0 w)
    (K : Id) :
    view w.cache (xCache.GetCacheKey ck K) = none
    ∨ view w.cache (xCache.GetCacheKey ck K) = some .placeholder
    ∨ ∃ r : Rec, view w.cache (xCache.GetCacheKey ck K) = some (.value r) ∧ k.ID r = K := by
  have hinv : ∀ (key : String) (r : Rec), view w.cache key = some (.value r) →
      key = xCache.GetCacheKey ck (k.ID r) := by
    induction hreach with
    | init =>
      intro key r h
      rw [hempty key] at h
      cases h
    | step w2 w3 op _ hrun ih =>
      intro key r h
      rcases Op_run_view L k hk g q gq ck db op w2 w3 hrun key with
        h1 | ⟨-, h1⟩ | ⟨-, id, r1, s, s1, hf, hkey, h1⟩ | h1
      · exact ih key r (h1 ▸ h)
      · rw [h1] at h
        cases h
      · rw [h1] at h
        have hr : r1 = r := by simpa using h
        subst hr
        rw [hkey, hstore s s1 db id k.zero r1 hf]
      · rw [h1] at h
        cases h
  rcases hv : view w.cache (xCache.GetCacheKey ck K) with _ | (r | _)
  · exact Or.inl rfl
  · exact Or.inr (Or.inr ⟨r, rfl, (hinj (hinv _ r hv)).symm⟩)
  · exact Or.inr (Or.inl rfl)

/-- Witness of C27: after mob 42 is read through an empty cache, the entry under the key
of 42 is a record with id 42. -/
theorem cache_entry_belongs_to_key_witness :
    MemCache.view
        ({ entries := [("mob:42", .value (mobWith 42 100))], failWrites := false,
           failDel := false } : MemCache Mob) (xCache.GetCacheKey mobCacheKind 42) = none
    ∨ MemCache.view
        ({ entries := [("mob:42", .value (mobWith 42 100))], failWrites := false,
           failDel := false } : MemCache Mob) (xCache.GetCacheKey mobCacheKind 42)
        = some .placeholder
    ∨ ∃ r : Mob, MemCache.view
        ({ entries := [("mob:42", .value (mobWith 42 100))], failWrites := false,
           failDel := false } : MemCache Mob) (xCache.GetCacheKey mobCacheKind 42)
          = some (.value r) ∧ (mobKind (Table Mob) (MemCache Mob)).ID r = 42 :=
  cache_entry_belongs_to_key MemCache.backend_laws (mobKind _ _) mobKind_storeOnly mobStore
    refQuery Table.query mobCacheKind 0 mobKey_injective
    (fun s s1 h id dest r hf => Table.store_first_id Mob.ID Mob.apply s s1 h id dest r hf)
    (mobWorld [mobWith 42 100] none [] false)
    { db := { rows := [mobWith 42 100], fail := none },
      cache := { entries := [("mob:42", .value (mobWith 42 100))], failWrites := false,
                 failDel := false },
      trace := [.cacheGet 42, .sfgDo "42", .dbFirst 0 42,
        .cacheSet 42 (some (mobWith 42 100)) 300000000000] }
    (fun _ => rfl)
    (Reachable.step _ _ (.GetByID 42) Reachable.init (by rfl)) 42

/-- Witness of C30, amended: with the store down, a mob repository without cache returns
the store error together with the zero record, which the reference store left untouched;
one with a cache returns the error with a nil record. -/
theorem getByID_failure_shape_witness :
    GetByID (mobKind _ _) mobStore (NewDao 0 none) 5
        (mobWorld [mobWith 5 1] (some (.new "driver: bad connection")) [] false)
      = some ((some Mob.zero, some (.new "driver: bad connection")),
          { db := { rows := [mobWith 5 1], fail := some (.new "driver: bad connection") },
            cache := { entries := [], failWrites := false, failDel := false },
            trace := [] ++ [.dbFirst 0 5] })
    ∧ (∀ (record : Option Mob) (e : Error) (w1 : MobWorld),
        GetByID (mobKind _ _) mobStore (NewDao 0 (some mobCache)) 5
            (mobWorld [mobWith 5 1] (some (.new "driver: bad connection")) [] false)
          = some ((record, some e), w1) → record = none)
    ∧ GetByID (mobKind _ _) mobStore (NewDao 0 (some mobCache)) 5
        (mobWorld [mobWith 5 1] (some (.new "driver: bad connection")) [] false)
      = some ((none, some (.new "driver: bad connection")),
          { db := { rows := [mobWith 5 1], fail := some (.new "driver: bad connection") },
            cache := { entries := [], failWrites := false, failDel := false },
            trace := [.cacheGet 5, .sfgDo "5", .dbFirst 0 5] }) :=
  ⟨(getByID_failure_shape (mobKind _ _) mobStore 0 mobCache 5
      (mobWorld [mobWith 5 1] (some (.new "driver: bad connection")) [] false)).2
      Mob.zero (.new "driver: bad connection")
      { rows := [mobWith 5 1], fail := some (.new "driver: bad connection") } (by rfl),
   (getByID_failure_shape (mobKind _ _) mobStore 0 mobCache 5
      (mobWorld [mobWith 5 1] (some (.new "driver: bad connection")) [] false)).1,
   by rfl⟩

end machine

end Fs
